import Mathlib

/-!
# Verification of the `SplitLayout` split-pane layout engine

A shallow embedding of `src/extraterm/src/render_process/SplitLayout.ts`.

Modelling conventions:
* DOM objects (`TabWidget`, `Tab`, `Element`, `Splitter`) are identified by
  natural-number ids.  In the TypeScript source, nodes of the layout tree are
  mutable objects compared by reference identity; in this pure model a node is
  a value and "identity" is recovered through the ids it carries, which are
  pairwise distinct in every state the engine can actually reach (the id
  counters only ever grow).  Theorems that depend on identity reasoning carry
  the corresponding distinctness hypotheses explicitly.
* In-place mutation of a node found by a tree search becomes a recursive
  rewrite that descends to the first node found in the same depth-first order
  used by the search functions of the source.
* A thrown TypeScript `TypeError` (a null/undefined dereference) is modelled
  by `Except.error ()`; operations that cannot throw keep a plain result type.
-/

namespace SplitLayout

/-- `SplitOrientation` from `gui/Splitter`. -/
inductive SplitOrientation where
  | vertical
  | horizontal
deriving DecidableEq, Repr

/-- `TabInfo`: one tab slot, a (tab handle, content element) pair.
The lazily created `container` element plays no role in the tree algorithms
and is omitted. -/
structure TabInfo where
  tab : Nat
  content : Nat
deriving DecidableEq, Repr

/-- The tree node type: `SplitterInfoNode | TabWidgetInfoNode`.
`emptyTab` / `emptyTabContent` are the lazily materialised empty-state
placeholder (`null` until the first `update()` with an empty-split factory).
`TabInfo` leaves are inlined as the `children` list of a `tabwidget`. -/
inductive InfoNode where
  | tabwidget (tabWidget : Nat) (children : List TabInfo)
      (emptyTab : Option Nat) (emptyTabContent : Option Nat)
  | splitter (orientation : SplitOrientation) (children : List InfoNode)

mutual

def InfoNode.decEq : (a b : InfoNode) → Decidable (a = b)
  | .tabwidget w1 c1 t1 e1, .tabwidget w2 c2 t2 e2 =>
      if h : w1 = w2 ∧ c1 = c2 ∧ t1 = t2 ∧ e1 = e2 then
        .isTrue (by obtain ⟨rfl, rfl, rfl, rfl⟩ := h; rfl)
      else
        .isFalse (by intro he; cases he; exact h ⟨rfl, rfl, rfl, rfl⟩)
  | .tabwidget _ _ _ _, .splitter _ _ => .isFalse (by intro he; cases he)
  | .splitter _ _, .tabwidget _ _ _ _ => .isFalse (by intro he; cases he)
  | .splitter o1 k1, .splitter o2 k2 =>
      if h : o1 = o2 then
        match InfoNode.decEqList k1 k2 with
        | .isTrue hk => .isTrue (by cases h; cases hk; rfl)
        | .isFalse hk => .isFalse (by intro he; cases he; exact hk rfl)
      else
        .isFalse (by intro he; cases he; exact h rfl)

def InfoNode.decEqList : (a b : List InfoNode) → Decidable (a = b)
  | [], [] => .isTrue rfl
  | [], _ :: _ => .isFalse (by intro he; cases he)
  | _ :: _, [] => .isFalse (by intro he; cases he)
  | a :: as, b :: bs =>
      match InfoNode.decEq a b with
      | .isTrue h1 =>
          match InfoNode.decEqList as bs with
          | .isTrue h2 => .isTrue (by cases h1; cases h2; rfl)
          | .isFalse h2 => .isFalse (by intro he; cases he; exact h2 rfl)
      | .isFalse h1 => .isFalse (by intro he; cases he; exact h1 rfl)

end

instance : DecidableEq InfoNode := InfoNode.decEq

/-- The engine state: `_rootInfoNode` plus the module-level id counters. -/
structure State where
  rootInfoNode : InfoNode
  tabWidgetIdCounter : Nat
  tabIdCounter : Nat
deriving DecidableEq

/-- The state built by the `SplitLayout` constructor: a single empty
tab-group whose widget takes the first generated id. -/
def initialState : State :=
  { rootInfoNode := .tabwidget 1 [] none none
    tabWidgetIdCounter := 1
    tabIdCounter := 0 }

/-! ## Tree search functions (the free functions at the bottom of the file) -/

mutual

/-- `getAllTabContents` (source line 959): slot contents in depth-first order. -/
def getAllTabContents : InfoNode → List Nat
  | .tabwidget _ children _ _ => children.map (·.content)
  | .splitter _ children => getAllTabContentsList children

def getAllTabContentsList : List InfoNode → List Nat
  | [] => []
  | k :: ks => getAllTabContents k ++ getAllTabContentsList ks

end

mutual

/-- `getAllTabWidgets` (source line 967): widget ids in depth-first order. -/
def getAllTabWidgets : InfoNode → List Nat
  | .tabwidget w _ _ _ => [w]
  | .splitter _ children => getAllTabWidgetsList children

def getAllTabWidgetsList : List InfoNode → List Nat
  | [] => []
  | k :: ks => getAllTabWidgets k ++ getAllTabWidgetsList ks

end

mutual

/-- `findTabWidgetInfoByTabWidget` (source line 822): first tab-group node
with the given widget id, in depth-first order. -/
def findTabWidgetInfoByTabWidget : InfoNode → Nat → Option InfoNode
  | .tabwidget w children et ec, tabWidget =>
      if w = tabWidget then some (.tabwidget w children et ec) else none
  | .splitter _ children, tabWidget =>
      findTabWidgetInfoByTabWidgetList children tabWidget

def findTabWidgetInfoByTabWidgetList : List InfoNode → Nat → Option InfoNode
  | [], _ => none
  | k :: ks, tabWidget =>
      match findTabWidgetInfoByTabWidget k tabWidget with
      | some info => some info
      | none => findTabWidgetInfoByTabWidgetList ks tabWidget

end

mutual

/-- `findTabWidgetInfoByTabContent` (source line 865): the owning tab-group
node together with the slot (`none` when the content is the group's
empty-state placeholder, which the source checks first). -/
def findTabWidgetInfoByTabContent : InfoNode → Nat → Option (InfoNode × Option TabInfo)
  | .tabwidget w children et ec, tabContent =>
      if ec = some tabContent then some (.tabwidget w children et ec, none)
      else
        match children.find? (·.content = tabContent) with
        | some tabInfo => some (.tabwidget w children et ec, some tabInfo)
        | none => none
  | .splitter _ children, tabContent =>
      findTabWidgetInfoByTabContentList children tabContent

def findTabWidgetInfoByTabContentList :
    List InfoNode → Nat → Option (InfoNode × Option TabInfo)
  | [], _ => none
  | k :: ks, tabContent =>
      match findTabWidgetInfoByTabContent k tabContent with
      | some info => some info
      | none => findTabWidgetInfoByTabContentList ks tabContent

end

mutual

/-- `findTabWidgetInfoByTab` (source line 888): owning group of a tab handle;
the empty-state tab is only recognised when the group has no slots. -/
def findTabWidgetInfoByTab : InfoNode → Nat → Option (InfoNode × Option TabInfo)
  | .tabwidget w children et ec, tab =>
      if children.length = 0 then
        if et = some tab then some (.tabwidget w children et ec, none) else none
      else
        match children.find? (·.tab = tab) with
        | some tabInfo => some (.tabwidget w children et ec, some tabInfo)
        | none => none
  | .splitter _ children, tab => findTabWidgetInfoByTabList children tab

def findTabWidgetInfoByTabList : List InfoNode → Nat → Option (InfoNode × Option TabInfo)
  | [], _ => none
  | k :: ks, tab =>
      match findTabWidgetInfoByTab k tab with
      | some info => some info
      | none => findTabWidgetInfoByTabList ks tab

end

mutual

/-- `firstTabWidgetInfo` (source line 851): leftmost (depth-first) tab-group. -/
def firstTabWidgetInfo : InfoNode → Option InfoNode
  | .tabwidget w children et ec => some (.tabwidget w children et ec)
  | .splitter _ children => firstTabWidgetInfoList children

def firstTabWidgetInfoList : List InfoNode → Option InfoNode
  | [] => none
  | k :: ks =>
      match firstTabWidgetInfo k with
      | some info => some info
      | none => firstTabWidgetInfoList ks

end

/-- Whether `findPathToTabContent` (source line 915) succeeds on this
subtree: the content is a slot content or a materialised empty-state
placeholder inside it. -/
def containsTabContent (tabContent : Nat) (n : InfoNode) : Bool :=
  (findTabWidgetInfoByTabContent n tabContent).isSome

/-- Whether `findPathToTabWidget` (source line 940) succeeds on this subtree. -/
def containsTabWidget (tabWidget : Nat) (n : InfoNode) : Bool :=
  (findTabWidgetInfoByTabWidget n tabWidget).isSome

/-! ## Simple mutation operations -/

mutual

/-- The tree rewrite of `appendTab` (source line 169): push a new slot onto
the first (depth-first) group with the given widget id; `none` when
`findTabWidgetInfoByTabWidget` would return `null`. -/
def appendTabNode (tabWidget tab tabContent : Nat) : InfoNode → Option InfoNode
  | .tabwidget w children et ec =>
      if w = tabWidget then
        some (.tabwidget w (children ++ [⟨tab, tabContent⟩]) et ec)
      else none
  | .splitter o children =>
      (appendTabNodeList tabWidget tab tabContent children).map (.splitter o ·)

def appendTabNodeList (tabWidget tab tabContent : Nat) :
    List InfoNode → Option (List InfoNode)
  | [] => none
  | k :: ks =>
      match appendTabNode tabWidget tab tabContent k with
      | some k1 => some (k1 :: ks)
      | none => (appendTabNodeList tabWidget tab tabContent ks).map (k :: ·)

end

/-- `appendTab` (source line 169): on lookup failure the error is logged and
the state is returned unchanged. -/
def appendTab (st : State) (tabWidget tab tabContent : Nat) : State :=
  match appendTabNode tabWidget tab tabContent st.rootInfoNode with
  | none => st
  | some root1 => { st with rootInfoNode := root1 }

mutual

/-- The tree rewrite of `removeTabContent` (source line 188): drop the slot
found by content identity.  When the content is a group's empty-state
placeholder the source filters against a `null` slot, removing nothing. -/
def removeTabContentNode (tabContent : Nat) : InfoNode → Option InfoNode
  | .tabwidget w children et ec =>
      if ec = some tabContent then some (.tabwidget w children et ec)
      else
        match children.find? (·.content = tabContent) with
        | some tabInfo =>
            some (.tabwidget w (children.filter (· ≠ tabInfo)) et ec)
        | none => none
  | .splitter o children =>
      (removeTabContentNodeList tabContent children).map (.splitter o ·)

def removeTabContentNodeList (tabContent : Nat) : List InfoNode → Option (List InfoNode)
  | [] => none
  | k :: ks =>
      match removeTabContentNode tabContent k with
      | some k1 => some (k1 :: ks)
      | none => (removeTabContentNodeList tabContent ks).map (k :: ·)

end

/-- `removeTabContent` (source line 188): no-op (plus a severe log) when the
content is not found anywhere. -/
def removeTabContent (st : State) (tabContent : Nat) : State :=
  match removeTabContentNode tabContent st.rootInfoNode with
  | none => st
  | some root1 => { st with rootInfoNode := root1 }

/-- `getTabContentsByTabWidget` (source line 207): `none` models the `null`
returned (with a severe log) when the widget is not in the tree. -/
def getTabContentsByTabWidget (st : State) (tabWidget : Nat) : Option (List Nat) :=
  match findTabWidgetInfoByTabWidget st.rootInfoNode tabWidget with
  | none => none
  | some (.tabwidget _ children _ ec) =>
      if children.length = 0 then
        some (match ec with | some e => [e] | none => [])
      else
        some (children.map (·.content))
  | some (.splitter _ _) => none

/-- The effective start position of a JavaScript `Array.prototype.slice`
argument: negative indices count from the end, with floor 0; positive
indices are capped at the length. -/
def jsSliceIdx (len : Nat) (i : Int) : Nat :=
  if i < 0 then (len + i).toNat else min i.toNat len

def jsSliceTo (l : List α) (i : Int) : List α := l.take (jsSliceIdx l.length i)

def jsSliceFrom (l : List α) (i : Int) : List α := l.drop (jsSliceIdx l.length i)

mutual

/-- Replace the first (depth-first) occurrence of the subtree value `old`
with `new1`.  Under the distinct-id conditions of the reachable states the
occurrence is unique, so this captures mutating a node found by reference. -/
def replaceSubtree (old new1 : InfoNode) (n : InfoNode) : Option InfoNode :=
  if n = old then some new1
  else
    match n with
    | .tabwidget _ _ _ _ => none
    | .splitter o children => (replaceSubtreeList old new1 children).map (.splitter o ·)

def replaceSubtreeList (old new1 : InfoNode) : List InfoNode → Option (List InfoNode)
  | [] => none
  | k :: ks =>
      match replaceSubtree old new1 k with
      | some k1 => some (k1 :: ks)
      | none => (replaceSubtreeList old new1 ks).map (k :: ·)

end

/-- `moveTabToTabWidget` (source line 428).  The two initial lookups are
dereferenced without a null check, so a missing tab or target widget throws
(`Except.error`).  A hit on a group's empty-state tab would splice a `null`
slot into the children array, which a slot list cannot represent; that
degenerate branch is also mapped to `Except.error` and no claim relies on
it. -/
def moveTabToTabWidget (st : State) (tabElement targetTabWidget : Nat)
    (tabIndex : Int) : Except Unit State :=
  match findTabWidgetInfoByTab st.rootInfoNode tabElement with
  | none => .error ()
  | some (_, none) => .error ()
  | some (sourceTabWidgetInfo, some tabInfo) =>
      match findTabWidgetInfoByTabWidget st.rootInfoNode targetTabWidget with
      | none => .error ()
      | some targetTabWidgetInfo =>
          match sourceTabWidgetInfo, targetTabWidgetInfo with
          | .tabwidget sw sch set sec, .tabwidget tw tch tet tec =>
              let tabIndex1 : Int := min tabIndex (tch.length : Int)
              if (InfoNode.tabwidget sw sch set sec) = .tabwidget tw tch tet tec then
                let frontList := (jsSliceTo sch tabIndex1).filter (· ≠ tabInfo)
                let tailList := (jsSliceFrom sch tabIndex1).filter (· ≠ tabInfo)
                let source1 : InfoNode :=
                  .tabwidget sw (frontList ++ tabInfo :: tailList) set sec
                match replaceSubtree (.tabwidget sw sch set sec) source1 st.rootInfoNode with
                | some root1 => .ok { st with rootInfoNode := root1 }
                | none => .error ()
              else
                let source1 : InfoNode :=
                  .tabwidget sw (sch.filter (· ≠ tabInfo)) set sec
                let frontList := jsSliceTo tch tabIndex1
                let tailList := jsSliceFrom tch tabIndex1
                let target1 : InfoNode :=
                  .tabwidget tw (frontList ++ tabInfo :: tailList) tet tec
                match replaceSubtree (.tabwidget sw sch set sec) source1 st.rootInfoNode with
                | none => .error ()
                | some root1 =>
                    match replaceSubtree (.tabwidget tw tch tet tec) target1 root1 with
                    | some root2 => .ok { st with rootInfoNode := root2 }
                    | none => .error ()
          | _, _ => .error ()

/-! ## Split operations -/

/-- `_createTabWidgetInfo` (source line 485) together with
`_nextTabWidgetId`: the new group takes id `counter + 1`. -/
def createTabWidgetInfo (counter : Nat) (children : List TabInfo) : InfoNode :=
  .tabwidget (counter + 1) children none none

mutual

/-- The tree rewrite of `splitAfterTabWidget` (source line 304) below the
root: descend (depth-first, as `findPathToTabWidget` does) to the group with
id `tabWidget`; its parent splitter inserts `newTW` right after it when the
orientation matches (line 326), otherwise wraps it in a fresh splitter pair
(line 331).  `parentO` is the orientation of the splitter owning this child
list. -/
def splitAfterTWKids (tabWidget : Nat) (orientation parentO : SplitOrientation)
    (newTW : InfoNode) : List InfoNode → Option (List InfoNode)
  | [] => none
  | k :: ks =>
      match k with
      | .tabwidget w children et ec =>
          if w = tabWidget then
            if parentO = orientation then
              some (.tabwidget w children et ec :: newTW :: ks)
            else
              some (.splitter orientation [.tabwidget w children et ec, newTW] :: ks)
          else
            (splitAfterTWKids tabWidget orientation parentO newTW ks).map (k :: ·)
      | .splitter o2 kids2 =>
          match splitAfterTWKids tabWidget orientation o2 newTW kids2 with
          | some kids3 => some (.splitter o2 kids3 :: ks)
          | none => (splitAfterTWKids tabWidget orientation parentO newTW ks).map (k :: ·)

end

/-- `splitAfterTabWidget` (source line 304).  Returns the updated state and
the id of the new empty group (`none` models the `null` return after the
severe log when the widget is not found). -/
def splitAfterTabWidget (st : State) (tabWidget : Nat)
    (orientation : SplitOrientation) : State × Option Nat :=
  let newTW := createTabWidgetInfo st.tabWidgetIdCounter []
  let newId := st.tabWidgetIdCounter + 1
  match st.rootInfoNode with
  | .tabwidget w children et ec =>
      if w = tabWidget then
        -- Path length 1: `_splitAfterTabWidgetIntoSplitter` becomes the root.
        ({ st with
            rootInfoNode := .splitter orientation [.tabwidget w children et ec, newTW]
            tabWidgetIdCounter := newId }, some newId)
      else (st, none)
  | .splitter o kids =>
      match splitAfterTWKids tabWidget orientation o newTW kids with
      | some kids1 =>
          ({ st with
              rootInfoNode := .splitter o kids1
              tabWidgetIdCounter := newId }, some newId)
      | none => (st, none)

/-- Does this group hold `tabContent` as a slot content (not as the
empty-state placeholder)? -/
def hasSlotContent (tabContent : Nat) : InfoNode → Bool
  | .tabwidget _ children _ _ => children.any (·.content = tabContent)
  | .splitter _ _ => false

/-- `_splitTabWidgetAtTabContent` (source line 462): partition the slot list
right after the slot owning `tabContent`; the second half moves into a new
group (id `counter + 1`). -/
def splitTabWidgetAtTabContent (counter : Nat) (tabContent : Nat)
    (w : Nat) (children : List TabInfo) (et ec : Option Nat) : InfoNode × InfoNode :=
  let splitIndex := (children.map (·.content)).indexOf tabContent + 1
  (.tabwidget w (children.take splitIndex) et ec,
   createTabWidgetInfo counter (children.drop splitIndex))

mutual

/-- The tree rewrite of `splitAfterTabContent` (source line 359) for a slot
content below the root: descend to the group holding the slot; its parent
splitter either receives the second half of the partition as a new sibling
(same orientation, line 403) or sees the group replaced by a fresh splitter
pair (line 409). -/
def splitAfterContentKids (tabContent : Nat) (orientation parentO : SplitOrientation)
    (counter : Nat) : List InfoNode → Option (List InfoNode)
  | [] => none
  | k :: ks =>
      match k with
      | .tabwidget w children et ec =>
          if children.any (·.content = tabContent) then
            let pair := splitTabWidgetAtTabContent counter tabContent w children et ec
            if parentO = orientation then
              some (pair.1 :: pair.2 :: ks)
            else
              some (.splitter orientation [pair.1, pair.2] :: ks)
          else
            (splitAfterContentKids tabContent orientation parentO counter ks).map (k :: ·)
      | .splitter o2 kids2 =>
          match splitAfterContentKids tabContent orientation o2 counter kids2 with
          | some kids3 => some (.splitter o2 kids3 :: ks)
          | none =>
              (splitAfterContentKids tabContent orientation parentO counter ks).map (k :: ·)

end

/-- `splitAfterTabContent` (source line 359).  When the first depth-first
hit for the content is an empty-state placeholder the call delegates to
`splitAfterTabWidget` on the owning group (lines 370, 388, 420); when it is
a slot of the root group a fresh splitter becomes the root (line 380);
otherwise the slot list is partitioned at the parent splitter. -/
def splitAfterTabContent (st : State) (tabContent : Nat)
    (orientation : SplitOrientation) : State × Option Nat :=
  match findTabWidgetInfoByTabContent st.rootInfoNode tabContent with
  | none => (st, none)
  | some (.splitter _ _, _) => (st, none)
  | some (.tabwidget w _ _ _, none) => splitAfterTabWidget st w orientation
  | some (.tabwidget _ _ _ _, some _) =>
      match st.rootInfoNode with
      | .tabwidget w children et ec =>
          let pair := splitTabWidgetAtTabContent st.tabWidgetIdCounter tabContent w children et ec
          ({ st with
              rootInfoNode := .splitter orientation [pair.1, pair.2]
              tabWidgetIdCounter := st.tabWidgetIdCounter + 1 },
           some (st.tabWidgetIdCounter + 1))
      | .splitter o kids =>
          match splitAfterContentKids tabContent orientation o st.tabWidgetIdCounter kids with
          | some kids1 =>
              ({ st with
                  rootInfoNode := .splitter o kids1
                  tabWidgetIdCounter := st.tabWidgetIdCounter + 1 },
               some (st.tabWidgetIdCounter + 1))
          | none => (st, none)

/-- `swapArrayItems` (source line 1068). -/
def swapArrayItems [DecidableEq α] (array : List α) (item1 item2 : α) : List α :=
  array.map (fun item => if item = item1 then item2 else if item = item2 then item1 else item)

/-- Is this node the tab-group with the given widget id? -/
def isTabWidgetWithId (tabWidget : Nat) : InfoNode → Bool
  | .tabwidget w _ _ _ => w = tabWidget
  | .splitter _ _ => false

mutual

/-- The parent-locating swap of `splitBeforeTabWidget` (source lines
344-354): find the splitter whose direct child is the group `newId` (the
group just created by `splitAfterTabWidget`, whose id is therefore unique,
so checking direct children before descending agrees with the source's
depth-first path search), look the original group `tabWidget` up inside
that splitter, and swap the two in its child list.  `some (.error ())`
models the throw when the inner lookup comes back `null`. -/
def swapParentNode (newId tabWidget : Nat) :
    InfoNode → Option (Except Unit InfoNode)
  | .tabwidget _ _ _ _ => none
  | .splitter o kids =>
      if kids.any (isTabWidgetWithId newId) then
        match findTabWidgetInfoByTabWidgetList kids tabWidget with
        | none => some (.error ())
        | some twInfo =>
            match kids.find? (isTabWidgetWithId newId) with
            | some newNode => some (.ok (.splitter o (swapArrayItems kids newNode twInfo)))
            | none => some (.error ())
      else
        match swapParentList newId tabWidget kids with
        | some (.ok kids1) => some (.ok (.splitter o kids1))
        | some (.error e) => some (.error e)
        | none => none

def swapParentList (newId tabWidget : Nat) :
    List InfoNode → Option (Except Unit (List InfoNode))
  | [] => none
  | k :: ks =>
      match swapParentNode newId tabWidget k with
      | some (.ok k1) => some (.ok (k1 :: ks))
      | some (.error e) => some (.error e)
      | none =>
          match swapParentList newId tabWidget ks with
          | some (.ok ks1) => some (.ok (k :: ks1))
          | some (.error e) => some (.error e)
          | none => none

end

/-- `splitBeforeTabWidget` (source line 341): `splitAfterTabWidget`
followed by swapping the new group with the original in their common parent
splitter.  When the split fails the subsequent path lookup dereferences
`null` and throws. -/
def splitBeforeTabWidget (st : State) (tabWidget : Nat)
    (orientation : SplitOrientation) : State × Except Unit (Option Nat) :=
  let res := splitAfterTabWidget st tabWidget orientation
  match res.2 with
  | none => (res.1, .error ())
  | some newId =>
      match swapParentNode newId tabWidget res.1.rootInfoNode with
      | some (.ok root1) => ({ res.1 with rootInfoNode := root1 }, .ok (some newId))
      | some (.error e) => (res.1, .error e)
      | none => (res.1, .error ())

/-! ## Closing a split -/

mutual

/-- The mutation of `_closeTabWidgetSplitterSplit` (source line 563) on the
splitter side: `firstTabWidgetInfo` locates the leftmost (depth-first)
tab-group of the subtree and the absorbed slots are appended to its slot
list.  `none` models the throw on `destinationTabWidgetInfo.children` when
the subtree holds no tab-group at all. -/
def appendToFirstTabWidget (extra : List TabInfo) : InfoNode → Option InfoNode
  | .tabwidget w children et ec => some (.tabwidget w (children ++ extra) et ec)
  | .splitter o kids => (appendToFirstTabWidgetList extra kids).map (.splitter o ·)

def appendToFirstTabWidgetList (extra : List TabInfo) :
    List InfoNode → Option (List InfoNode)
  | [] => none
  | k :: ks =>
      match appendToFirstTabWidget extra k with
      | some k1 => some (k1 :: ks)
      | none => (appendToFirstTabWidgetList extra ks).map (k :: ·)

end

/-- The merge step of `closeSplitAtTabContent` (source lines 536-559) at the
parent splitter's child list, where position `j` holds the tab-group that
owns the content.  The merge partner is the right neighbour, or the left one
when the group is the last child (lines 540-543).  With a single child the
JavaScript index becomes `-1` and reading `children[-1].type` throws.  The
final `both splitters` case is dead (one of the pair is the tab-group at
`j`); the source takes no merge branch there. -/
def mergeAtIndexPair (kids : List InfoNode) (index : Nat) : Except Unit (List InfoNode) :=
  match kids[index]?, kids[index + 1]? with
  | some (.tabwidget lw lch le1 le2), some (.tabwidget _ rch _ _) =>
      .ok ((kids.set index (.tabwidget lw (lch ++ rch) le1 le2)).eraseIdx (index + 1))
  | some (.tabwidget _ lch _ _), some (.splitter ro rkids) =>
      match appendToFirstTabWidget lch (.splitter ro rkids) with
      | none => .error ()
      | some right1 => .ok ((kids.set (index + 1) right1).eraseIdx index)
  | some (.splitter lo lkids), some (.tabwidget _ rch _ _) =>
      match appendToFirstTabWidget rch (.splitter lo lkids) with
      | none => .error ()
      | some left1 => .ok ((kids.set index left1).eraseIdx (index + 1))
  | some (.splitter _ _), some (.splitter _ _) => .ok kids
  | _, _ => .error ()

def mergeAtTabWidget (kids : List InfoNode) (j : Nat) : Except Unit (List InfoNode) :=
  if kids.length ≤ 1 then .error ()
  else mergeAtIndexPair kids (if j + 1 = kids.length then j - 1 else j)

/-- Locate the merge site of `closeSplitAtTabContent`: walk a splitter's
child list (depth-first, mirroring `findPathToTabContent`); the first child
subtree holding the content either is the owning tab-group itself — then
this list is the parent splitter's `children` and the merge happens here —
or is a splitter to descend into.  `pre` is the reversed prefix already
passed. -/
def closeMergeScan (tabContent : Nat) (pre : List InfoNode) :
    List InfoNode → Option (Except Unit (List InfoNode))
  | [] => none
  | k :: ks =>
      if containsTabContent tabContent k then
        match k with
        | .tabwidget w children et ec =>
            some (mergeAtTabWidget (pre.reverse ++ .tabwidget w children et ec :: ks)
                    pre.length)
        | .splitter o2 kids2 =>
            match closeMergeScan tabContent [] kids2 with
            | some (.ok kids3) => some (.ok (pre.reverse ++ .splitter o2 kids3 :: ks))
            | some (.error e) => some (.error e)
            | none => none
      else closeMergeScan tabContent (k :: pre) ks

/-!
The pure reading of `_removeRedundantSplitters` (source line 573) and
`_removeRedundantSplittersFromParent` (source line 583).

The imperative pass needs care: when `FromParent(node)` meets a child `kid`
that is a splitter with exactly one child `c`, it splices `c` into `node`'s
child array and then recurses into the now *detached* `kid`, whose `children`
array still aliases `[c]`.  Inside that recursive call a conditional splice
would hit only the detached array, so `c` itself is never collapsed even if
it is again a single-child splitter; but the unconditional recursion
`FromParent(c)` does process the live children of `c`.  The net effect on
the live tree is therefore:

* a child that is a single-child splitter is replaced by its child `c`, and
  then the children of `c` (not `c` itself) are processed recursively
  (`collapsePromoted`);
* any other splitter child keeps its arity and has its children processed
  (`collapseChild`);
* at the root (`_removeRedundantSplitters`), a single-child splitter root is
  replaced by its child with no further processing, otherwise the root's
  children are processed.
-/

mutual

def collapseChild : InfoNode → InfoNode
  | .tabwidget w children et ec => .tabwidget w children et ec
  | .splitter o kids =>
      match kids with
      | [c] => collapsePromoted c
      | [] => .splitter o []
      | c1 :: c2 :: cs => .splitter o (collapseChildren (c1 :: c2 :: cs))
termination_by n => sizeOf n

def collapsePromoted : InfoNode → InfoNode
  | .tabwidget w children et ec => .tabwidget w children et ec
  | .splitter o kids => .splitter o (collapseChildren kids)
termination_by n => sizeOf n

def collapseChildren : List InfoNode → List InfoNode
  | [] => []
  | k :: ks => collapseChild k :: collapseChildren ks
termination_by l => sizeOf l

end

/-- `_removeRedundantSplitters` (source line 573). -/
def removeRedundantSplitters : InfoNode → InfoNode
  | .tabwidget w children et ec => .tabwidget w children et ec
  | .splitter o kids =>
      match kids with
      | [c] => c
      | [] => .splitter o []
      | c1 :: c2 :: cs => .splitter o (collapseChildren (c1 :: c2 :: cs))

/-- `closeSplitAtTabContent` (source line 514).

With the root a plain tab-group: a hit on the empty-state placeholder gives
a length-1 path and `tabWidgetInfo` stays `null` (silent no-op); a hit on a
slot gives the path `[tabwidget, tabinfo]` whose `splitterInfo` lookup is
`path[-1] = undefined`, so `splitterInfo.children` throws.  With a splitter
root the merge happens at the parent splitter of the owning group and is
followed by `_removeRedundantSplitters` on the whole tree. -/
def closeSplitAtTabContent (st : State) (tabContent : Nat) : Except Unit State :=
  match st.rootInfoNode with
  | .tabwidget _w children _et ec =>
      if ec = some tabContent then .ok st
      else if children.any (·.content = tabContent) then .error ()
      else
        -- path is null: severe log, no-op
        .ok st
  | .splitter o kids =>
      match closeMergeScan tabContent [] kids with
      | none => .ok st
      | some (.error e) => .error e
      | some (.ok kids1) =>
          .ok { st with rootInfoNode := removeRedundantSplitters (.splitter o kids1) }

/-! ## The empty-state materialisation performed by `update()` -/

mutual

/-- The tree-model effect of the empty-group branch of `_updateTabWidget`
(source lines 795-811) on one group: when the group `tabWidget` has no slots
and no materialised placeholder yet, `update()` (with an empty-split factory
configured) creates the synthetic tab (next tab id) and the factory-produced
content element, modelled by the caller-chosen fresh ids `tabId` /
`contentId`.  An already materialised placeholder is refreshed in place and
keeps its identity. -/
def materializeEmptyNode (tabWidget tabId contentId : Nat) : InfoNode → InfoNode
  | .tabwidget w children et ec =>
      if w = tabWidget ∧ children.length = 0 then
        .tabwidget w children (some (et.getD tabId)) (some (ec.getD contentId))
      else
        .tabwidget w children et ec
  | .splitter o kids => .splitter o (materializeEmptyList tabWidget tabId contentId kids)

def materializeEmptyList (tabWidget tabId contentId : Nat) :
    List InfoNode → List InfoNode
  | [] => []
  | k :: ks =>
      materializeEmptyNode tabWidget tabId contentId k ::
        materializeEmptyList tabWidget tabId contentId ks

end

/-- State-level wrapper for `materializeEmptyNode`: the synthetic tab takes
the next generated tab id. -/
def materializeEmpty (st : State) (tabWidget contentId : Nat) : State :=
  { st with
      rootInfoNode :=
        materializeEmptyNode tabWidget (st.tabIdCounter + 1) contentId st.rootInfoNode
      tabIdCounter := st.tabIdCounter + 1 }

/-! ## Directional navigation (source lines 597-637)

The bounding boxes come from the live widget toolkit (`getPanePositions`
reads `getBoundingClientRect`, divider sizes and pane sizes), so the
geometry enters the model as a caller-supplied list of per-group boxes, as
the claims state.  Coordinates are rationals. -/

/-- `TabWidgetPosition` (source line 60): a box plus its owning group. -/
structure TabWidgetPosition where
  left : Rat
  top : Rat
  right : Rat
  bottom : Rat
  width : Rat
  height : Rat
  tabWidgetInfo : Nat
deriving DecidableEq, Repr

/-- `Matrix2D` (source line 65): `[m0, m1, m2, m3]`. -/
structure Matrix2D where
  m0 : Rat
  m1 : Rat
  m2 : Rat
  m3 : Rat
deriving DecidableEq, Repr

/-- `transform2dPoint` (source line 1062). -/
def transform2dPoint (point : Rat × Rat) (matrix : Matrix2D) : Rat × Rat :=
  (point.1 * matrix.m0 + point.2 * matrix.m2,
   point.1 * matrix.m1 + point.2 * matrix.m3)

/-- `transformTabWidgetPosition` (source line 1043). -/
def transformTabWidgetPosition (position : TabWidgetPosition)
    (matrix : Matrix2D) : TabWidgetPosition :=
  let topLeft := transform2dPoint (position.left, position.top) matrix
  let bottomRight := transform2dPoint (position.right, position.bottom) matrix
  let left := min topLeft.1 bottomRight.1
  let top := min topLeft.2 bottomRight.2
  let bottom := max topLeft.2 bottomRight.2
  let right := max topLeft.1 bottomRight.1
  { left := left, top := top, bottom := bottom, right := right,
    width := right - left, height := bottom - top,
    tabWidgetInfo := position.tabWidgetInfo }

/-- `_getTabWidgetInDirection` (source line 613) over the supplied raw
positions.  `startPosition` is `filter(...)[0]`, dereferenced without a
null check, so a widget with no box throws.  The candidate sort is
JavaScript's stable `Array.prototype.sort` with a comparator ordering by
the transformed left edge; a stable sort by that key produces one
well-defined list, modelled here by the stable `List.insertionSort`. -/
def getTabWidgetInDirection (rawPositions : List TabWidgetPosition)
    (tabWidget : Nat) (transformMatrix : Matrix2D) : Except Unit (Option Nat) :=
  let positions := rawPositions.map (transformTabWidgetPosition · transformMatrix)
  match (positions.filter (·.tabWidgetInfo = tabWidget)).head? with
  | none => .error ()
  | some startPosition =>
      let startCenterX := (startPosition.left + startPosition.right) / 2
      let startCenterY := (startPosition.top + startPosition.bottom) / 2
      let hitPositions := positions.filter (fun pos =>
        startCenterX < pos.left ∧ startCenterY < pos.bottom ∧ pos.top ≤ startCenterY)
      let sorted := hitPositions.insertionSort (fun a b => a.left ≤ b.left)
      .ok (sorted.head?.map (·.tabWidgetInfo))

/-- `getTabWidgetToLeft` (source line 597). -/
def getTabWidgetToLeft (rawPositions : List TabWidgetPosition) (tabWidget : Nat) :
    Except Unit (Option Nat) :=
  getTabWidgetInDirection rawPositions tabWidget ⟨-1, 0, 0, 1⟩

/-- `getTabWidgetToRight` (source line 601). -/
def getTabWidgetToRight (rawPositions : List TabWidgetPosition) (tabWidget : Nat) :
    Except Unit (Option Nat) :=
  getTabWidgetInDirection rawPositions tabWidget ⟨1, 0, 0, 1⟩

/-- `getTabWidgetAbove` (source line 605). -/
def getTabWidgetAbove (rawPositions : List TabWidgetPosition) (tabWidget : Nat) :
    Except Unit (Option Nat) :=
  getTabWidgetInDirection rawPositions tabWidget ⟨0, 1, -1, 0⟩

/-- `getTabWidgetBelow` (source line 609). -/
def getTabWidgetBelow (rawPositions : List TabWidgetPosition) (tabWidget : Nat) :
    Except Unit (Option Nat) :=
  getTabWidgetInDirection rawPositions tabWidget ⟨0, -1, 1, 0⟩

/-! ## Operation sequences -/

/-- The mutating public operations of the engine, for reasoning about
arbitrary call sequences.  Operations that throw leave the state as it was
at the point of the throw, which for every operation here is the state at
entry (no mutation precedes a possible throw). -/
inductive Op where
  | appendTab (tabWidget tab tabContent : Nat)
  | removeTabContent (tabContent : Nat)
  | moveTabToTabWidget (tabElement targetTabWidget : Nat) (tabIndex : Int)
  | splitAfterTabWidget (tabWidget : Nat) (orientation : SplitOrientation)
  | splitAfterTabContent (tabContent : Nat) (orientation : SplitOrientation)
  | splitBeforeTabWidget (tabWidget : Nat) (orientation : SplitOrientation)
  | closeSplitAtTabContent (tabContent : Nat)
  | materializeEmpty (tabWidget contentId : Nat)
deriving DecidableEq, Repr

/-- Apply one operation; a thrown exception propagates to the caller with
the tree unchanged. -/
def applyOp (st : State) : Op → State
  | .appendTab tabWidget tab tabContent => appendTab st tabWidget tab tabContent
  | .removeTabContent tabContent => removeTabContent st tabContent
  | .moveTabToTabWidget tabElement targetTabWidget tabIndex =>
      match moveTabToTabWidget st tabElement targetTabWidget tabIndex with
      | .ok st1 => st1
      | .error _ => st
  | .splitAfterTabWidget tabWidget orientation =>
      (splitAfterTabWidget st tabWidget orientation).1
  | .splitAfterTabContent tabContent orientation =>
      (splitAfterTabContent st tabContent orientation).1
  | .splitBeforeTabWidget tabWidget orientation =>
      (splitBeforeTabWidget st tabWidget orientation).1
  | .closeSplitAtTabContent tabContent =>
      match closeSplitAtTabContent st tabContent with
      | .ok st1 => st1
      | .error _ => st
  | .materializeEmpty tabWidget contentId => materializeEmpty st tabWidget contentId

/-- Run a sequence of operations from a state. -/
def runOps (st : State) : List Op → State
  | [] => st
  | op :: ops => runOps (applyOp st op) ops

/-! ## The redundant-splitter invariant -/

mutual

/-- Every splitter in the tree has at least two children. -/
def nodeInv : InfoNode → Bool
  | .tabwidget _ _ _ _ => true
  | .splitter _ kids => decide (2 ≤ kids.length) && nodeInvList kids

def nodeInvList : List InfoNode → Bool
  | [] => true
  | k :: ks => nodeInv k && nodeInvList ks

end

mutual

/-- The property claimed of every reachable tree: no splitter node has
exactly one child. -/
def noSingleChildSplitter : InfoNode → Bool
  | .tabwidget _ _ _ _ => true
  | .splitter _ kids => decide (kids.length ≠ 1) && noSingleChildSplitterList kids

def noSingleChildSplitterList : List InfoNode → Bool
  | [] => true
  | k :: ks => noSingleChildSplitter k && noSingleChildSplitterList ks

end

/-- The root is never a splitter with fewer than two children. -/
def rootNotSmallSplitter : InfoNode → Bool
  | .tabwidget _ _ _ _ => true
  | .splitter _ kids => decide (2 ≤ kids.length)

theorem nodeInvList_eq_all (l : List InfoNode) :
    nodeInvList l = l.all nodeInv := by
  induction l with
  | nil => rfl
  | cons k ks ih => simp [nodeInvList, ih, List.all_cons]

theorem nodeInvList_iff (l : List InfoNode) :
    nodeInvList l = true ↔ ∀ k ∈ l, nodeInv k = true := by
  rw [nodeInvList_eq_all]; simp [List.all_eq_true]

theorem nodeInvList_append (l1 l2 : List InfoNode) :
    nodeInvList (l1 ++ l2) = (nodeInvList l1 && nodeInvList l2) := by
  simp [nodeInvList_eq_all, List.all_append]

theorem nodeInv_implies_noSingle :
    (∀ n : InfoNode, nodeInv n = true → noSingleChildSplitter n = true) ∧
    (∀ l : List InfoNode, nodeInvList l = true → noSingleChildSplitterList l = true) := by
  refine nodeInv.mutual_induct
    (fun n => nodeInv n = true → noSingleChildSplitter n = true)
    (fun l => nodeInvList l = true → noSingleChildSplitterList l = true) ?_ ?_ ?_ ?_
  · intro w ch et ec _
    rfl
  · intro o kids ih h
    rw [nodeInv] at h
    simp only [Bool.and_eq_true, decide_eq_true_eq] at h
    rw [noSingleChildSplitter]
    simp only [Bool.and_eq_true, decide_eq_true_eq]
    exact ⟨by omega, ih h.2⟩
  · intro _
    rfl
  · intro k ks ih1 ih2 h
    rw [nodeInvList] at h
    simp only [Bool.and_eq_true] at h
    rw [noSingleChildSplitterList]
    simp only [Bool.and_eq_true]
    exact ⟨ih1 h.1, ih2 h.2⟩

theorem nodeInv_implies_rootNotSmall (n : InfoNode) (h : nodeInv n = true) :
    rootNotSmallSplitter n = true := by
  cases n with
  | tabwidget w ch et ec => rfl
  | splitter o kids =>
      rw [nodeInv] at h
      simp only [Bool.and_eq_true, decide_eq_true_eq] at h
      rw [rootNotSmallSplitter]
      simp only [decide_eq_true_eq]
      exact h.1

/-! ### Preservation by the payload-only rewrites -/

/-- Is this node a tab-group leaf? -/
def InfoNode.isTabWidget : InfoNode → Bool
  | .tabwidget _ _ _ _ => true
  | .splitter _ _ => false

theorem nodeInv_appendTabNode (tw tab c : Nat) :
    (∀ n : InfoNode, ∀ n1, appendTabNode tw tab c n = some n1 →
        nodeInv n1 = nodeInv n) ∧
    (∀ l : List InfoNode, ∀ l1, appendTabNodeList tw tab c l = some l1 →
        nodeInvList l1 = nodeInvList l ∧ l1.length = l.length) := by
  refine appendTabNode.mutual_induct tw tab c
    (fun n => ∀ n1, appendTabNode tw tab c n = some n1 → nodeInv n1 = nodeInv n)
    (fun l => ∀ l1, appendTabNodeList tw tab c l = some l1 →
        nodeInvList l1 = nodeInvList l ∧ l1.length = l.length) ?_ ?_ ?_ ?_ ?_ ?_
  · intro ch et ec n1 h
    simp [appendTabNode] at h
    subst h; simp [nodeInv]
  · intro w ch et ec hne n1 h
    simp [appendTabNode, hne] at h
  · intro o kids ih n1 h
    simp only [appendTabNode, Option.map_eq_some'] at h
    obtain ⟨l1, hl1, rfl⟩ := h
    obtain ⟨hinv, hlen⟩ := ih l1 hl1
    simp [nodeInv, hinv, hlen]
  · intro l1 h
    rw [appendTabNodeList] at h
    exact Option.noConfusion h
  · intro k ks info hk ih l1 h
    simp only [appendTabNodeList, hk, Option.some.injEq] at h
    subst h
    simp [nodeInvList, ih info hk]
  · intro k ks hk ih1 ih2 l1 h
    simp only [appendTabNodeList, hk, Option.map_eq_some'] at h
    obtain ⟨ks1, hks1, rfl⟩ := h
    obtain ⟨hinv, hlen⟩ := ih2 ks1 hks1
    simp [nodeInvList, hinv, hlen]

theorem nodeInv_removeTabContentNode (c : Nat) :
    (∀ n : InfoNode, ∀ n1, removeTabContentNode c n = some n1 →
        nodeInv n1 = nodeInv n) ∧
    (∀ l : List InfoNode, ∀ l1, removeTabContentNodeList c l = some l1 →
        nodeInvList l1 = nodeInvList l ∧ l1.length = l.length) := by
  refine removeTabContentNode.mutual_induct c
    (fun n => ∀ n1, removeTabContentNode c n = some n1 → nodeInv n1 = nodeInv n)
    (fun l => ∀ l1, removeTabContentNodeList c l = some l1 →
        nodeInvList l1 = nodeInvList l ∧ l1.length = l.length) ?_ ?_ ?_ ?_ ?_ ?_ ?_
  · intro w ch et n1 h
    simp [removeTabContentNode] at h
    subst h; simp [nodeInv]
  · intro w ch et ec hec ti hti n1 h
    simp [removeTabContentNode, hec, hti] at h
    subst h; simp [nodeInv]
  · intro w ch et ec hec hti n1 h
    simp [removeTabContentNode, hec, hti] at h
  · intro o kids ih n1 h
    simp only [removeTabContentNode, Option.map_eq_some'] at h
    obtain ⟨l1, hl1, rfl⟩ := h
    obtain ⟨hinv, hlen⟩ := ih l1 hl1
    simp [nodeInv, hinv, hlen]
  · intro l1 h
    rw [removeTabContentNodeList] at h
    exact Option.noConfusion h
  · intro k ks k1 hk ih l1 h
    simp only [removeTabContentNodeList, hk, Option.some.injEq] at h
    subst h
    simp [nodeInvList, ih k1 hk]
  · intro k ks hk ih1 ih2 l1 h
    simp only [removeTabContentNodeList, hk, Option.map_eq_some'] at h
    obtain ⟨ks1, hks1, rfl⟩ := h
    obtain ⟨hinv, hlen⟩ := ih2 ks1 hks1
    simp [nodeInvList, hinv, hlen]

theorem nodeInv_replaceSubtree (old new1 : InfoNode)
    (hnew : nodeInv new1 = true) :
    (∀ n : InfoNode, ∀ n1, replaceSubtree old new1 n = some n1 →
        nodeInv n = true → nodeInv n1 = true) ∧
    (∀ l : List InfoNode, ∀ l1, replaceSubtreeList old new1 l = some l1 →
        nodeInvList l = true → nodeInvList l1 = true ∧ l1.length = l.length) := by
  refine replaceSubtree.mutual_induct old new1
    (fun n => ∀ n1, replaceSubtree old new1 n = some n1 →
        nodeInv n = true → nodeInv n1 = true)
    (fun l => ∀ l1, replaceSubtreeList old new1 l = some l1 →
        nodeInvList l = true → nodeInvList l1 = true ∧ l1.length = l.length)
    ?_ ?_ ?_ ?_ ?_ ?_
  · intro n1 h _
    rw [replaceSubtree.eq_def] at h
    simp at h
    subst h; exact hnew
  · intro w ch et ec hne n1 h _
    rw [replaceSubtree.eq_def] at h
    simp [hne] at h
  · intro o kids hne ih n1 h hinv
    rw [replaceSubtree.eq_def] at h
    simp only [if_neg hne, Option.map_eq_some'] at h
    obtain ⟨l1, hl1, rfl⟩ := h
    rw [nodeInv] at hinv
    simp only [Bool.and_eq_true, decide_eq_true_eq] at hinv
    obtain ⟨hinv1, hlen⟩ := ih l1 hl1 hinv.2
    rw [nodeInv]
    simp only [Bool.and_eq_true, decide_eq_true_eq]
    exact ⟨by omega, hinv1⟩
  · intro l1 h
    rw [replaceSubtreeList] at h
    exact Option.noConfusion h
  · intro k ks k1 hk ih l1 h hinv
    simp only [replaceSubtreeList, hk, Option.some.injEq] at h
    subst h
    rw [nodeInvList] at hinv
    simp only [Bool.and_eq_true] at hinv
    rw [nodeInvList]
    simp only [Bool.and_eq_true, List.length_cons]
    exact ⟨⟨ih k1 hk hinv.1, hinv.2⟩, by simp⟩
  · intro k ks hk ih1 ih2 l1 h hinv
    simp only [replaceSubtreeList, hk, Option.map_eq_some'] at h
    obtain ⟨ks1, hks1, rfl⟩ := h
    rw [nodeInvList] at hinv
    simp only [Bool.and_eq_true] at hinv
    obtain ⟨hinv1, hlen⟩ := ih2 ks1 hks1 hinv.2
    rw [nodeInvList]
    simp only [Bool.and_eq_true, List.length_cons]
    exact ⟨⟨hinv.1, hinv1⟩, by omega⟩

theorem nodeInv_materializeEmptyNode (tw tid cid : Nat) :
    (∀ n : InfoNode, nodeInv (materializeEmptyNode tw tid cid n) = nodeInv n) ∧
    (∀ l : List InfoNode, nodeInvList (materializeEmptyList tw tid cid l) = nodeInvList l ∧
        (materializeEmptyList tw tid cid l).length = l.length) := by
  refine materializeEmptyNode.mutual_induct tw tid cid
    (fun n => nodeInv (materializeEmptyNode tw tid cid n) = nodeInv n)
    (fun l => nodeInvList (materializeEmptyList tw tid cid l) = nodeInvList l ∧
        (materializeEmptyList tw tid cid l).length = l.length) ?_ ?_ ?_ ?_ ?_
  · intro w ch et ec hcond
    rw [materializeEmptyNode]
    split
    · simp [nodeInv]
    · simp [nodeInv]
  · intro w ch et ec hcond
    rw [materializeEmptyNode]
    split
    · simp [nodeInv]
    · simp [nodeInv]
  · intro o kids ih
    obtain ⟨hinv, hlen⟩ := ih
    simp [materializeEmptyNode, nodeInv, hinv, hlen]
  · exact ⟨rfl, rfl⟩
  · intro k ks ih1 ih2
    simp [materializeEmptyList, nodeInvList, ih1, ih2.1, ih2.2]

/-! ### Preservation by the split operations -/

theorem nodeInv_of_isTabWidget (n : InfoNode) (h : n.isTabWidget = true) :
    nodeInv n = true := by
  cases n with
  | tabwidget w ch et ec => simp [nodeInv]
  | splitter o kids => simp [InfoNode.isTabWidget] at h

theorem nodeInv_splitAfterTWKids (tw : Nat) (o : SplitOrientation) :
    ∀ (parentO : SplitOrientation) (newTW : InfoNode) (l : List InfoNode),
      ∀ l1, splitAfterTWKids tw o parentO newTW l = some l1 →
      nodeInv newTW = true → nodeInvList l = true →
      nodeInvList l1 = true ∧ l.length ≤ l1.length := by
  refine splitAfterTWKids.induct tw o
    (fun parentO newTW l => ∀ l1, splitAfterTWKids tw o parentO newTW l = some l1 →
      nodeInv newTW = true → nodeInvList l = true →
      nodeInvList l1 = true ∧ l.length ≤ l1.length) ?_ ?_ ?_ ?_ ?_ ?_
  · intro parentO newTW l1 h _ _
    rw [splitAfterTWKids] at h
    exact Option.noConfusion h
  · intro newTW ks ch et ec l1 h hnew hinv
    rw [splitAfterTWKids.eq_def] at h
    simp only [if_true, Option.some.injEq] at h
    subst h
    rw [nodeInvList] at hinv
    simp only [Bool.and_eq_true] at hinv
    refine ⟨?_, by simp⟩
    simp only [nodeInvList, Bool.and_eq_true]
    exact ⟨hinv.1, hnew, hinv.2⟩
  · intro parentO newTW ks ch et ec hpo l1 h hnew hinv
    rw [splitAfterTWKids.eq_def] at h
    simp only [if_true, if_neg hpo, Option.some.injEq] at h
    subst h
    rw [nodeInvList] at hinv
    simp only [Bool.and_eq_true] at hinv
    refine ⟨?_, by simp⟩
    simp only [nodeInvList, Bool.and_eq_true]
    refine ⟨?_, hinv.2⟩
    rw [nodeInv]
    simp only [Bool.and_eq_true, decide_eq_true_eq]
    refine ⟨by simp, ?_⟩
    simp only [nodeInvList, Bool.and_eq_true]
    exact ⟨hinv.1, hnew, by simp⟩
  · intro parentO newTW ks w ch et ec hw ih l1 h hnew hinv
    rw [splitAfterTWKids.eq_def] at h
    simp only [if_neg hw, Option.map_eq_some'] at h
    obtain ⟨ks1, hks1, rfl⟩ := h
    rw [nodeInvList] at hinv
    simp only [Bool.and_eq_true] at hinv
    obtain ⟨h1, h2⟩ := ih ks1 hks1 hnew hinv.2
    refine ⟨?_, by simp; omega⟩
    simp only [nodeInvList, Bool.and_eq_true]
    exact ⟨hinv.1, h1⟩
  · intro parentO newTW ks o2 kids2 kids3 hrec ih l1 h hnew hinv
    rw [splitAfterTWKids.eq_def] at h
    simp only [hrec, Option.some.injEq] at h
    subst h
    rw [nodeInvList] at hinv
    simp only [Bool.and_eq_true] at hinv
    have hk := hinv.1
    rw [nodeInv] at hk
    simp only [Bool.and_eq_true, decide_eq_true_eq] at hk
    obtain ⟨h1, h2⟩ := ih kids3 hrec hnew hk.2
    refine ⟨?_, by simp⟩
    simp only [nodeInvList, Bool.and_eq_true]
    refine ⟨?_, hinv.2⟩
    rw [nodeInv]
    simp only [Bool.and_eq_true, decide_eq_true_eq]
    exact ⟨by omega, h1⟩
  · intro parentO newTW ks o2 kids2 hrec ih1 ih2 l1 h hnew hinv
    rw [splitAfterTWKids.eq_def] at h
    simp only [hrec, Option.map_eq_some'] at h
    obtain ⟨ks1, hks1, rfl⟩ := h
    rw [nodeInvList] at hinv
    simp only [Bool.and_eq_true] at hinv
    obtain ⟨h1, h2⟩ := ih2 ks1 hks1 hnew hinv.2
    refine ⟨?_, by simp; omega⟩
    simp only [nodeInvList, Bool.and_eq_true]
    exact ⟨hinv.1, h1⟩

theorem nodeInv_splitAfterContentKids (c : Nat) (o : SplitOrientation) :
    ∀ (parentO : SplitOrientation) (counter : Nat) (l : List InfoNode),
      ∀ l1, splitAfterContentKids c o parentO counter l = some l1 →
      nodeInvList l = true →
      nodeInvList l1 = true ∧ l.length ≤ l1.length := by
  refine splitAfterContentKids.induct c o
    (fun parentO counter l => ∀ l1, splitAfterContentKids c o parentO counter l = some l1 →
      nodeInvList l = true →
      nodeInvList l1 = true ∧ l.length ≤ l1.length) ?_ ?_ ?_ ?_ ?_ ?_
  · intro parentO counter l1 h _
    rw [splitAfterContentKids] at h
    exact Option.noConfusion h
  · intro counter ks w ch et ec hany l1 h hinv
    rw [splitAfterContentKids.eq_def] at h
    simp only [hany, if_true, Option.some.injEq] at h
    subst h
    rw [nodeInvList] at hinv
    simp only [Bool.and_eq_true] at hinv
    refine ⟨?_, by simp⟩
    simp only [nodeInvList, Bool.and_eq_true]
    refine ⟨?_, ?_, hinv.2⟩
    · simp [splitTabWidgetAtTabContent, nodeInv]
    · simp [splitTabWidgetAtTabContent, createTabWidgetInfo, nodeInv]
  · intro parentO counter ks w ch et ec hany hpo l1 h hinv
    rw [splitAfterContentKids.eq_def] at h
    simp only [hany, if_true, if_neg hpo, Option.some.injEq] at h
    subst h
    rw [nodeInvList] at hinv
    simp only [Bool.and_eq_true] at hinv
    refine ⟨?_, by simp⟩
    simp only [nodeInvList, Bool.and_eq_true]
    refine ⟨?_, hinv.2⟩
    rw [nodeInv]
    simp only [Bool.and_eq_true, decide_eq_true_eq]
    refine ⟨by simp, ?_⟩
    simp only [nodeInvList, Bool.and_eq_true]
    refine ⟨?_, ?_, by simp⟩
    · simp [splitTabWidgetAtTabContent, nodeInv]
    · simp [splitTabWidgetAtTabContent, createTabWidgetInfo, nodeInv]
  · intro parentO counter ks w ch et ec hany ih l1 h hinv
    rw [splitAfterContentKids.eq_def] at h
    simp only [hany] at h
    cases hrec : splitAfterContentKids c o parentO counter ks with
    | none =>
        rw [hrec] at h
        simp at h
    | some ks1 =>
        rw [hrec] at h
        simp at h
        subst h
        rw [nodeInvList] at hinv
        simp only [Bool.and_eq_true] at hinv
        obtain ⟨h1, h2⟩ := ih ks1 hrec hinv.2
        refine ⟨?_, by simp; omega⟩
        simp only [nodeInvList, Bool.and_eq_true]
        exact ⟨hinv.1, h1⟩
  · intro parentO counter ks o2 kids2 kids3 hrec ih l1 h hinv
    rw [splitAfterContentKids.eq_def] at h
    simp only [hrec, Option.some.injEq] at h
    subst h
    rw [nodeInvList] at hinv
    simp only [Bool.and_eq_true] at hinv
    have hk := hinv.1
    rw [nodeInv] at hk
    simp only [Bool.and_eq_true, decide_eq_true_eq] at hk
    obtain ⟨h1, h2⟩ := ih kids3 hrec hk.2
    refine ⟨?_, by simp⟩
    simp only [nodeInvList, Bool.and_eq_true]
    refine ⟨?_, hinv.2⟩
    rw [nodeInv]
    simp only [Bool.and_eq_true, decide_eq_true_eq]
    exact ⟨by omega, h1⟩
  · intro parentO counter ks o2 kids2 hrec ih1 ih2 l1 h hinv
    rw [splitAfterContentKids.eq_def] at h
    simp only [hrec] at h
    cases hrec2 : splitAfterContentKids c o parentO counter ks with
    | none =>
        rw [hrec2] at h
        simp at h
    | some ks1 =>
        rw [hrec2] at h
        simp at h
        subst h
        rw [nodeInvList] at hinv
        simp only [Bool.and_eq_true] at hinv
        obtain ⟨h1, h2⟩ := ih2 ks1 hrec2 hinv.2
        refine ⟨?_, by simp; omega⟩
        simp only [nodeInvList, Bool.and_eq_true]
        exact ⟨hinv.1, h1⟩

theorem findTabWidgetInfoByTabWidget_isTabWidget :
    (∀ (n : InfoNode) (tw : Nat) (info : InfoNode),
       findTabWidgetInfoByTabWidget n tw = some info → info.isTabWidget = true) ∧
    (∀ (l : List InfoNode) (tw : Nat) (info : InfoNode),
       findTabWidgetInfoByTabWidgetList l tw = some info → info.isTabWidget = true) := by
  refine findTabWidgetInfoByTabWidget.mutual_induct
    (fun n tw => ∀ info, findTabWidgetInfoByTabWidget n tw = some info →
        info.isTabWidget = true)
    (fun l tw => ∀ info, findTabWidgetInfoByTabWidgetList l tw = some info →
        info.isTabWidget = true) ?_ ?_ ?_ ?_ ?_ ?_
  · intro ch et ec tw info h
    rw [findTabWidgetInfoByTabWidget.eq_def] at h
    simp only [if_true, Option.some.injEq] at h
    subst h
    rfl
  · intro w ch et ec tw hw info h
    rw [findTabWidgetInfoByTabWidget.eq_def] at h
    simp only [if_neg hw] at h
    exact Option.noConfusion h
  · intro o kids tw ih info h
    rw [findTabWidgetInfoByTabWidget.eq_def] at h
    exact ih info h
  · intro tw info h
    rw [findTabWidgetInfoByTabWidgetList] at h
    exact Option.noConfusion h
  · intro k ks tw info1 hk ih info h
    rw [findTabWidgetInfoByTabWidgetList.eq_def] at h
    simp only [hk, Option.some.injEq] at h
    subst h
    exact ih info1 hk
  · intro k ks tw hk ih1 ih2 info h
    rw [findTabWidgetInfoByTabWidgetList.eq_def] at h
    simp only [hk] at h
    exact ih2 info h

theorem nodeInvList_swapArrayItems (a b : InfoNode)
    (ha : nodeInv a = true) (hb : nodeInv b = true) :
    ∀ l : List InfoNode, nodeInvList l = true →
      nodeInvList (swapArrayItems l a b) = true ∧
        (swapArrayItems l a b).length = l.length := by
  intro l hl
  constructor
  · rw [nodeInvList_iff]
    intro x hx
    rw [swapArrayItems, List.mem_map] at hx
    obtain ⟨y, hy, rfl⟩ := hx
    by_cases h1 : y = a
    · rw [if_pos h1]
      exact hb
    · rw [if_neg h1]
      by_cases h2 : y = b
      · rw [if_pos h2]
        exact ha
      · rw [if_neg h2]
        exact (nodeInvList_iff l).1 hl y hy
  · rw [swapArrayItems, List.length_map]

theorem nodeInv_swapParentNode (newId tw : Nat) :
    (∀ n : InfoNode, ∀ n1, swapParentNode newId tw n = some (.ok n1) →
        nodeInv n = true → nodeInv n1 = true) ∧
    (∀ l : List InfoNode, ∀ l1, swapParentList newId tw l = some (.ok l1) →
        nodeInvList l = true → nodeInvList l1 = true ∧ l1.length = l.length) := by
  refine swapParentNode.mutual_induct newId tw
    (fun n => ∀ n1, swapParentNode newId tw n = some (.ok n1) →
        nodeInv n = true → nodeInv n1 = true)
    (fun l => ∀ l1, swapParentList newId tw l = some (.ok l1) →
        nodeInvList l = true → nodeInvList l1 = true ∧ l1.length = l.length)
    ?_ ?_ ?_ ?_ ?_ ?_ ?_ ?_ ?_ ?_ ?_ ?_ ?_
  · intro w ch et ec n1 h _
    rw [swapParentNode] at h
    exact Option.noConfusion h
  · intro o kids hany hfind n1 h _
    rw [swapParentNode.eq_def] at h
    simp [hany, hfind] at h
  · intro o kids hany twInfo hfind newNode hnewNode n1 h hinv
    rw [swapParentNode.eq_def] at h
    simp [hany, hfind, hnewNode] at h
    subst h
    rw [nodeInv] at hinv
    simp only [Bool.and_eq_true, decide_eq_true_eq] at hinv
    have hnewInv : nodeInv newNode = true := by
      refine (nodeInvList_iff kids).1 hinv.2 newNode ?_
      exact List.mem_of_find?_eq_some hnewNode
    have htwInv : nodeInv twInfo = true := by
      refine nodeInv_of_isTabWidget twInfo ?_
      exact findTabWidgetInfoByTabWidget_isTabWidget.2 kids tw twInfo hfind
    obtain ⟨hsw, hlen⟩ := nodeInvList_swapArrayItems newNode twInfo hnewInv htwInv kids hinv.2
    rw [nodeInv]
    simp only [Bool.and_eq_true, decide_eq_true_eq]
    exact ⟨by omega, hsw⟩
  · intro o kids hany twInfo hfind hnone n1 h _
    rw [swapParentNode.eq_def] at h
    simp [hany, hfind, hnone] at h
  · intro o kids hany kids1 hrec ih n1 h hinv
    rw [swapParentNode.eq_def] at h
    simp [hany, hrec] at h
    subst h
    rw [nodeInv] at hinv
    simp only [Bool.and_eq_true, decide_eq_true_eq] at hinv
    obtain ⟨h1, h2⟩ := ih kids1 hrec hinv.2
    rw [nodeInv]
    simp only [Bool.and_eq_true, decide_eq_true_eq]
    exact ⟨by omega, h1⟩
  · intro o kids hany e hrec ih n1 h _
    rw [swapParentNode.eq_def] at h
    simp [hany, hrec] at h
  · intro o kids hany hrec ih n1 h _
    rw [swapParentNode.eq_def] at h
    simp [hany, hrec] at h
  · intro l1 h _
    rw [swapParentList] at h
    exact Option.noConfusion h
  · intro k ks k1 hk ih l1 h hinv
    rw [swapParentList.eq_def] at h
    simp [hk] at h
    subst h
    rw [nodeInvList] at hinv
    simp only [Bool.and_eq_true] at hinv
    rw [nodeInvList]
    simp only [Bool.and_eq_true, List.length_cons]
    exact ⟨⟨ih k1 hk hinv.1, hinv.2⟩, by simp⟩
  · intro k ks e hk ih l1 h _
    rw [swapParentList.eq_def] at h
    simp [hk] at h
  · intro k ks hk kids1 hks ih1 ih2 l1 h hinv
    rw [swapParentList.eq_def] at h
    simp [hk, hks] at h
    subst h
    rw [nodeInvList] at hinv
    simp only [Bool.and_eq_true] at hinv
    obtain ⟨h1, h2⟩ := ih2 kids1 hks hinv.2
    rw [nodeInvList]
    simp only [Bool.and_eq_true, List.length_cons]
    exact ⟨⟨hinv.1, h1⟩, by omega⟩
  · intro k ks hk e hks ih1 ih2 l1 h _
    rw [swapParentList.eq_def] at h
    simp [hk, hks] at h
  · intro k ks hk hks ih1 ih2 l1 h _
    rw [swapParentList.eq_def] at h
    simp [hk, hks] at h

/-! ### Preservation by `closeSplitAtTabContent`

A close removes one child from exactly one splitter; every other splitter
keeps its arity.  `Almost` captures the resulting shape: a path of splitters
of arity at least two ending in one splitter of arity exactly one whose
child is fully well-formed.  The fix-up pass restores the invariant on such
trees. -/

inductive Almost : InfoNode → Prop where
  | single (o : SplitOrientation) (c : InfoNode) (hc : nodeInv c = true) :
      Almost (.splitter o [c])
  | deep (o : SplitOrientation) (pre post : List InfoNode) (b : InfoNode)
      (hpre : nodeInvList pre = true) (hpost : nodeInvList post = true)
      (hb : Almost b) (hlen : 2 ≤ (pre ++ b :: post).length) :
      Almost (.splitter o (pre ++ b :: post))

/-- The child list of a splitter right after the merge step: either fully
well-formed, or of arity at least two with exactly one `Almost` child. -/
def AlmostKidsP (l : List InfoNode) : Prop :=
  nodeInvList l = true ∨
  (2 ≤ l.length ∧ ∃ pre b post, l = pre ++ b :: post ∧
    nodeInvList pre = true ∧ nodeInvList post = true ∧ Almost b)

theorem nodeInv_appendToFirstTabWidget (extra : List TabInfo) :
    (∀ n : InfoNode, ∀ n1, appendToFirstTabWidget extra n = some n1 →
        nodeInv n1 = nodeInv n) ∧
    (∀ l : List InfoNode, ∀ l1, appendToFirstTabWidgetList extra l = some l1 →
        nodeInvList l1 = nodeInvList l ∧ l1.length = l.length) := by
  refine appendToFirstTabWidget.mutual_induct extra
    (fun n => ∀ n1, appendToFirstTabWidget extra n = some n1 → nodeInv n1 = nodeInv n)
    (fun l => ∀ l1, appendToFirstTabWidgetList extra l = some l1 →
        nodeInvList l1 = nodeInvList l ∧ l1.length = l.length) ?_ ?_ ?_ ?_ ?_
  · intro w ch et ec n1 h
    rw [appendToFirstTabWidget] at h
    simp only [Option.some.injEq] at h
    subst h
    simp [nodeInv]
  · intro o kids ih n1 h
    rw [appendToFirstTabWidget.eq_def] at h
    simp only [Option.map_eq_some'] at h
    obtain ⟨l1, hl1, rfl⟩ := h
    obtain ⟨hinv, hlen⟩ := ih l1 hl1
    simp [nodeInv, hinv, hlen]
  · intro l1 h
    rw [appendToFirstTabWidgetList] at h
    exact Option.noConfusion h
  · intro k ks k1 hk ih l1 h
    rw [appendToFirstTabWidgetList.eq_def] at h
    simp only [hk, Option.some.injEq] at h
    subst h
    simp [nodeInvList, ih k1 hk]
  · intro k ks hk ih1 ih2 l1 h
    rw [appendToFirstTabWidgetList.eq_def] at h
    simp only [hk, Option.map_eq_some'] at h
    obtain ⟨ks1, hks1, rfl⟩ := h
    obtain ⟨hinv, hlen⟩ := ih2 ks1 hks1
    simp [nodeInvList, hinv, hlen]

theorem nodeInvList_set_eraseIdx (kids : List InfoNode) (i m : Nat) (x : InfoNode)
    (hx : nodeInv x = true) (hkids : nodeInvList kids = true) (hm : m < kids.length) :
    nodeInvList ((kids.set i x).eraseIdx m) = true ∧
      ((kids.set i x).eraseIdx m).length = kids.length - 1 := by
  constructor
  · rw [nodeInvList_iff]
    intro y hy
    have hy2 : y ∈ kids.set i x := ((kids.set i x).eraseIdx_sublist m).mem hy
    rcases List.mem_or_eq_of_mem_set hy2 with h | h
    · exact (nodeInvList_iff kids).1 hkids y h
    · subst h; exact hx
  · rw [List.length_eraseIdx]
    simp [List.length_set, hm]

theorem getElem?_append_cons (l1 l2 : List α) (a : α) :
    (l1 ++ a :: l2)[l1.length]? = some a := by
  rw [List.getElem?_append_right (Nat.le_refl _)]
  simp

theorem nodeInv_mergeAtIndexPair (kids : List InfoNode) (index : Nat)
    (hinv : nodeInvList kids = true) (hidx : index + 1 < kids.length)
    (hshape : (∃ w ch et ec, kids[index]? = some (.tabwidget w ch et ec)) ∨
              (∃ w ch et ec, kids[index + 1]? = some (.tabwidget w ch et ec))) :
    ∀ out, mergeAtIndexPair kids index = .ok out →
      nodeInvList out = true ∧ out.length = kids.length - 1 := by
  intro out hout
  have hidx0 : index < kids.length := by omega
  have hleft : kids[index]? = some kids[index] := List.getElem?_eq_getElem hidx0
  have hright : kids[index + 1]? = some kids[index + 1] := List.getElem?_eq_getElem hidx
  have hleftInv : nodeInv kids[index] = true :=
    (nodeInvList_iff kids).1 hinv _ (List.getElem_mem hidx0)
  have hrightInv : nodeInv kids[index + 1] = true :=
    (nodeInvList_iff kids).1 hinv _ (List.getElem_mem hidx)
  rw [mergeAtIndexPair.eq_def] at hout
  cases hL : kids[index] with
  | tabwidget lw lch le1 le2 =>
      cases hR : kids[index + 1] with
      | tabwidget rw2 rch re1 re2 =>
          rw [hleft, hL, hright, hR] at hout
          simp at hout
          subst hout
          exact nodeInvList_set_eraseIdx kids index (index + 1)
            (.tabwidget lw (lch ++ rch) le1 le2) (by simp [nodeInv]) hinv hidx
      | splitter ro rkids =>
          rw [hleft, hL, hright, hR] at hout
          cases happ : appendToFirstTabWidget lch (.splitter ro rkids) with
          | none =>
              simp [happ] at hout
          | some right1 =>
              simp [happ] at hout
              subst hout
              have hr1 : nodeInv right1 = true := by
                rw [(nodeInv_appendToFirstTabWidget lch).1 _ right1 happ]
                rw [← hR]
                exact hrightInv
              exact nodeInvList_set_eraseIdx kids (index + 1) index right1 hr1 hinv hidx0
  | splitter lo lkids =>
      cases hR : kids[index + 1] with
      | tabwidget rw2 rch re1 re2 =>
          rw [hleft, hL, hright, hR] at hout
          cases happ : appendToFirstTabWidget rch (.splitter lo lkids) with
          | none =>
              simp [happ] at hout
          | some left1 =>
              simp [happ] at hout
              subst hout
              have hl1 : nodeInv left1 = true := by
                rw [(nodeInv_appendToFirstTabWidget rch).1 _ left1 happ]
                rw [← hL]
                exact hleftInv
              exact nodeInvList_set_eraseIdx kids index (index + 1) left1 hl1 hinv hidx
      | splitter ro rkids =>
          rcases hshape with ⟨w, ch, et, ec, hsh⟩ | ⟨w, ch, et, ec, hsh⟩
          · rw [hleft, hL] at hsh
            exact absurd (Option.some.inj hsh) (by intro he; cases he)
          · rw [hright, hR] at hsh
            exact absurd (Option.some.inj hsh) (by intro he; cases he)

theorem nodeInv_mergeAtTabWidget (kids : List InfoNode) (j : Nat)
    (hinv : nodeInvList kids = true) (hlen : 2 ≤ kids.length) (hj : j < kids.length)
    (w : Nat) (ch : List TabInfo) (et ec : Option Nat)
    (hget : kids[j]? = some (.tabwidget w ch et ec)) :
    ∀ out, mergeAtTabWidget kids j = .ok out →
      nodeInvList out = true ∧ out.length = kids.length - 1 := by
  intro out hout
  rw [mergeAtTabWidget] at hout
  rw [if_neg (by omega)] at hout
  by_cases hcase : j + 1 = kids.length
  · rw [if_pos hcase] at hout
    have hj1 : 1 ≤ j := by omega
    have hstep : j - 1 + 1 = j := by omega
    refine nodeInv_mergeAtIndexPair kids (j - 1) hinv (by omega) ?_ out hout
    right
    exact ⟨w, ch, et, ec, by rw [hstep]; exact hget⟩
  · rw [if_neg hcase] at hout
    refine nodeInv_mergeAtIndexPair kids j hinv (by omega) ?_ out hout
    left
    exact ⟨w, ch, et, ec, hget⟩

theorem collapseChildren_cons (k : InfoNode) (ks : List InfoNode) :
    collapseChildren (k :: ks) = collapseChild k :: collapseChildren ks := by
  rw [collapseChildren]

theorem collapseChildren_length : ∀ l : List InfoNode,
    (collapseChildren l).length = l.length := by
  intro l
  induction l with
  | nil => rw [collapseChildren]
  | cons k ks ih => rw [collapseChildren_cons]; simp [ih]

theorem collapseChildren_append : ∀ l1 l2 : List InfoNode,
    collapseChildren (l1 ++ l2) = collapseChildren l1 ++ collapseChildren l2 := by
  intro l1 l2
  induction l1 with
  | nil => rw [collapseChildren]; rfl
  | cons k ks ih => simp only [List.cons_append, collapseChildren_cons, ih]

theorem collapseChild_splitter_of_ne_one (o : SplitOrientation) (l : List InfoNode)
    (h : l.length ≠ 1) :
    collapseChild (.splitter o l) = .splitter o (collapseChildren l) := by
  match l with
  | [] => rw [collapseChild, collapseChildren]
  | [c] => exact absurd rfl h
  | c1 :: c2 :: cs => rw [collapseChild]

theorem collapse_id_of_inv :
    (∀ n : InfoNode, nodeInv n = true → collapseChild n = n) ∧
    (∀ l : List InfoNode, nodeInvList l = true → collapseChildren l = l) ∧
    (∀ n : InfoNode, nodeInv n = true → collapsePromoted n = n) := by
  refine collapseChild.mutual_induct
    (fun n => nodeInv n = true → collapseChild n = n)
    (fun l => nodeInvList l = true → collapseChildren l = l)
    (fun n => nodeInv n = true → collapsePromoted n = n) ?_ ?_ ?_ ?_ ?_ ?_ ?_ ?_
  · intro w ch et ec _
    rw [collapseChild]
  · intro o c ih h
    rw [nodeInv] at h
    simp at h
  · intro o h
    rw [nodeInv] at h
    simp at h
  · intro o c1 c2 cs ih h
    rw [nodeInv] at h
    simp only [Bool.and_eq_true, decide_eq_true_eq] at h
    rw [collapseChild]
    rw [ih h.2]
  · intro _
    rw [collapseChildren]
  · intro k ks ih1 ih2 h
    rw [nodeInvList] at h
    simp only [Bool.and_eq_true] at h
    rw [collapseChildren_cons, ih1 h.1, ih2 h.2]
  · intro w ch et ec _
    rw [collapsePromoted]
  · intro o kids ih h
    rw [nodeInv] at h
    simp only [Bool.and_eq_true, decide_eq_true_eq] at h
    rw [collapsePromoted]
    rw [ih h.2]

theorem nodeInv_collapseChild_almost (b : InfoNode) (h : Almost b) :
    nodeInv (collapseChild b) = true := by
  induction h with
  | single o c hc =>
      rw [collapseChild]
      rw [collapse_id_of_inv.2.2 c hc]
      exact hc
  | deep o pre post b2 hpre hpost hb hlen ih =>
      rw [collapseChild_splitter_of_ne_one o _ (by omega)]
      rw [nodeInv]
      simp only [Bool.and_eq_true, decide_eq_true_eq]
      constructor
      · rw [collapseChildren_length]; omega
      · rw [collapseChildren_append, collapseChildren_cons]
        rw [nodeInvList_append]
        simp only [Bool.and_eq_true]
        refine ⟨by rw [collapse_id_of_inv.2.1 pre hpre]; exact hpre, ?_⟩
        rw [nodeInvList]
        simp only [Bool.and_eq_true]
        exact ⟨ih, by rw [collapse_id_of_inv.2.1 post hpost]; exact hpost⟩

theorem removeRedundantSplitters_splitter_of_ne_one (o : SplitOrientation)
    (l : List InfoNode) (h : l.length ≠ 1) :
    removeRedundantSplitters (.splitter o l) = .splitter o (collapseChildren l) := by
  match l with
  | [] => rw [removeRedundantSplitters]; rw [collapseChildren]
  | [c] => exact absurd rfl h
  | c1 :: c2 :: cs => rw [removeRedundantSplitters]

theorem nodeInv_removeRedundantSplitters_almostKids (o : SplitOrientation)
    (l : List InfoNode) (h : AlmostKidsP l) (hlen : 1 ≤ l.length) :
    nodeInv (removeRedundantSplitters (.splitter o l)) = true := by
  rcases h with hInv | ⟨hlen2, pre, b, post, rfl, hpre, hpost, hb⟩
  · match l, hInv, hlen with
    | [c], hInv, _ =>
        rw [removeRedundantSplitters]
        rw [nodeInvList] at hInv
        simp only [Bool.and_eq_true] at hInv
        exact hInv.1
    | c1 :: c2 :: cs, hInv, _ =>
        rw [removeRedundantSplitters]
        rw [collapse_id_of_inv.2.1 _ hInv]
        rw [nodeInv]
        simp only [Bool.and_eq_true, decide_eq_true_eq]
        exact ⟨by simp, hInv⟩
  · rw [removeRedundantSplitters_splitter_of_ne_one o _ (by omega)]
    rw [nodeInv]
    simp only [Bool.and_eq_true, decide_eq_true_eq]
    constructor
    · rw [collapseChildren_length]; omega
    · rw [collapseChildren_append, collapseChildren_cons]
      rw [nodeInvList_append]
      simp only [Bool.and_eq_true]
      refine ⟨by rw [collapse_id_of_inv.2.1 pre hpre]; exact hpre, ?_⟩
      rw [nodeInvList]
      simp only [Bool.and_eq_true]
      exact ⟨nodeInv_collapseChild_almost b hb,
        by rw [collapse_id_of_inv.2.1 post hpost]; exact hpost⟩

theorem almost_closeMergeScan (c : Nat) :
    ∀ (pre rest : List InfoNode), ∀ out,
      closeMergeScan c pre rest = some (.ok out) →
      nodeInvList (pre.reverse ++ rest) = true →
      2 ≤ (pre.reverse ++ rest).length →
      1 ≤ out.length ∧ AlmostKidsP out := by
  refine closeMergeScan.induct c
    (fun pre rest => ∀ out, closeMergeScan c pre rest = some (.ok out) →
      nodeInvList (pre.reverse ++ rest) = true →
      2 ≤ (pre.reverse ++ rest).length →
      1 ≤ out.length ∧ AlmostKidsP out) ?_ ?_ ?_ ?_ ?_ ?_
  · intro pre out h _ _
    rw [closeMergeScan] at h
    exact Option.noConfusion h
  · intro pre ks w ch et ec hcont out h hinv hlen
    rw [closeMergeScan.eq_def] at h
    simp only [hcont, if_true, Option.some.injEq] at h
    have hfl : (pre.reverse ++ InfoNode.tabwidget w ch et ec :: ks).length =
        pre.length + ks.length + 1 := by
      simp only [List.length_append, List.length_reverse, List.length_cons]
      omega
    have hget := getElem?_append_cons pre.reverse ks (InfoNode.tabwidget w ch et ec)
    rw [List.length_reverse] at hget
    obtain ⟨hout1, hout2⟩ := nodeInv_mergeAtTabWidget _ pre.length hinv hlen
      (by omega) w ch et ec hget out h
    refine ⟨by omega, Or.inl hout1⟩
  · intro pre ks o2 kids2 kids1 hsub hcont ih out h hinv hlen
    rw [closeMergeScan.eq_def] at h
    simp only [hcont, if_true, hsub, Option.some.injEq] at h
    injection h with h
    subst h
    rw [nodeInvList_append] at hinv
    simp only [Bool.and_eq_true] at hinv
    have hksInv := hinv.2
    rw [nodeInvList] at hksInv
    simp only [Bool.and_eq_true] at hksInv
    have hkInv := hksInv.1
    rw [nodeInv] at hkInv
    simp only [Bool.and_eq_true, decide_eq_true_eq] at hkInv
    obtain ⟨hlen1, halmost⟩ := ih kids1 hsub (by simpa using hkInv.2) (by simpa using hkInv.1)
    simp only [List.length_append, List.length_reverse, List.length_cons] at hlen
    have houtlen : (pre.reverse ++ InfoNode.splitter o2 kids1 :: ks).length =
        (pre.reverse ++ InfoNode.splitter o2 kids2 :: ks).length := by simp
    refine ⟨by simp only [List.length_append, List.length_reverse, List.length_cons]; omega, ?_⟩
    rcases halmost with hInv1 | ⟨h2, pre3, b3, post3, eq3, hp3, hq3, hb3⟩
    · by_cases h21 : 2 ≤ kids1.length
      · left
        rw [nodeInvList_append]
        simp only [Bool.and_eq_true]
        refine ⟨hinv.1, ?_⟩
        rw [nodeInvList]
        simp only [Bool.and_eq_true]
        refine ⟨?_, hksInv.2⟩
        rw [nodeInv]
        simp only [Bool.and_eq_true, decide_eq_true_eq]
        exact ⟨h21, hInv1⟩
      · have hone : kids1.length = 1 := by omega
        obtain ⟨c1, rfl⟩ := List.length_eq_one.1 hone
        right
        refine ⟨by simp only [List.length_append, List.length_reverse, List.length_cons]; omega,
          pre.reverse, .splitter o2 [c1], ks, rfl, hinv.1, hksInv.2, ?_⟩
        refine Almost.single o2 c1 ?_
        rw [nodeInvList] at hInv1
        simp only [Bool.and_eq_true] at hInv1
        exact hInv1.1
    · right
      refine ⟨by simp only [List.length_append, List.length_reverse, List.length_cons]; omega,
        pre.reverse, .splitter o2 kids1, ks, rfl, hinv.1, hksInv.2, ?_⟩
      rw [eq3]
      exact Almost.deep o2 pre3 post3 b3 hp3 hq3 hb3 (by rw [← eq3]; omega)
  · intro pre ks o2 kids2 e hsub hcont ih out h _ _
    rw [closeMergeScan.eq_def] at h
    simp only [hcont, if_true, hsub, Option.some.injEq] at h
    exact Except.noConfusion h
  · intro pre ks o2 kids2 hsub hcont ih out h _ _
    rw [closeMergeScan.eq_def] at h
    simp only [hcont, if_true, hsub] at h
    exact Option.noConfusion h
  · intro pre k ks hcont ih out h hinv hlen
    rw [closeMergeScan.eq_def] at h
    simp only [hcont, if_false] at h
    refine ih out h ?_ ?_
    · simpa [List.reverse_cons, List.append_assoc] using hinv
    · simpa [List.reverse_cons, List.append_assoc] using hlen

/-! ### State-level invariant preservation -/

theorem nodeInv_appendTab_state (st : State) (tw tab c : Nat)
    (h : nodeInv st.rootInfoNode = true) :
    nodeInv (appendTab st tw tab c).rootInfoNode = true := by
  rw [appendTab]
  cases hr : appendTabNode tw tab c st.rootInfoNode with
  | none => exact h
  | some r1 =>
      simp only
      rw [(nodeInv_appendTabNode tw tab c).1 st.rootInfoNode r1 hr]
      exact h

theorem nodeInv_removeTabContent_state (st : State) (c : Nat)
    (h : nodeInv st.rootInfoNode = true) :
    nodeInv (removeTabContent st c).rootInfoNode = true := by
  rw [removeTabContent]
  cases hr : removeTabContentNode c st.rootInfoNode with
  | none => exact h
  | some r1 =>
      simp only
      rw [(nodeInv_removeTabContentNode c).1 st.rootInfoNode r1 hr]
      exact h

theorem nodeInv_moveTabToTabWidget_state (st : State) (tab tgt : Nat) (i : Int)
    (h : nodeInv st.rootInfoNode = true) :
    ∀ st1, moveTabToTabWidget st tab tgt i = .ok st1 →
      nodeInv st1.rootInfoNode = true := by
  intro st1 hm
  rw [moveTabToTabWidget] at hm
  cases h1 : findTabWidgetInfoByTab st.rootInfoNode tab with
  | none => rw [h1] at hm; exact Except.noConfusion hm
  | some res1 =>
      rw [h1] at hm
      obtain ⟨src, ti⟩ := res1
      cases ti with
      | none => exact Except.noConfusion hm
      | some tabInfo =>
          cases h2 : findTabWidgetInfoByTabWidget st.rootInfoNode tgt with
          | none => rw [h2] at hm; exact Except.noConfusion hm
          | some tgtInfo =>
              rw [h2] at hm
              cases src with
              | splitter o kids => exact Except.noConfusion hm
              | tabwidget sw sch set1 sec =>
                  cases tgtInfo with
                  | splitter o kids => exact Except.noConfusion hm
                  | tabwidget tw2 tch tet tec =>
                      simp only at hm
                      by_cases hsame :
                          (InfoNode.tabwidget sw sch set1 sec) =
                            InfoNode.tabwidget tw2 tch tet tec
                      · rw [if_pos hsame] at hm
                        split at hm
                        next root1 hrep =>
                            simp only [Except.ok.injEq] at hm
                            subst hm
                            exact (nodeInv_replaceSubtree _ _ (by simp [nodeInv])).1
                              st.rootInfoNode root1 hrep h
                        next hrep => exact Except.noConfusion hm
                      · rw [if_neg hsame] at hm
                        split at hm
                        next hrep => exact Except.noConfusion hm
                        next root1 hrep =>
                            split at hm
                            next root2 hrep2 =>
                                simp only [Except.ok.injEq] at hm
                                subst hm
                                have hroot1 : nodeInv root1 = true :=
                                  (nodeInv_replaceSubtree _ _ (by simp [nodeInv])).1
                                    st.rootInfoNode root1 hrep h
                                exact (nodeInv_replaceSubtree _ _ (by simp [nodeInv])).1
                                  root1 root2 hrep2 hroot1
                            next hrep2 => exact Except.noConfusion hm

theorem nodeInv_splitAfterTabWidget_state (st : State) (tw : Nat)
    (o : SplitOrientation) (h : nodeInv st.rootInfoNode = true) :
    nodeInv (splitAfterTabWidget st tw o).1.rootInfoNode = true := by
  cases hroot : st.rootInfoNode with
  | tabwidget w ch et ec =>
      by_cases hw : w = tw
      · simp only [splitAfterTabWidget, hroot, if_pos hw]
        rw [nodeInv]
        simp only [Bool.and_eq_true, decide_eq_true_eq]
        refine ⟨by simp, ?_⟩
        simp only [nodeInvList, Bool.and_eq_true]
        refine ⟨by rw [hroot] at h; exact h, ?_, by simp⟩
        simp [createTabWidgetInfo, nodeInv]
      · simp only [splitAfterTabWidget, hroot, if_neg hw]
        rw [hroot] at h
        exact h
  | splitter ro kids =>
      cases hk : splitAfterTWKids tw o ro (createTabWidgetInfo st.tabWidgetIdCounter []) kids with
      | none =>
          simp only [splitAfterTabWidget, hroot, hk]
          rw [hroot] at h
          exact h
      | some kids1 =>
          simp only [splitAfterTabWidget, hroot, hk]
          rw [hroot] at h
          rw [nodeInv] at h
          simp only [Bool.and_eq_true, decide_eq_true_eq] at h
          obtain ⟨h1, h2⟩ := nodeInv_splitAfterTWKids tw o ro
            (createTabWidgetInfo st.tabWidgetIdCounter []) kids kids1 hk
            (by simp [createTabWidgetInfo, nodeInv]) h.2
          rw [nodeInv]
          simp only [Bool.and_eq_true, decide_eq_true_eq]
          exact ⟨by omega, h1⟩

theorem nodeInv_splitAfterTabContent_state (st : State) (c : Nat)
    (o : SplitOrientation) (h : nodeInv st.rootInfoNode = true) :
    nodeInv (splitAfterTabContent st c o).1.rootInfoNode = true := by
  cases hf : findTabWidgetInfoByTabContent st.rootInfoNode c with
  | none =>
      simp only [splitAfterTabContent, hf]
      exact h
  | some res1 =>
      obtain ⟨info, ti⟩ := res1
      cases info with
      | splitter o2 kids2 =>
          simp only [splitAfterTabContent, hf]
          exact h
      | tabwidget w2 ch2 et2 ec2 =>
          cases ti with
          | none =>
              simp only [splitAfterTabContent, hf]
              exact nodeInv_splitAfterTabWidget_state st w2 o h
          | some tabInfo =>
              cases hroot : st.rootInfoNode with
              | tabwidget w ch et ec =>
                  simp only [splitAfterTabContent, hf]
                  simp only [hroot]
                  rw [nodeInv]
                  simp only [Bool.and_eq_true, decide_eq_true_eq]
                  refine ⟨by simp, ?_⟩
                  simp only [nodeInvList, Bool.and_eq_true]
                  refine ⟨by simp [splitTabWidgetAtTabContent, nodeInv], ?_, by simp⟩
                  simp [splitTabWidgetAtTabContent, createTabWidgetInfo, nodeInv]
              | splitter ro kids =>
                  cases hk : splitAfterContentKids c o ro st.tabWidgetIdCounter kids with
                  | none =>
                      simp only [splitAfterTabContent, hf]
                      simp only [hroot, hk]
                      rw [hroot] at h
                      exact h
                  | some kids1 =>
                      simp only [splitAfterTabContent, hf]
                      simp only [hroot, hk]
                      rw [hroot] at h
                      rw [nodeInv] at h
                      simp only [Bool.and_eq_true, decide_eq_true_eq] at h
                      obtain ⟨h1, h2⟩ := nodeInv_splitAfterContentKids c o ro
                        st.tabWidgetIdCounter kids kids1 hk h.2
                      rw [nodeInv]
                      simp only [Bool.and_eq_true, decide_eq_true_eq]
                      exact ⟨by omega, h1⟩

theorem nodeInv_splitBeforeTabWidget_state (st : State) (tw : Nat)
    (o : SplitOrientation) (h : nodeInv st.rootInfoNode = true) :
    nodeInv (splitBeforeTabWidget st tw o).1.rootInfoNode = true := by
  rw [splitBeforeTabWidget]
  have hafter := nodeInv_splitAfterTabWidget_state st tw o h
  cases hres : (splitAfterTabWidget st tw o).2 with
  | none => simpa using hafter
  | some newId =>
      simp only
      cases hsw : swapParentNode newId tw (splitAfterTabWidget st tw o).1.rootInfoNode with
      | none => simpa using hafter
      | some r =>
          cases r with
          | error e => simpa using hafter
          | ok root1 =>
              simp only
              exact (nodeInv_swapParentNode newId tw).1 _ root1 hsw hafter

theorem nodeInv_closeSplitAtTabContent_state (st : State) (c : Nat)
    (h : nodeInv st.rootInfoNode = true) :
    ∀ st1, closeSplitAtTabContent st c = .ok st1 →
      nodeInv st1.rootInfoNode = true := by
  intro st1 hc
  cases hroot : st.rootInfoNode with
  | tabwidget w ch et ec =>
      simp only [closeSplitAtTabContent, hroot] at hc
      by_cases h1 : ec = some c
      · simp only [if_pos h1, Except.ok.injEq] at hc
        subst hc
        exact h
      · rw [if_neg h1] at hc
        cases h2 : ch.any (·.content = c) with
        | true => simp [h2] at hc
        | false =>
            simp [h2] at hc
            subst hc
            exact h
  | splitter o kids =>
      simp only [closeSplitAtTabContent, hroot] at hc
      cases hscan : closeMergeScan c [] kids with
      | none =>
          simp only [hscan, Except.ok.injEq] at hc
          subst hc
          exact h
      | some r =>
          cases r with
          | error e => simp [hscan] at hc
          | ok kids1 =>
              simp only [hscan, Except.ok.injEq] at hc
              subst hc
              rw [hroot] at h
              rw [nodeInv] at h
              simp only [Bool.and_eq_true, decide_eq_true_eq] at h
              obtain ⟨hlen1, halmost⟩ := almost_closeMergeScan c [] kids kids1 hscan
                (by simpa using h.2) (by simpa using h.1)
              exact nodeInv_removeRedundantSplitters_almostKids o kids1 halmost hlen1

theorem nodeInv_materializeEmpty_state (st : State) (tw cid : Nat)
    (h : nodeInv st.rootInfoNode = true) :
    nodeInv (materializeEmpty st tw cid).rootInfoNode = true := by
  rw [materializeEmpty]
  simp only
  rw [(nodeInv_materializeEmptyNode tw (st.tabIdCounter + 1) cid).1 st.rootInfoNode]
  exact h

theorem nodeInv_applyOp (st : State) (op : Op)
    (h : nodeInv st.rootInfoNode = true) :
    nodeInv (applyOp st op).rootInfoNode = true := by
  cases op with
  | appendTab tw tab c => exact nodeInv_appendTab_state st tw tab c h
  | removeTabContent c => exact nodeInv_removeTabContent_state st c h
  | moveTabToTabWidget tab tgt i =>
      rw [applyOp]
      cases hm : moveTabToTabWidget st tab tgt i with
      | ok st1 => exact nodeInv_moveTabToTabWidget_state st tab tgt i h st1 hm
      | error e => exact h
  | splitAfterTabWidget tw o => exact nodeInv_splitAfterTabWidget_state st tw o h
  | splitAfterTabContent c o => exact nodeInv_splitAfterTabContent_state st c o h
  | splitBeforeTabWidget tw o => exact nodeInv_splitBeforeTabWidget_state st tw o h
  | closeSplitAtTabContent c =>
      rw [applyOp]
      cases hm : closeSplitAtTabContent st c with
      | ok st1 => exact nodeInv_closeSplitAtTabContent_state st c h st1 hm
      | error e => exact h
  | materializeEmpty tw cid => exact nodeInv_materializeEmpty_state st tw cid h

theorem nodeInv_runOps (ops : List Op) : ∀ st : State,
    nodeInv st.rootInfoNode = true →
    nodeInv (runOps st ops).rootInfoNode = true := by
  induction ops with
  | nil => intro st h; exact h
  | cons op ops ih =>
      intro st h
      rw [runOps]
      exact ih (applyOp st op) (nodeInv_applyOp st op h)

/-! ### The directional query, compared against the specification's words -/

/-- Written from the specification's words: the candidate set is the
transformed boxes whose left edge is strictly greater than the start
centre's x and whose vertical span satisfies `top ≤ centerY < bottom`. -/
def specCandidates (positions : List TabWidgetPosition) (cx cy : Rat) :
    List TabWidgetPosition :=
  positions.filter (fun pos => cx < pos.left ∧ pos.top ≤ cy ∧ cy < pos.bottom)

/-- Written from the specification's words: among the candidates, the one
with the smallest transformed left edge, first in traversal order on ties. -/
def specFirstMinLeft (cands : List TabWidgetPosition) : Option TabWidgetPosition :=
  cands.find? (fun p => cands.all (fun q => p.left ≤ q.left))

theorem find?_congr_on (p q : α → Bool) :
    ∀ l : List α, (∀ x ∈ l, p x = q x) → l.find? p = l.find? q := by
  intro l
  induction l with
  | nil => intro _; rfl
  | cons a as ih =>
      intro h
      rw [List.find?_cons, List.find?_cons]
      rw [h a (by simp)]
      cases q a with
      | true => rfl
      | false => exact ih fun x hx => h x (by simp [hx])

theorem head_insertionSort_firstMin :
    ∀ l : List TabWidgetPosition,
      (l.insertionSort (fun a b => a.left ≤ b.left)).head? = specFirstMinLeft l := by
  intro l
  induction l with
  | nil => simp [List.insertionSort, specFirstMinLeft]
  | cons a rest ih =>
      cases hs : rest.insertionSort (fun a b => a.left ≤ b.left) with
      | nil =>
          have hnil : rest = [] := by
            have hp := List.perm_insertionSort
              (fun a b : TabWidgetPosition => a.left ≤ b.left) rest
            rw [hs] at hp
            exact hp.symm.eq_nil
          subst hnil
          simp [List.insertionSort, List.orderedInsert, specFirstMinLeft]
      | cons hd tl =>
          have hrest_find : rest.find? (fun p => rest.all (fun q => p.left ≤ q.left)) =
              some hd := by
            rw [specFirstMinLeft] at ih
            rw [← ih, hs]
            rfl
          have hd_pred := List.find?_some hrest_find
          simp only [List.all_eq_true, decide_eq_true_eq] at hd_pred
          have hd_mem : hd ∈ rest := List.mem_of_find?_eq_some hrest_find
          rw [List.insertionSort, hs]
          by_cases hle : a.left ≤ hd.left
          · rw [List.orderedInsert, if_pos hle]
            have hpa : ((a :: rest).all (fun q => a.left ≤ q.left)) = true := by
              simp only [List.all_eq_true, decide_eq_true_eq]
              intro q hq
              rcases List.mem_cons.1 hq with rfl | hq2
              · exact le_refl _
              · exact le_trans hle (hd_pred q hq2)
            rw [specFirstMinLeft, List.find?_cons]
            simp only [hpa]
            rfl
          · rw [List.orderedInsert, if_neg hle]
            have hlt : hd.left < a.left := lt_of_not_le hle
            have hpa : ((a :: rest).all (fun q => a.left ≤ q.left)) = false := by
              rw [List.all_eq_false]
              exact ⟨hd, List.mem_cons_of_mem a hd_mem, by simpa using hle⟩
            rw [specFirstMinLeft, List.find?_cons]
            simp only [hpa]
            have hcongr : rest.find? (fun p => (a :: rest).all (fun q => p.left ≤ q.left)) =
                rest.find? (fun p => rest.all (fun q => p.left ≤ q.left)) := by
              refine find?_congr_on _ _ rest ?_
              intro x hx
              rw [List.all_cons]
              cases hxall : rest.all (fun q => x.left ≤ q.left) with
              | true =>
                  have hxmin : x.left ≤ hd.left := by
                    simp only [List.all_eq_true, decide_eq_true_eq] at hxall
                    exact hxall hd hd_mem
                  have : (decide (x.left ≤ a.left)) = true := by
                    simp only [decide_eq_true_eq]
                    exact le_of_lt (lt_of_le_of_lt hxmin hlt)
                  rw [this]
                  simp
              | false => simp
            rw [hcongr, hrest_find]
            simp

/-! ### Lookup-failure behaviour -/

theorem appendTabNode_none_of_find_none (tw tab c : Nat) :
    (∀ n : InfoNode, findTabWidgetInfoByTabWidget n tw = none →
        appendTabNode tw tab c n = none) ∧
    (∀ l : List InfoNode, findTabWidgetInfoByTabWidgetList l tw = none →
        appendTabNodeList tw tab c l = none) := by
  refine appendTabNode.mutual_induct tw tab c
    (fun n => findTabWidgetInfoByTabWidget n tw = none → appendTabNode tw tab c n = none)
    (fun l => findTabWidgetInfoByTabWidgetList l tw = none →
        appendTabNodeList tw tab c l = none) ?_ ?_ ?_ ?_ ?_ ?_
  · intro ch et ec hf
    rw [findTabWidgetInfoByTabWidget] at hf
    simp at hf
  · intro w ch et ec hne _
    rw [appendTabNode.eq_def]
    simp [hne]
  · intro o kids ih hf
    rw [findTabWidgetInfoByTabWidget] at hf
    rw [appendTabNode.eq_def]
    simp [ih hf]
  · intro _
    rw [appendTabNodeList]
  · intro k ks info hk ih hf
    rw [findTabWidgetInfoByTabWidgetList] at hf
    cases hfk : findTabWidgetInfoByTabWidget k tw with
    | some i => rw [hfk] at hf; exact Option.noConfusion hf
    | none =>
        exact absurd hk (by rw [ih hfk]; exact Option.noConfusion)
  · intro k ks hk ih1 ih2 hf
    rw [findTabWidgetInfoByTabWidgetList] at hf
    cases hfk : findTabWidgetInfoByTabWidget k tw with
    | some i => rw [hfk] at hf; exact Option.noConfusion hf
    | none =>
        rw [hfk] at hf
        rw [appendTabNodeList.eq_def]
        simp [hk, ih2 hf]

theorem removeTabContentNode_none_of_find_none (c : Nat) :
    (∀ n : InfoNode, findTabWidgetInfoByTabContent n c = none →
        removeTabContentNode c n = none) ∧
    (∀ l : List InfoNode, findTabWidgetInfoByTabContentList l c = none →
        removeTabContentNodeList c l = none) := by
  refine removeTabContentNode.mutual_induct c
    (fun n => findTabWidgetInfoByTabContent n c = none → removeTabContentNode c n = none)
    (fun l => findTabWidgetInfoByTabContentList l c = none →
        removeTabContentNodeList c l = none) ?_ ?_ ?_ ?_ ?_ ?_ ?_
  · intro w ch et hf
    rw [findTabWidgetInfoByTabContent] at hf
    simp at hf
  · intro w ch et ec hec ti hti hf
    rw [findTabWidgetInfoByTabContent] at hf
    rw [if_neg hec, hti] at hf
    exact Option.noConfusion hf
  · intro w ch et ec hec hti _
    rw [removeTabContentNode.eq_def]
    simp [hec, hti]
  · intro o kids ih hf
    rw [findTabWidgetInfoByTabContent] at hf
    rw [removeTabContentNode.eq_def]
    simp [ih hf]
  · intro _
    rw [removeTabContentNodeList]
  · intro k ks k1 hk ih hf
    rw [findTabWidgetInfoByTabContentList] at hf
    cases hfk : findTabWidgetInfoByTabContent k c with
    | some i => rw [hfk] at hf; exact Option.noConfusion hf
    | none =>
        exact absurd hk (by rw [ih hfk]; exact Option.noConfusion)
  · intro k ks hk ih1 ih2 hf
    rw [findTabWidgetInfoByTabContentList] at hf
    cases hfk : findTabWidgetInfoByTabContent k c with
    | some i => rw [hfk] at hf; exact Option.noConfusion hf
    | none =>
        rw [hfk] at hf
        rw [removeTabContentNodeList.eq_def]
        simp [hk, ih2 hf]

theorem splitAfterTWKids_none_of_find_none (tw : Nat) (o : SplitOrientation) :
    ∀ (parentO : SplitOrientation) (newTW : InfoNode) (l : List InfoNode),
      findTabWidgetInfoByTabWidgetList l tw = none →
      splitAfterTWKids tw o parentO newTW l = none := by
  refine splitAfterTWKids.induct tw o
    (fun parentO newTW l => findTabWidgetInfoByTabWidgetList l tw = none →
      splitAfterTWKids tw o parentO newTW l = none) ?_ ?_ ?_ ?_ ?_ ?_
  · intro parentO newTW _
    rw [splitAfterTWKids]
  · intro newTW ks ch et ec hf
    rw [findTabWidgetInfoByTabWidgetList] at hf
    rw [findTabWidgetInfoByTabWidget] at hf
    simp at hf
  · intro parentO newTW ks ch et ec hpo hf
    rw [findTabWidgetInfoByTabWidgetList] at hf
    rw [findTabWidgetInfoByTabWidget] at hf
    simp at hf
  · intro parentO newTW ks w ch et ec hw ih hf
    rw [findTabWidgetInfoByTabWidgetList] at hf
    rw [findTabWidgetInfoByTabWidget] at hf
    simp only [if_neg hw] at hf
    rw [splitAfterTWKids.eq_def]
    simp only [if_neg hw]
    have : splitAfterTWKids tw o parentO newTW ks = none := ih hf
    simp [this]
  · intro parentO newTW ks o2 kids2 kids3 hrec ih hf
    rw [findTabWidgetInfoByTabWidgetList] at hf
    cases hfk : findTabWidgetInfoByTabWidgetList kids2 tw with
    | some i =>
        rw [findTabWidgetInfoByTabWidget] at hf
        rw [hfk] at hf
        exact Option.noConfusion hf
    | none => exact absurd hrec (by rw [ih hfk]; exact Option.noConfusion)
  · intro parentO newTW ks o2 kids2 hrec ih1 ih2 hf
    rw [findTabWidgetInfoByTabWidgetList] at hf
    rw [findTabWidgetInfoByTabWidget] at hf
    cases hfk : findTabWidgetInfoByTabWidgetList kids2 tw with
    | some i =>
        rw [hfk] at hf
        exact Option.noConfusion hf
    | none =>
        rw [hfk] at hf
        rw [splitAfterTWKids.eq_def]
        simp only [hrec]
        have : splitAfterTWKids tw o parentO newTW ks = none := ih2 hf
        simp [this]

theorem closeMergeScan_none_of_find_none (c : Nat) :
    ∀ (pre l : List InfoNode),
      findTabWidgetInfoByTabContentList l c = none →
      closeMergeScan c pre l = none := by
  intro pre l
  induction l generalizing pre with
  | nil =>
      intro _
      rw [closeMergeScan]
  | cons k ks ih =>
      intro hf
      rw [findTabWidgetInfoByTabContentList] at hf
      cases hfk : findTabWidgetInfoByTabContent k c with
      | some i =>
          rw [hfk] at hf
          exact Option.noConfusion hf
      | none =>
          rw [hfk] at hf
          have hcont : containsTabContent c k = false := by
            rw [containsTabContent, hfk]
            rfl
          rw [closeMergeScan.eq_def]
          simp only [hcont, Bool.false_eq_true, if_false]
          exact ih (k :: pre) hf


/-- **C8**: for every requesting group and direction matrix, given the
per-group boxes supplied by the widget toolkit, the directional query
applies the direction's transform to every box, keeps exactly the boxes
whose transformed left edge exceeds the requester's transformed centre x
with `top ≤ centerY < bottom`, returns the first candidate in traversal
order attaining the smallest transformed left edge, and returns null when
no candidate qualifies (the spec-side selection is `none` exactly on an
empty candidate list).  The four public getters are the instances of the
query at the four direction matrices. -/
theorem claim_C8 (rawPositions : List TabWidgetPosition) (tabWidget : Nat)
    (m : Matrix2D) (startPosition : TabWidgetPosition)
    (hstart : ((rawPositions.map (transformTabWidgetPosition · m)).filter
        (·.tabWidgetInfo = tabWidget)).head? = some startPosition) :
    getTabWidgetInDirection rawPositions tabWidget m =
      .ok ((specFirstMinLeft (specCandidates
          (rawPositions.map (transformTabWidgetPosition · m))
          ((startPosition.left + startPosition.right) / 2)
          ((startPosition.top + startPosition.bottom) / 2))).map (·.tabWidgetInfo)) ∧
    (∀ cands : List TabWidgetPosition, specFirstMinLeft cands = none ↔ cands = []) ∧
    getTabWidgetToLeft rawPositions tabWidget =
      getTabWidgetInDirection rawPositions tabWidget ⟨-1, 0, 0, 1⟩ ∧
    getTabWidgetToRight rawPositions tabWidget =
      getTabWidgetInDirection rawPositions tabWidget ⟨1, 0, 0, 1⟩ ∧
    getTabWidgetAbove rawPositions tabWidget =
      getTabWidgetInDirection rawPositions tabWidget ⟨0, 1, -1, 0⟩ ∧
    getTabWidgetBelow rawPositions tabWidget =
      getTabWidgetInDirection rawPositions tabWidget ⟨0, -1, 1, 0⟩ := by
  refine ⟨?_, ?_, rfl, rfl, rfl, rfl⟩
  · rw [getTabWidgetInDirection]
    simp only [hstart]
    rw [head_insertionSort_firstMin]
    have hfeq : (rawPositions.map (transformTabWidgetPosition · m)).filter
        (fun pos => ((startPosition.left + startPosition.right) / 2 < pos.left ∧
          (startPosition.top + startPosition.bottom) / 2 < pos.bottom ∧
          pos.top ≤ (startPosition.top + startPosition.bottom) / 2 : Prop)) =
        specCandidates (rawPositions.map (transformTabWidgetPosition · m))
          ((startPosition.left + startPosition.right) / 2)
          ((startPosition.top + startPosition.bottom) / 2) := by
      rw [specCandidates]
      refine List.filter_congr ?_
      intro x _
      apply decide_eq_decide.mpr
      constructor
      · rintro ⟨h1, h2, h3⟩; exact ⟨h1, h3, h2⟩
      · rintro ⟨h1, h2, h3⟩; exact ⟨h1, h3, h2⟩
    rw [hfeq]
  · intro cands
    constructor
    · intro hnone
      rw [← head_insertionSort_firstMin] at hnone
      have hp := List.perm_insertionSort
        (fun a b : TabWidgetPosition => a.left ≤ b.left) cands
      cases hs : cands.insertionSort (fun a b => a.left ≤ b.left) with
      | nil =>
          rw [hs] at hp
          exact hp.symm.eq_nil
      | cons hd tl =>
          rw [hs] at hnone
          exact Option.noConfusion hnone
    · intro h
      subst h
      rfl

/-- Witness for C8 on a 2-by-2 grid of unit-square-by-ten boxes: from the
top-left group, the rightward query selects the top-right group. -/
theorem claim_C8_witness :
    ((([⟨0, 0, 10, 10, 10, 10, 1⟩, ⟨10, 0, 20, 10, 10, 10, 2⟩,
        ⟨0, 10, 10, 20, 10, 10, 3⟩, ⟨10, 10, 20, 20, 10, 10, 4⟩] :
          List TabWidgetPosition).map
          (transformTabWidgetPosition · ⟨1, 0, 0, 1⟩)).filter
        (·.tabWidgetInfo = 1)).head? =
      some (⟨0, 0, 10, 10, 10, 10, 1⟩ : TabWidgetPosition) ∧
    getTabWidgetInDirection
      [⟨0, 0, 10, 10, 10, 10, 1⟩, ⟨10, 0, 20, 10, 10, 10, 2⟩,
        ⟨0, 10, 10, 20, 10, 10, 3⟩, ⟨10, 10, 20, 20, 10, 10, 4⟩] 1 ⟨1, 0, 0, 1⟩ =
      .ok (some 2) := by
  have hstart :
      ((([⟨0, 0, 10, 10, 10, 10, 1⟩, ⟨10, 0, 20, 10, 10, 10, 2⟩,
          ⟨0, 10, 10, 20, 10, 10, 3⟩, ⟨10, 10, 20, 20, 10, 10, 4⟩] :
            List TabWidgetPosition).map
            (transformTabWidgetPosition · ⟨1, 0, 0, 1⟩)).filter
          (·.tabWidgetInfo = 1)).head? =
        some (⟨0, 0, 10, 10, 10, 10, 1⟩ : TabWidgetPosition) := by
    norm_num [transformTabWidgetPosition, transform2dPoint]
  refine ⟨hstart, ?_⟩
  have hmain := (claim_C8 _ 1 ⟨1, 0, 0, 1⟩ ⟨0, 0, 10, 10, 10, 10, 1⟩ hstart).1
  rw [hmain]
  norm_num [specFirstMinLeft, specCandidates, transformTabWidgetPosition,
    transform2dPoint, List.find?]

/-- **C1**: for every sequence of the engine's mutating operations (the
split and merge operations of the claim together with the remaining
mutators, which only strengthens the statement) starting from the initial
single-tab-group tree, the resulting tree contains no splitter node with
exactly one child, and in particular the root is never a splitter with
fewer than two children: redundant-splitter elimination holds after every
mutating call. -/
theorem claim_C1 (ops : List Op) :
    noSingleChildSplitter (runOps initialState ops).rootInfoNode = true ∧
    rootNotSmallSplitter (runOps initialState ops).rootInfoNode = true := by
  have h0 : nodeInv initialState.rootInfoNode = true := by
    simp [initialState, nodeInv]
  have h := nodeInv_runOps ops initialState h0
  exact ⟨nodeInv_implies_noSingle.1 _ h, nodeInv_implies_rootNotSmall _ h⟩

/-- **C10**: for every tab-group present in the tree,
`getTabContentsByTabWidget` returns the group's slot contents in slot order
when the group is non-empty; for an empty group it returns the one-element
list holding the materialised empty-state placeholder when there is one,
and the empty list otherwise. -/
theorem claim_C10 (st : State) (tw w : Nat) (ch : List TabInfo)
    (et ec : Option Nat)
    (hfind : findTabWidgetInfoByTabWidget st.rootInfoNode tw =
      some (.tabwidget w ch et ec)) :
    (ch ≠ [] → getTabContentsByTabWidget st tw = some (ch.map (·.content))) ∧
    (ch = [] → ∀ e, ec = some e → getTabContentsByTabWidget st tw = some [e]) ∧
    (ch = [] → ec = none → getTabContentsByTabWidget st tw = some []) := by
  refine ⟨?_, ?_, ?_⟩
  · intro hne
    rw [getTabContentsByTabWidget, hfind]
    simp only [List.length_eq_zero]
    rw [if_neg hne]
  · intro he e hec
    subst he
    subst hec
    rw [getTabContentsByTabWidget, hfind]
    rfl
  · intro he hec
    subst he
    subst hec
    rw [getTabContentsByTabWidget, hfind]
    rfl

/-- Witness for C10: the group of the initial tree is empty with no
materialised placeholder, so the contents query returns the empty list. -/
theorem claim_C10_witness :
    findTabWidgetInfoByTabWidget initialState.rootInfoNode 1 =
      some (.tabwidget 1 [] none none) ∧
    getTabContentsByTabWidget initialState 1 = some [] := by
  have h : findTabWidgetInfoByTabWidget initialState.rootInfoNode 1 =
      some (.tabwidget 1 [] none none) := by
    simp [initialState, findTabWidgetInfoByTabWidget]
  exact ⟨h, (claim_C10 initialState 1 1 [] none none h).2.2 rfl rfl⟩

/-- **C5** (counterexample to the original claim): the claim says every
lookup-based operation degrades to a severe log, a no-op and a null/void
result and never throws.  `moveTabToTabWidget` destructures the `null`
returned by `findTabWidgetInfoByTabElement` (source line 430), and
`splitBeforeTabWidget` dereferences the `null` path of a missing widget
(source line 345): both throw a `TypeError`, modelled as `Except.error`.
Concretely, tab `97` and widget `99` are absent from the initial tree,
yet both calls throw. -/
theorem claim_C5_counterexample :
    findTabWidgetInfoByTab initialState.rootInfoNode 97 = none ∧
    moveTabToTabWidget initialState 97 1 0 = .error () ∧
    findTabWidgetInfoByTabWidget initialState.rootInfoNode 99 = none ∧
    (splitBeforeTabWidget initialState 99 .horizontal).2 = .error () := by
  refine ⟨?_, ?_, ?_, ?_⟩
  · simp [initialState, findTabWidgetInfoByTab]
  · simp [moveTabToTabWidget, initialState, findTabWidgetInfoByTab]
  · simp [initialState, findTabWidgetInfoByTabWidget]
  · simp [splitBeforeTabWidget, splitAfterTabWidget, initialState,
      findTabWidgetInfoByTabWidget]

/-- **C5** (amended): on lookup failure, `appendTab`, `removeTabContent`,
`splitAfterTabWidget`, `splitAfterTabContent` and `closeSplitAtTabContent`
log at severe level, leave the tree unchanged and return a null/void
result; `getTabContentsByTabWidget` returns null.  `moveTabToTabWidget`
and `splitBeforeTabWidget` however throw a `TypeError` (modelled as
`Except.error`) instead of degrading to a no-op. -/
theorem claim_C5 (st : State) (tw tab c mt : Nat) (i : Int)
    (o : SplitOrientation)
    (hw : findTabWidgetInfoByTabWidget st.rootInfoNode tw = none)
    (hc : findTabWidgetInfoByTabContent st.rootInfoNode c = none)
    (ht : findTabWidgetInfoByTab st.rootInfoNode mt = none) :
    appendTab st tw tab c = st ∧
    removeTabContent st c = st ∧
    getTabContentsByTabWidget st tw = none ∧
    splitAfterTabWidget st tw o = (st, none) ∧
    splitAfterTabContent st c o = (st, none) ∧
    closeSplitAtTabContent st c = .ok st ∧
    moveTabToTabWidget st mt tw i = .error () ∧
    splitBeforeTabWidget st tw o = (st, .error ()) := by
  have hsplit : splitAfterTabWidget st tw o = (st, none) := by
    cases hroot : st.rootInfoNode with
    | tabwidget w ch et ec =>
        have hne : ¬w = tw := by
          intro h
          rw [hroot, findTabWidgetInfoByTabWidget, if_pos h] at hw
          exact Option.noConfusion hw
        simp [splitAfterTabWidget, hroot, hne]
    | splitter o2 kids =>
        have hl : findTabWidgetInfoByTabWidgetList kids tw = none := by
          rw [hroot, findTabWidgetInfoByTabWidget] at hw
          exact hw
        have hk := splitAfterTWKids_none_of_find_none tw o o2
          (createTabWidgetInfo st.tabWidgetIdCounter []) kids hl
        simp [splitAfterTabWidget, hroot, hk]
  refine ⟨?_, ?_, ?_, hsplit, ?_, ?_, ?_, ?_⟩
  · have h1 : appendTabNode tw tab c st.rootInfoNode = none :=
      (appendTabNode_none_of_find_none tw tab c).1 _ hw
    simp [appendTab, h1]
  · have h2 : removeTabContentNode c st.rootInfoNode = none :=
      (removeTabContentNode_none_of_find_none c).1 _ hc
    simp [removeTabContent, h2]
  · simp [getTabContentsByTabWidget, hw]
  · simp [splitAfterTabContent, hc]
  · cases hroot : st.rootInfoNode with
    | tabwidget w ch et ec =>
        rw [hroot, findTabWidgetInfoByTabContent] at hc
        have hec : ¬ec = some c := by
          intro h
          rw [if_pos h] at hc
          exact Option.noConfusion hc
        rw [if_neg hec] at hc
        cases hfind : ch.find? (·.content = c) with
        | some ti =>
            rw [hfind] at hc
            exact Option.noConfusion hc
        | none =>
            have hany : ch.any (·.content = c) = false := by
              rw [List.find?_eq_none] at hfind
              simp only [List.any_eq_false]
              intro x hx
              exact hfind x hx
            simp [closeSplitAtTabContent, hroot, hec, hany]
    | splitter o2 kids =>
        have hl : findTabWidgetInfoByTabContentList kids c = none := by
          rw [hroot, findTabWidgetInfoByTabContent] at hc
          exact hc
        have hs := closeMergeScan_none_of_find_none c [] kids hl
        simp [closeSplitAtTabContent, hroot, hs]
  · simp [moveTabToTabWidget, ht]
  · simp [splitBeforeTabWidget, hsplit]

/-- **C5** witness: tab `97`, content `98` and widget `99` are absent from
the initial tree, and the amended behaviour holds there. -/
theorem claim_C5_witness :
    (findTabWidgetInfoByTabWidget initialState.rootInfoNode 99 = none ∧
     findTabWidgetInfoByTabContent initialState.rootInfoNode 98 = none ∧
     findTabWidgetInfoByTab initialState.rootInfoNode 97 = none) ∧
    (appendTab initialState 99 5 98 = initialState ∧
     removeTabContent initialState 98 = initialState ∧
     getTabContentsByTabWidget initialState 99 = none ∧
     splitAfterTabWidget initialState 99 .horizontal = (initialState, none) ∧
     splitAfterTabContent initialState 98 .horizontal = (initialState, none) ∧
     closeSplitAtTabContent initialState 98 = .ok initialState ∧
     moveTabToTabWidget initialState 97 99 0 = .error () ∧
     splitBeforeTabWidget initialState 99 .horizontal =
       (initialState, .error ())) := by
  have hw : findTabWidgetInfoByTabWidget initialState.rootInfoNode 99 = none := by
    simp [initialState, findTabWidgetInfoByTabWidget]
  have hc : findTabWidgetInfoByTabContent initialState.rootInfoNode 98 = none := by
    simp [initialState, findTabWidgetInfoByTabContent]
  have ht : findTabWidgetInfoByTab initialState.rootInfoNode 97 = none := by
    simp [initialState, findTabWidgetInfoByTab]
  exact ⟨⟨hw, hc, ht⟩, claim_C5 initialState 99 5 98 97 0 .horizontal hw hc ht⟩

/-! ### The insertion index of moveTabToTabWidget -/

/-- Inserting at a position within bounds is the take/insert/drop splice
that `Array.prototype.slice` produces. -/
theorem insertIdx_take_drop_splice (a : α) :
    ∀ (j : Nat) (l : List α), j ≤ l.length →
      List.insertIdx j a l = l.take j ++ a :: l.drop j := by
  intro j l
  induction l generalizing j with
  | nil =>
      intro h
      have : j = 0 := Nat.le_zero.mp h
      subst this
      simp
  | cons x xs ih =>
      intro h
      cases j with
      | zero => simp
      | succ n =>
          rw [List.insertIdx_succ_cons]
          simp only [List.take_succ_cons, List.drop_succ_cons, List.cons_append,
            List.cons.injEq, true_and]
          exact ih n (Nat.le_of_succ_le_succ h)

/-- The slot sequence the claim predicts for `moveTabToGroup`: the index
clamped to `[0, slotCount]`, so every negative index inserts at the front. -/
def clampedInsertSlots (slots : List TabInfo) (tabInfo : TabInfo) (i : Int) :
    List TabInfo :=
  let j := if i < 0 then 0 else min i.toNat slots.length
  slots.take j ++ tabInfo :: slots.drop j

/-- **C6** (counterexample to the original claim): moving tab `10` into a
two-slot group at index `-1` inserts the slot at position `1` (JavaScript
`slice` resolves a negative index relative to the end of the array), not at
position `0` as clamping to `[0, slotCount]` would. -/
theorem claim_C6_counterexample :
    moveTabToTabWidget
        ⟨.splitter .horizontal
          [.tabwidget 1 [⟨10, 100⟩] none none,
           .tabwidget 2 [⟨20, 200⟩, ⟨21, 201⟩] none none], 2, 2⟩
        10 2 (-1) =
      .ok ⟨.splitter .horizontal
          [.tabwidget 1 [] none none,
           .tabwidget 2 [⟨20, 200⟩, ⟨10, 100⟩, ⟨21, 201⟩] none none], 2, 2⟩ ∧
    clampedInsertSlots [⟨20, 200⟩, ⟨21, 201⟩] ⟨10, 100⟩ (-1) =
      [⟨10, 100⟩, ⟨20, 200⟩, ⟨21, 201⟩] ∧
    ([⟨20, 200⟩, ⟨10, 100⟩, ⟨21, 201⟩] : List TabInfo) ≠
      [⟨10, 100⟩, ⟨20, 200⟩, ⟨21, 201⟩] := by
  refine ⟨?_, ?_, ?_⟩
  · simp [moveTabToTabWidget, findTabWidgetInfoByTab, findTabWidgetInfoByTabList,
      findTabWidgetInfoByTabWidget, findTabWidgetInfoByTabWidgetList,
      jsSliceTo, jsSliceFrom, jsSliceIdx, replaceSubtree, replaceSubtreeList]
  · simp [clampedInsertSlots]
  · simp

/-- **C6** (amended): for a tab and a target group both present in the
tree, `moveTabToTabWidget` resolves the insertion position as JavaScript
`slice` does on `min index slotCount`: a non-negative index is clamped to
`[0, slotCount]`, but a negative index counts from the end of the slot
sequence (floored at the front); the resolved position is always within
bounds.  Across distinct groups the slot is removed from the source group
and spliced into the target group at that position; within one group the
result is a pure reorder of the slot sequence (a permutation, when the
slot occurs once). -/
theorem claim_C6 (st : State) (tab target : Nat) (i : Int)
    (sw : Nat) (sch : List TabInfo) (set sec : Option Nat) (tabInfo : TabInfo)
    (tw : Nat) (tch : List TabInfo) (tet tec : Option Nat)
    (hsrc : findTabWidgetInfoByTab st.rootInfoNode tab =
      some (.tabwidget sw sch set sec, some tabInfo))
    (htgt : findTabWidgetInfoByTabWidget st.rootInfoNode target =
      some (.tabwidget tw tch tet tec)) :
    jsSliceIdx tch.length (min i (tch.length : Int)) ≤ tch.length ∧
    (0 ≤ i → jsSliceIdx tch.length (min i (tch.length : Int)) =
      min i.toNat tch.length) ∧
    (i < 0 → jsSliceIdx tch.length (min i (tch.length : Int)) =
      ((tch.length : Int) + i).toNat) ∧
    (InfoNode.tabwidget sw sch set sec ≠ .tabwidget tw tch tet tec →
      ∀ root1 root2 : InfoNode,
        replaceSubtree (.tabwidget sw sch set sec)
            (.tabwidget sw (sch.filter (· ≠ tabInfo)) set sec)
            st.rootInfoNode = some root1 →
        replaceSubtree (.tabwidget tw tch tet tec)
            (.tabwidget tw
              (List.insertIdx (jsSliceIdx tch.length (min i (tch.length : Int)))
                tabInfo tch) tet tec) root1 = some root2 →
        moveTabToTabWidget st tab target i =
          .ok { st with rootInfoNode := root2 }) ∧
    (InfoNode.tabwidget sw sch set sec = .tabwidget tw tch tet tec →
      List.count tabInfo sch = 1 →
      ∀ root1 : InfoNode,
        replaceSubtree (.tabwidget sw sch set sec)
            (.tabwidget sw
              ((jsSliceTo sch (min i (sch.length : Int))).filter (· ≠ tabInfo) ++
                tabInfo ::
                  (jsSliceFrom sch (min i (sch.length : Int))).filter (· ≠ tabInfo))
              set sec) st.rootInfoNode = some root1 →
        moveTabToTabWidget st tab target i =
          .ok { st with rootInfoNode := root1 } ∧
        ((jsSliceTo sch (min i (sch.length : Int))).filter (· ≠ tabInfo) ++
            tabInfo ::
              (jsSliceFrom sch (min i (sch.length : Int))).filter
                (· ≠ tabInfo)).Perm sch) := by
  have hle : jsSliceIdx tch.length (min i (tch.length : Int)) ≤ tch.length := by
    rw [jsSliceIdx]
    split <;> omega
  refine ⟨hle, ?_, ?_, ?_, ?_⟩
  · intro hi
    rw [jsSliceIdx]
    split <;> omega
  · intro hi
    rw [jsSliceIdx]
    split <;> omega
  · intro hne root1 root2 hr1 hr2
    have hins : List.insertIdx (jsSliceIdx tch.length (min i (tch.length : Int)))
        tabInfo tch =
        jsSliceTo tch (min i (tch.length : Int)) ++
          tabInfo :: jsSliceFrom tch (min i (tch.length : Int)) := by
      rw [insertIdx_take_drop_splice _ _ _ hle]
      rfl
    rw [hins] at hr2
    simp only [moveTabToTabWidget, hsrc, htgt]
    rw [if_neg hne]
    simp only [hr1, hr2]
  · intro heq hcount root1 hr1
    injection heq with e1 e2 e3 e4
    subst e1
    subst e2
    subst e3
    subst e4
    constructor
    · simp only [moveTabToTabWidget, hsrc, htgt]
      simp only [if_true, hr1]
    · refine List.perm_middle.trans ?_
      rw [← List.filter_append]
      have hft : jsSliceTo sch (min i (sch.length : Int)) ++
          jsSliceFrom sch (min i (sch.length : Int)) = sch := by
        simp [jsSliceTo, jsSliceFrom]
      rw [hft]
      refine List.perm_iff_count.mpr ?_
      intro b
      by_cases hb : b = tabInfo
      · subst hb
        have h0 : List.count b (sch.filter (· ≠ b)) = 0 := by
          refine List.count_eq_zero.mpr ?_
          intro hmem
          rw [List.mem_filter] at hmem
          simp at hmem
        rw [List.count_cons_self, h0, hcount]
      · rw [List.count_cons_of_ne hb]
        rw [List.count_filter]
        simp [hb]

/-- **C6** witness: the amended behaviour at index `-1` on a two-slot
target group distinct from the source group; the slot lands at position
`1` (end-relative). -/
theorem claim_C6_witness :
    findTabWidgetInfoByTab
        (InfoNode.splitter .horizontal
          [.tabwidget 1 [⟨10, 100⟩] none none,
           .tabwidget 2 [⟨20, 200⟩, ⟨21, 201⟩] none none]) 10 =
      some (.tabwidget 1 [⟨10, 100⟩] none none, some ⟨10, 100⟩) ∧
    findTabWidgetInfoByTabWidget
        (InfoNode.splitter .horizontal
          [.tabwidget 1 [⟨10, 100⟩] none none,
           .tabwidget 2 [⟨20, 200⟩, ⟨21, 201⟩] none none]) 2 =
      some (.tabwidget 2 [⟨20, 200⟩, ⟨21, 201⟩] none none) ∧
    moveTabToTabWidget
        ⟨.splitter .horizontal
          [.tabwidget 1 [⟨10, 100⟩] none none,
           .tabwidget 2 [⟨20, 200⟩, ⟨21, 201⟩] none none], 2, 2⟩
        10 2 (-1) =
      .ok ⟨.splitter .horizontal
          [.tabwidget 1 [] none none,
           .tabwidget 2 [⟨20, 200⟩, ⟨10, 100⟩, ⟨21, 201⟩] none none], 2, 2⟩ := by
  have hsrc : findTabWidgetInfoByTab
      (InfoNode.splitter .horizontal
        [.tabwidget 1 [⟨10, 100⟩] none none,
         .tabwidget 2 [⟨20, 200⟩, ⟨21, 201⟩] none none]) 10 =
      some (.tabwidget 1 [⟨10, 100⟩] none none, some ⟨10, 100⟩) := by
    simp [findTabWidgetInfoByTab, findTabWidgetInfoByTabList]
  have htgt : findTabWidgetInfoByTabWidget
      (InfoNode.splitter .horizontal
        [.tabwidget 1 [⟨10, 100⟩] none none,
         .tabwidget 2 [⟨20, 200⟩, ⟨21, 201⟩] none none]) 2 =
      some (.tabwidget 2 [⟨20, 200⟩, ⟨21, 201⟩] none none) := by
    simp [findTabWidgetInfoByTabWidget, findTabWidgetInfoByTabWidgetList]
  have h := claim_C6
    ⟨.splitter .horizontal
      [.tabwidget 1 [⟨10, 100⟩] none none,
       .tabwidget 2 [⟨20, 200⟩, ⟨21, 201⟩] none none], 2, 2⟩
    10 2 (-1) 1 [⟨10, 100⟩] none none ⟨10, 100⟩
    2 [⟨20, 200⟩, ⟨21, 201⟩] none none hsrc htgt
  refine ⟨hsrc, htgt, ?_⟩
  refine h.2.2.2.1 (by simp)
    (.splitter .horizontal
      [.tabwidget 1 [] none none,
       .tabwidget 2 [⟨20, 200⟩, ⟨21, 201⟩] none none])
    (.splitter .horizontal
      [.tabwidget 1 [] none none,
       .tabwidget 2 [⟨20, 200⟩, ⟨10, 100⟩, ⟨21, 201⟩] none none])
    ?_ ?_
  · simp [replaceSubtree, replaceSubtreeList]
  · norm_num [jsSliceIdx, replaceSubtree, replaceSubtreeList, List.insertIdx_succ_cons]
    exact fun h => InfoNode.noConfusion h

/-! ### Slot-count bookkeeping for moveTabToTabWidget -/

/-- Replacing one subtree changes the depth-first slot-content list by
swapping the old subtree's contribution for the new one's. -/
theorem contentsLen_replaceSubtree (old new1 : InfoNode) :
    (∀ n : InfoNode, ∀ n1, replaceSubtree old new1 n = some n1 →
        (getAllTabContents n1).length + (getAllTabContents old).length =
          (getAllTabContents n).length + (getAllTabContents new1).length) ∧
    (∀ l : List InfoNode, ∀ l1, replaceSubtreeList old new1 l = some l1 →
        (getAllTabContentsList l1).length + (getAllTabContents old).length =
          (getAllTabContentsList l).length + (getAllTabContents new1).length) := by
  refine replaceSubtree.mutual_induct old new1
    (fun n => ∀ n1, replaceSubtree old new1 n = some n1 →
        (getAllTabContents n1).length + (getAllTabContents old).length =
          (getAllTabContents n).length + (getAllTabContents new1).length)
    (fun l => ∀ l1, replaceSubtreeList old new1 l = some l1 →
        (getAllTabContentsList l1).length + (getAllTabContents old).length =
          (getAllTabContentsList l).length + (getAllTabContents new1).length)
    ?_ ?_ ?_ ?_ ?_ ?_
  · intro n1 h
    rw [replaceSubtree.eq_def] at h
    simp at h
    subst h
    omega
  · intro w ch et ec hne n1 h
    rw [replaceSubtree.eq_def] at h
    simp [hne] at h
  · intro o kids hne ih n1 h
    rw [replaceSubtree.eq_def] at h
    simp only [if_neg hne, Option.map_eq_some'] at h
    obtain ⟨l1, hl1, rfl⟩ := h
    have := ih l1 hl1
    simp only [getAllTabContents]
    omega
  · intro l1 h
    rw [replaceSubtreeList] at h
    exact Option.noConfusion h
  · intro k ks k1 hk ih l1 h
    simp only [replaceSubtreeList, hk, Option.some.injEq] at h
    subst h
    have := ih k1 hk
    simp only [getAllTabContentsList, List.length_append]
    omega
  · intro k ks hk ih1 ih2 l1 h
    simp only [replaceSubtreeList, hk, Option.map_eq_some'] at h
    obtain ⟨ks1, hks1, rfl⟩ := h
    have := ih2 ks1 hks1
    simp only [getAllTabContentsList, List.length_append]
    omega

/-- Filtering away a slot that occurs exactly once shortens the slot list
by exactly one. -/
theorem length_filter_ne_add_one_of_count_one (ti : TabInfo) :
    ∀ l : List TabInfo, List.count ti l = 1 →
      (l.filter (· ≠ ti)).length + 1 = l.length := by
  intro l
  induction l with
  | nil => intro h; simp at h
  | cons x xs ih =>
      intro h
      by_cases hx : x = ti
      · subst hx
        rw [List.count_cons_self] at h
        have h0 : List.count x xs = 0 := by omega
        have hkeep : xs.filter (· ≠ x) = xs := by
          rw [List.filter_eq_self]
          intro a ha
          simp only [ne_eq, decide_not, Bool.not_eq_eq_eq_not, Bool.not_true,
            decide_eq_false_iff_not]
          intro hax
          subst hax
          exact (List.count_eq_zero.mp h0) ha
        have hhead : (x :: xs).filter (· ≠ x) = xs.filter (· ≠ x) := by simp
        rw [hhead, hkeep]
        simp
      · have hti : ti ≠ x := fun hh => hx hh.symm
        rw [List.count_cons_of_ne hti] at h
        have hrec := ih h
        have hcons : ((x :: xs).filter (· ≠ ti)).length =
            (xs.filter (· ≠ ti)).length + 1 := by
          simp [hx]
        simp only [List.length_cons]
        omega

/-- **C7**: when `moveTabToTabWidget` succeeds (the tab and the target
group are found and the tree rewrites go through) and the moved slot
occurs exactly once in its source group — which models the uniqueness of
DOM element references — the total number of slots over all tab-groups of
the tree is unchanged: the source group loses the slot and the target
group gains it. -/
theorem claim_C7 (st st1 : State) (tab target : Nat) (i : Int)
    (sw : Nat) (sch : List TabInfo) (set1 sec : Option Nat) (tabInfo : TabInfo)
    (hsrc : findTabWidgetInfoByTab st.rootInfoNode tab =
      some (.tabwidget sw sch set1 sec, some tabInfo))
    (hcount : List.count tabInfo sch = 1)
    (hm : moveTabToTabWidget st tab target i = .ok st1) :
    (getAllTabContents st1.rootInfoNode).length =
      (getAllTabContents st.rootInfoNode).length := by
  rw [moveTabToTabWidget] at hm
  rw [hsrc] at hm
  cases h2 : findTabWidgetInfoByTabWidget st.rootInfoNode target with
  | none => rw [h2] at hm; exact Except.noConfusion hm
  | some tgtInfo =>
      rw [h2] at hm
      cases tgtInfo with
      | splitter o kids => exact Except.noConfusion hm
      | tabwidget tw2 tch tet tec =>
          simp only at hm
          have hcnt := length_filter_ne_add_one_of_count_one tabInfo sch hcount
          by_cases hsame :
              (InfoNode.tabwidget sw sch set1 sec) =
                InfoNode.tabwidget tw2 tch tet tec
          · rw [if_pos hsame] at hm
            split at hm
            next root1 hrep =>
                simp only [Except.ok.injEq] at hm
                subst hm
                show (getAllTabContents root1).length =
                  (getAllTabContents st.rootInfoNode).length
                have hlen := (contentsLen_replaceSubtree _ _).1
                  st.rootInfoNode root1 hrep
                have hsplit : jsSliceTo sch (min i (tch.length : Int)) ++
                    jsSliceFrom sch (min i (tch.length : Int)) = sch := by
                  simp [jsSliceTo, jsSliceFrom]
                have hfl : ((jsSliceTo sch (min i (tch.length : Int))).filter
                      (· ≠ tabInfo)).length +
                    ((jsSliceFrom sch (min i (tch.length : Int))).filter
                      (· ≠ tabInfo)).length =
                    (sch.filter (· ≠ tabInfo)).length := by
                  rw [← List.length_append, ← List.filter_append, hsplit]
                simp only [getAllTabContents, List.length_map, List.length_append,
                  List.length_cons] at hlen
                omega
            next hrep => exact Except.noConfusion hm
          · rw [if_neg hsame] at hm
            split at hm
            next hrep => exact Except.noConfusion hm
            next root1 hrep =>
                split at hm
                next root2 hrep2 =>
                    simp only [Except.ok.injEq] at hm
                    subst hm
                    show (getAllTabContents root2).length =
                      (getAllTabContents st.rootInfoNode).length
                    have hlen1 := (contentsLen_replaceSubtree _ _).1
                      st.rootInfoNode root1 hrep
                    have hlen2 := (contentsLen_replaceSubtree _ _).1
                      root1 root2 hrep2
                    have hsplit : jsSliceTo tch (min i (tch.length : Int)) ++
                        jsSliceFrom tch (min i (tch.length : Int)) = tch := by
                      simp [jsSliceTo, jsSliceFrom]
                    have hlensplit : (jsSliceTo tch (min i (tch.length : Int))).length +
                        (jsSliceFrom tch (min i (tch.length : Int))).length =
                        tch.length := by
                      rw [← List.length_append, hsplit]
                    simp only [getAllTabContents, List.length_map, List.length_append,
                      List.length_cons] at hlen1 hlen2
                    omega
                next hrep2 => exact Except.noConfusion hm

/-- **C7** witness: moving the only slot of group `1` into the two-slot
group `2` keeps the total slot count at three. -/
theorem claim_C7_witness :
    findTabWidgetInfoByTab
        (InfoNode.splitter .horizontal
          [.tabwidget 1 [⟨10, 100⟩] none none,
           .tabwidget 2 [⟨20, 200⟩, ⟨21, 201⟩] none none]) 10 =
      some (.tabwidget 1 [⟨10, 100⟩] none none, some ⟨10, 100⟩) ∧
    List.count (⟨10, 100⟩ : TabInfo) [⟨10, 100⟩] = 1 ∧
    moveTabToTabWidget
        ⟨.splitter .horizontal
          [.tabwidget 1 [⟨10, 100⟩] none none,
           .tabwidget 2 [⟨20, 200⟩, ⟨21, 201⟩] none none], 2, 2⟩
        10 2 3 =
      .ok ⟨.splitter .horizontal
          [.tabwidget 1 [] none none,
           .tabwidget 2 [⟨20, 200⟩, ⟨21, 201⟩, ⟨10, 100⟩] none none], 2, 2⟩ ∧
    (getAllTabContents
        (InfoNode.splitter .horizontal
          [.tabwidget 1 [] none none,
           .tabwidget 2 [⟨20, 200⟩, ⟨21, 201⟩, ⟨10, 100⟩] none none])).length =
      (getAllTabContents
        (InfoNode.splitter .horizontal
          [.tabwidget 1 [⟨10, 100⟩] none none,
           .tabwidget 2 [⟨20, 200⟩, ⟨21, 201⟩] none none])).length := by
  have hsrc : findTabWidgetInfoByTab
      (InfoNode.splitter .horizontal
        [.tabwidget 1 [⟨10, 100⟩] none none,
         .tabwidget 2 [⟨20, 200⟩, ⟨21, 201⟩] none none]) 10 =
      some (.tabwidget 1 [⟨10, 100⟩] none none, some ⟨10, 100⟩) := by
    simp [findTabWidgetInfoByTab, findTabWidgetInfoByTabList]
  have hcount : List.count (⟨10, 100⟩ : TabInfo) [⟨10, 100⟩] = 1 := by simp
  have hmove : moveTabToTabWidget
      ⟨.splitter .horizontal
        [.tabwidget 1 [⟨10, 100⟩] none none,
         .tabwidget 2 [⟨20, 200⟩, ⟨21, 201⟩] none none], 2, 2⟩
      10 2 3 =
      .ok ⟨.splitter .horizontal
        [.tabwidget 1 [] none none,
         .tabwidget 2 [⟨20, 200⟩, ⟨21, 201⟩, ⟨10, 100⟩] none none], 2, 2⟩ := by
    simp [moveTabToTabWidget, findTabWidgetInfoByTab, findTabWidgetInfoByTabList,
      findTabWidgetInfoByTabWidget, findTabWidgetInfoByTabWidgetList,
      jsSliceTo, jsSliceFrom, jsSliceIdx, replaceSubtree, replaceSubtreeList]
  exact ⟨hsrc, hcount, hmove,
    claim_C7 _ _ 10 2 3 1 [⟨10, 100⟩] none none ⟨10, 100⟩ hsrc hcount hmove⟩

/-! ### Slot-content bookkeeping of the mutation operations -/

theorem getAllTabContentsList_append (a b : List InfoNode) :
    getAllTabContentsList (a ++ b) =
      getAllTabContentsList a ++ getAllTabContentsList b := by
  induction a with
  | nil => simp [getAllTabContentsList]
  | cons k ks ih => simp [getAllTabContentsList, ih]

/-- `appendTab`'s rewrite adds exactly one slot with the given content. -/
theorem contents_appendTabNode (tw t c : Nat) :
    (∀ n n1, appendTabNode tw t c n = some n1 →
        (getAllTabContents n1).Perm (c :: getAllTabContents n)) ∧
    (∀ l l1, appendTabNodeList tw t c l = some l1 →
        (getAllTabContentsList l1).Perm (c :: getAllTabContentsList l)) := by
  refine appendTabNode.mutual_induct tw t c
    (fun n => ∀ n1, appendTabNode tw t c n = some n1 →
        (getAllTabContents n1).Perm (c :: getAllTabContents n))
    (fun l => ∀ l1, appendTabNodeList tw t c l = some l1 →
        (getAllTabContentsList l1).Perm (c :: getAllTabContentsList l))
    ?_ ?_ ?_ ?_ ?_ ?_
  · intro ch et ec n1 h
    rw [appendTabNode.eq_def] at h
    simp at h
    subst h
    simp [getAllTabContents]
  · intro w ch et ec hne n1 h
    rw [appendTabNode.eq_def] at h
    simp [hne] at h
  · intro o kids ih n1 h
    rw [appendTabNode.eq_def] at h
    simp only [Option.map_eq_some'] at h
    obtain ⟨l1, hl1, rfl⟩ := h
    simp only [getAllTabContents]
    exact ih l1 hl1
  · intro l1 h
    rw [appendTabNodeList] at h
    exact Option.noConfusion h
  · intro k ks k1 hk ih l1 h
    simp only [appendTabNodeList, hk, Option.some.injEq] at h
    subst h
    simp only [getAllTabContentsList]
    exact (ih k1 hk).append_right (getAllTabContentsList ks)
  · intro k ks hk ih1 ih2 l1 h
    simp only [appendTabNodeList, hk, Option.map_eq_some'] at h
    obtain ⟨ks1, hks1, rfl⟩ := h
    simp only [getAllTabContentsList]
    exact ((ih2 ks1 hks1).append_left (getAllTabContents k)).trans
      List.perm_middle

/-- `removeTabContent`'s rewrite only drops slots. -/
theorem contents_removeTabContentNode (c : Nat) :
    (∀ n n1, removeTabContentNode c n = some n1 →
        (getAllTabContents n1).Sublist (getAllTabContents n)) ∧
    (∀ l l1, removeTabContentNodeList c l = some l1 →
        (getAllTabContentsList l1).Sublist (getAllTabContentsList l)) := by
  refine removeTabContentNode.mutual_induct c
    (fun n => ∀ n1, removeTabContentNode c n = some n1 →
        (getAllTabContents n1).Sublist (getAllTabContents n))
    (fun l => ∀ l1, removeTabContentNodeList c l = some l1 →
        (getAllTabContentsList l1).Sublist (getAllTabContentsList l))
    ?_ ?_ ?_ ?_ ?_ ?_ ?_
  · intro w ch et n1 h
    rw [removeTabContentNode.eq_def] at h
    simp at h
    subst h
    exact List.Sublist.refl _
  · intro w ch et ec hec ti hti n1 h
    rw [removeTabContentNode.eq_def] at h
    simp only [if_neg hec, hti, Option.some.injEq] at h
    subst h
    simp only [getAllTabContents]
    exact List.Sublist.map _ (List.filter_sublist ch)
  · intro w ch et ec hec hti n1 h
    rw [removeTabContentNode.eq_def] at h
    simp [hec, hti] at h
  · intro o kids ih n1 h
    rw [removeTabContentNode.eq_def] at h
    simp only [Option.map_eq_some'] at h
    obtain ⟨l1, hl1, rfl⟩ := h
    simp only [getAllTabContents]
    exact ih l1 hl1
  · intro l1 h
    rw [removeTabContentNodeList] at h
    exact Option.noConfusion h
  · intro k ks k1 hk ih l1 h
    simp only [removeTabContentNodeList, hk, Option.some.injEq] at h
    subst h
    simp only [getAllTabContentsList]
    exact (ih k1 hk).append (List.Sublist.refl _)
  · intro k ks hk ih1 ih2 l1 h
    simp only [removeTabContentNodeList, hk, Option.map_eq_some'] at h
    obtain ⟨ks1, hks1, rfl⟩ := h
    simp only [getAllTabContentsList]
    exact (List.Sublist.refl _).append (ih2 ks1 hks1)

/-- Materialising an empty-state placeholder creates no slot. -/
theorem contents_materializeEmptyNode (tw tid cid : Nat) :
    (∀ n, getAllTabContents (materializeEmptyNode tw tid cid n) =
        getAllTabContents n) ∧
    (∀ l, getAllTabContentsList (materializeEmptyList tw tid cid l) =
        getAllTabContentsList l) := by
  refine materializeEmptyNode.mutual_induct tw tid cid
    (fun n => getAllTabContents (materializeEmptyNode tw tid cid n) =
        getAllTabContents n)
    (fun l => getAllTabContentsList (materializeEmptyList tw tid cid l) =
        getAllTabContentsList l) ?_ ?_ ?_ ?_ ?_
  · intro w ch et ec hcond
    rw [materializeEmptyNode]
    split <;> simp [getAllTabContents]
  · intro w ch et ec hcond
    rw [materializeEmptyNode]
    split <;> simp [getAllTabContents]
  · intro o kids ih
    rw [materializeEmptyNode]
    simp only [getAllTabContents]
    exact ih
  · show getAllTabContentsList (materializeEmptyList tw tid cid []) =
      getAllTabContentsList []
    rw [materializeEmptyList]
  · intro k ks ih1 ih2
    rw [materializeEmptyList]
    simp only [getAllTabContentsList]
    rw [ih1, ih2]

/-- The splitter-collapsing pass reparents subtrees but moves no slot. -/
theorem contents_collapse :
    (∀ n : InfoNode, getAllTabContents (collapseChild n) = getAllTabContents n) ∧
    (∀ l : List InfoNode,
        getAllTabContentsList (collapseChildren l) = getAllTabContentsList l) ∧
    (∀ n : InfoNode, getAllTabContents (collapsePromoted n) = getAllTabContents n) := by
  refine collapseChild.mutual_induct
    (fun n => getAllTabContents (collapseChild n) = getAllTabContents n)
    (fun l => getAllTabContentsList (collapseChildren l) = getAllTabContentsList l)
    (fun n => getAllTabContents (collapsePromoted n) = getAllTabContents n)
    ?_ ?_ ?_ ?_ ?_ ?_ ?_ ?_
  · intro w ch et ec
    rw [collapseChild]
  · intro o c ih
    rw [collapseChild]
    rw [ih]
    simp [getAllTabContents, getAllTabContentsList]
  · intro o
    rw [collapseChild]
  · intro o c1 c2 cs ih
    rw [collapseChild]
    simp only [getAllTabContents]
    exact ih
  · show getAllTabContentsList (collapseChildren []) = getAllTabContentsList []
    rw [collapseChildren]
  · intro k ks ih1 ih2
    rw [collapseChildren_cons]
    simp only [getAllTabContentsList]
    rw [ih1, ih2]
  · intro w ch et ec
    rw [collapsePromoted]
  · intro o kids ih
    rw [collapsePromoted]
    simp only [getAllTabContents]
    exact ih

/-- `_removeRedundantSplitters` moves no slot. -/
theorem contents_removeRedundantSplitters (n : InfoNode) :
    getAllTabContents (removeRedundantSplitters n) = getAllTabContents n := by
  cases n with
  | tabwidget w ch et ec => rw [removeRedundantSplitters]
  | splitter o kids =>
      cases kids with
      | nil => rw [removeRedundantSplitters]
      | cons c cs =>
          cases cs with
          | nil =>
              rw [removeRedundantSplitters]
              simp [getAllTabContents, getAllTabContentsList]
          | cons c2 cs2 =>
              rw [removeRedundantSplitters]
              simp only [getAllTabContents]
              exact contents_collapse.2.1 _

/-- Absorbing extra slots into the leftmost group of a subtree appends
their contents (up to position). -/
theorem contents_appendToFirstTabWidget (extra : List TabInfo) :
    (∀ n n1, appendToFirstTabWidget extra n = some n1 →
        (getAllTabContents n1).Perm
          (getAllTabContents n ++ extra.map (·.content))) ∧
    (∀ l l1, appendToFirstTabWidgetList extra l = some l1 →
        (getAllTabContentsList l1).Perm
          (getAllTabContentsList l ++ extra.map (·.content))) := by
  refine appendToFirstTabWidget.mutual_induct extra
    (fun n => ∀ n1, appendToFirstTabWidget extra n = some n1 →
        (getAllTabContents n1).Perm
          (getAllTabContents n ++ extra.map (·.content)))
    (fun l => ∀ l1, appendToFirstTabWidgetList extra l = some l1 →
        (getAllTabContentsList l1).Perm
          (getAllTabContentsList l ++ extra.map (·.content)))
    ?_ ?_ ?_ ?_ ?_
  · intro w ch et ec n1 h
    rw [appendToFirstTabWidget] at h
    simp only [Option.some.injEq] at h
    subst h
    simp [getAllTabContents]
  · intro o kids ih n1 h
    rw [appendToFirstTabWidget] at h
    simp only [Option.map_eq_some'] at h
    obtain ⟨l1, hl1, rfl⟩ := h
    simp only [getAllTabContents]
    exact ih l1 hl1
  · intro l1 h
    rw [appendToFirstTabWidgetList] at h
    exact Option.noConfusion h
  · intro k ks k1 hk ih l1 h
    simp only [appendToFirstTabWidgetList, hk, Option.some.injEq] at h
    subst h
    simp only [getAllTabContentsList]
    refine ((ih k1 hk).append_right (getAllTabContentsList ks)).trans ?_
    rw [List.append_assoc, List.append_assoc]
    exact List.Perm.append_left _ List.perm_append_comm
  · intro k ks hk ih1 ih2 l1 h
    simp only [appendToFirstTabWidgetList, hk, Option.map_eq_some'] at h
    obtain ⟨ks1, hks1, rfl⟩ := h
    simp only [getAllTabContentsList]
    refine ((ih2 ks1 hks1).append_left (getAllTabContents k)).trans ?_
    rw [List.append_assoc]

theorem mergeAtIndexPair_cons_succ (k : InfoNode) (ks : List InfoNode) (n : Nat) :
    mergeAtIndexPair (k :: ks) (n + 1) =
      match mergeAtIndexPair ks n with
      | .ok l => .ok (k :: l)
      | .error e => .error e := by
  rw [mergeAtIndexPair, mergeAtIndexPair]
  simp only [List.getElem?_cons_succ]
  cases h1 : ks[n]? with
  | none => rfl
  | some x =>
      cases h2 : ks[n + 1]? with
      | none => cases x <;> rfl
      | some y =>
          cases x with
          | tabwidget lw lch le1 le2 =>
              cases y with
              | tabwidget rw2 rch rr1 rr2 => rfl
              | splitter ro rkids =>
                  dsimp only
                  cases h3 : appendToFirstTabWidget lch (.splitter ro rkids) <;> rfl
          | splitter lo lkids =>
              cases y with
              | tabwidget rw2 rch rr1 rr2 =>
                  dsimp only
                  cases h3 : appendToFirstTabWidget rch (.splitter lo lkids) <;> rfl
              | splitter ro rkids => rfl

/-- The merge of a close keeps every slot of the parent's child list. -/
theorem contents_mergeAtIndexPair :
    ∀ (index : Nat) (kids kids1 : List InfoNode),
      mergeAtIndexPair kids index = .ok kids1 →
      (getAllTabContentsList kids1).Perm (getAllTabContentsList kids) := by
  intro index
  induction index with
  | zero =>
      intro kids kids1 h
      cases kids with
      | nil => rw [mergeAtIndexPair] at h; exact Except.noConfusion h
      | cons x rest =>
          cases rest with
          | nil =>
              rw [mergeAtIndexPair] at h
              cases x <;> simp at h
          | cons y rest2 =>
              rw [mergeAtIndexPair] at h
              cases x with
              | tabwidget lw lch le1 le2 =>
                  cases y with
                  | tabwidget rw2 rch rr1 rr2 =>
                      simp at h
                      subst h
                      simp [getAllTabContentsList, getAllTabContents,
                        List.map_append, List.append_assoc]
                  | splitter ro rkids =>
                      cases h3 : appendToFirstTabWidget lch (.splitter ro rkids) with
                      | none => simp [h3] at h
                      | some right1 =>
                          simp [h3] at h
                          subst h
                          simp only [getAllTabContentsList]
                          refine (((contents_appendToFirstTabWidget lch).1 _ _
                            h3).append_right (getAllTabContentsList rest2)).trans ?_
                          refine (List.perm_append_comm.append_right
                            (getAllTabContentsList rest2)).trans ?_
                          simp [getAllTabContents, List.append_assoc]
              | splitter lo lkids =>
                  cases y with
                  | tabwidget rw2 rch rr1 rr2 =>
                      cases h3 : appendToFirstTabWidget rch (.splitter lo lkids) with
                      | none => simp [h3] at h
                      | some left1 =>
                          simp [h3] at h
                          subst h
                          simp only [getAllTabContentsList]
                          refine (((contents_appendToFirstTabWidget rch).1 _ _
                            h3).append_right (getAllTabContentsList rest2)).trans ?_
                          simp [getAllTabContents, List.append_assoc]
                  | splitter ro rkids =>
                      simp at h
                      subst h
                      exact List.Perm.refl _
  | succ n ih =>
      intro kids kids1 h
      cases kids with
      | nil => rw [mergeAtIndexPair] at h; exact Except.noConfusion h
      | cons k ks =>
          rw [mergeAtIndexPair_cons_succ] at h
          cases hrec : mergeAtIndexPair ks n with
          | error e => rw [hrec] at h; exact Except.noConfusion h
          | ok l1 =>
              rw [hrec] at h
              simp at h
              subst h
              simp only [getAllTabContentsList]
              exact (ih ks l1 hrec).append_left (getAllTabContents k)

/-- The merge performed by a close keeps every slot of the tree (possibly
re-homed into the merge partner). -/
theorem contents_closeMergeScan (c : Nat) :
    ∀ (pre rest : List InfoNode), ∀ out,
      closeMergeScan c pre rest = some (.ok out) →
      (getAllTabContentsList out).Perm
        (getAllTabContentsList (pre.reverse ++ rest)) := by
  refine closeMergeScan.induct c
    (fun pre rest => ∀ out, closeMergeScan c pre rest = some (.ok out) →
      (getAllTabContentsList out).Perm
        (getAllTabContentsList (pre.reverse ++ rest))) ?_ ?_ ?_ ?_ ?_ ?_
  · intro pre out h
    rw [closeMergeScan] at h
    exact Option.noConfusion h
  · intro pre ks w ch et ec hcont out h
    rw [closeMergeScan.eq_def] at h
    simp only [hcont, if_true, Option.some.injEq] at h
    rw [mergeAtTabWidget] at h
    by_cases hlen : (pre.reverse ++ InfoNode.tabwidget w ch et ec :: ks).length ≤ 1
    · rw [if_pos hlen] at h
      exact Except.noConfusion h
    · rw [if_neg hlen] at h
      exact contents_mergeAtIndexPair _ _ _ h
  · intro pre ks o2 kids2 kids1 hsub hcont ih out h
    rw [closeMergeScan.eq_def] at h
    simp only [hcont, if_true, hsub, Option.some.injEq] at h
    injection h with h
    subst h
    have hrec : (getAllTabContentsList kids1).Perm (getAllTabContentsList kids2) := by
      simpa using ih kids1 hsub
    rw [getAllTabContentsList_append, getAllTabContentsList_append]
    simp only [getAllTabContentsList, getAllTabContents]
    exact List.Perm.append_left _ (hrec.append_right _)
  · intro pre ks o2 kids2 e hsub hcont ih out h
    rw [closeMergeScan.eq_def] at h
    simp only [hcont, if_true, hsub, Option.some.injEq] at h
    exact Except.noConfusion h
  · intro pre ks o2 kids2 hsub hcont ih out h
    rw [closeMergeScan.eq_def] at h
    simp only [hcont, if_true, hsub] at h
    exact Option.noConfusion h
  · intro pre k ks hcont ih out h
    rw [closeMergeScan.eq_def] at h
    simp only [hcont, if_false] at h
    have := ih out h
    simpa [List.reverse_cons, List.append_assoc] using this

/-- A successful `closeSplitAtTabContent` keeps every slot of the tree. -/
theorem contents_closeSplitAtTabContent_state (st : State) (c : Nat) :
    ∀ st1, closeSplitAtTabContent st c = .ok st1 →
      (getAllTabContents st1.rootInfoNode).Perm
        (getAllTabContents st.rootInfoNode) := by
  intro st1 h
  rw [closeSplitAtTabContent] at h
  cases hroot : st.rootInfoNode with
  | tabwidget w ch et ec =>
      rw [hroot] at h
      by_cases hec : ec = some c
      · simp [hec] at h
        subst h
        rw [hroot]
      · by_cases hany : ch.any (·.content = c) = true
        · simp [hec, hany] at h
        · simp [hec, hany] at h
          subst h
          rw [hroot]
  | splitter o kids =>
      rw [hroot] at h
      cases hscan : closeMergeScan c [] kids with
      | none =>
          simp [hscan] at h
          subst h
          rw [hroot]
      | some r =>
          cases r with
          | error e => simp [hscan] at h
          | ok kids1 =>
              simp [hscan] at h
              subst h
              show (getAllTabContents
                (removeRedundantSplitters (.splitter o kids1))).Perm _
              rw [contents_removeRedundantSplitters]
              have := contents_closeMergeScan c [] kids kids1 hscan
              simp only [List.reverse_nil, List.nil_append] at this
              simpa [getAllTabContents] using this

/-- Splitting after a group inserts an empty group and moves no slot. -/
theorem contents_splitAfterTWKids (tw : Nat) (o : SplitOrientation) :
    ∀ (parentO : SplitOrientation) (newTW : InfoNode) (l : List InfoNode),
      ∀ l1, splitAfterTWKids tw o parentO newTW l = some l1 →
      getAllTabContents newTW = [] →
      getAllTabContentsList l1 = getAllTabContentsList l := by
  refine splitAfterTWKids.induct tw o
    (fun parentO newTW l => ∀ l1, splitAfterTWKids tw o parentO newTW l = some l1 →
      getAllTabContents newTW = [] →
      getAllTabContentsList l1 = getAllTabContentsList l) ?_ ?_ ?_ ?_ ?_ ?_
  · intro parentO newTW l1 h _
    rw [splitAfterTWKids] at h
    exact Option.noConfusion h
  · intro newTW ks ch et ec l1 h hnew
    rw [splitAfterTWKids.eq_def] at h
    simp at h
    subst h
    simp [getAllTabContentsList, getAllTabContents, hnew]
  · intro parentO newTW ks ch et ec hpo l1 h hnew
    rw [splitAfterTWKids.eq_def] at h
    simp [hpo] at h
    subst h
    simp [getAllTabContentsList, getAllTabContents, hnew]
  · intro parentO newTW ks w ch et ec hw ih l1 h hnew
    rw [splitAfterTWKids.eq_def] at h
    simp only [if_neg hw, Option.map_eq_some'] at h
    obtain ⟨ks1, hks1, rfl⟩ := h
    simp only [getAllTabContentsList]
    rw [ih ks1 hks1 hnew]
  · intro parentO newTW ks o2 kids2 kids3 hrec ih l1 h hnew
    rw [splitAfterTWKids.eq_def] at h
    simp only [hrec, Option.some.injEq] at h
    subst h
    simp only [getAllTabContentsList, getAllTabContents]
    rw [ih kids3 hrec hnew]
  · intro parentO newTW ks o2 kids2 hrec ih1 ih2 l1 h hnew
    rw [splitAfterTWKids.eq_def] at h
    simp only [hrec, Option.map_eq_some'] at h
    obtain ⟨ks1, hks1, rfl⟩ := h
    simp only [getAllTabContentsList]
    rw [ih2 ks1 hks1 hnew]

/-- `splitAfterTabWidget` keeps the slot-content list of the tree. -/
theorem contents_splitAfterTabWidget_state (st : State) (tw : Nat)
    (o : SplitOrientation) :
    getAllTabContents (splitAfterTabWidget st tw o).1.rootInfoNode =
      getAllTabContents st.rootInfoNode := by
  cases hroot : st.rootInfoNode with
  | tabwidget w ch et ec =>
      by_cases hw : w = tw
      · simp [splitAfterTabWidget, hroot, hw, getAllTabContents,
          getAllTabContentsList, createTabWidgetInfo]
      · simp [splitAfterTabWidget, hroot, hw]
  | splitter ro kids =>
      cases hk : splitAfterTWKids tw o ro (createTabWidgetInfo st.tabWidgetIdCounter []) kids with
      | none => simp [splitAfterTabWidget, hroot, hk]
      | some kids1 =>
          simp only [splitAfterTabWidget, hroot, hk]
          simp only [getAllTabContents]
          exact contents_splitAfterTWKids tw o ro _ kids kids1 hk
            (by simp [createTabWidgetInfo, getAllTabContents])

/-- Splitting a group at a slot partitions its slot list and moves no slot. -/
theorem contents_splitAfterContentKids (c : Nat) (o : SplitOrientation) :
    ∀ (parentO : SplitOrientation) (counter : Nat) (l : List InfoNode),
      ∀ l1, splitAfterContentKids c o parentO counter l = some l1 →
      getAllTabContentsList l1 = getAllTabContentsList l := by
  refine splitAfterContentKids.induct c o
    (fun parentO counter l => ∀ l1, splitAfterContentKids c o parentO counter l = some l1 →
      getAllTabContentsList l1 = getAllTabContentsList l) ?_ ?_ ?_ ?_ ?_ ?_
  · intro parentO counter l1 h
    rw [splitAfterContentKids] at h
    exact Option.noConfusion h
  · intro counter ks w ch et ec hany l1 h
    rw [splitAfterContentKids.eq_def] at h
    simp [hany] at h
    subst h
    simp [getAllTabContentsList, getAllTabContents, splitTabWidgetAtTabContent,
      createTabWidgetInfo]
    rw [← List.append_assoc, List.take_append_drop]
  · intro parentO counter ks w ch et ec hany hpo l1 h
    rw [splitAfterContentKids.eq_def] at h
    simp [hany, hpo] at h
    subst h
    simp [getAllTabContentsList, getAllTabContents, splitTabWidgetAtTabContent,
      createTabWidgetInfo]
  · intro parentO counter ks w ch et ec hany ih l1 h
    rw [splitAfterContentKids.eq_def] at h
    simp only [hany, Bool.false_eq_true, if_false, Option.map_eq_some'] at h
    obtain ⟨ks1, hks1, rfl⟩ := h
    simp only [getAllTabContentsList]
    rw [ih ks1 hks1]
  · intro parentO counter ks o2 kids2 kids3 hrec ih l1 h
    rw [splitAfterContentKids.eq_def] at h
    simp only [hrec, Option.some.injEq] at h
    subst h
    simp only [getAllTabContentsList, getAllTabContents]
    rw [ih kids3 hrec]
  · intro parentO counter ks o2 kids2 hrec ih1 ih2 l1 h
    rw [splitAfterContentKids.eq_def] at h
    simp only [hrec, Option.map_eq_some'] at h
    obtain ⟨ks1, hks1, rfl⟩ := h
    simp only [getAllTabContentsList]
    rw [ih2 ks1 hks1]

/-- `splitAfterTabContent` keeps the slot-content list of the tree. -/
theorem contents_splitAfterTabContent_state (st : State) (c : Nat)
    (o : SplitOrientation) :
    getAllTabContents (splitAfterTabContent st c o).1.rootInfoNode =
      getAllTabContents st.rootInfoNode := by
  rw [splitAfterTabContent]
  cases hf : findTabWidgetInfoByTabContent st.rootInfoNode c with
  | none => rfl
  | some res =>
      obtain ⟨owner, slot⟩ := res
      cases owner with
      | splitter o2 kids => rfl
      | tabwidget w ch et ec =>
          cases slot with
          | none =>
              simp only
              exact contents_splitAfterTabWidget_state st w o
          | some ti =>
              cases hroot : st.rootInfoNode with
              | tabwidget rw2 rch ret rec2 =>
                  simp [getAllTabContents, getAllTabContentsList,
                    splitTabWidgetAtTabContent, createTabWidgetInfo]
              | splitter ro kids =>
                  cases hk : splitAfterContentKids c o ro st.tabWidgetIdCounter kids with
                  | none => simp [hroot, hk]
                  | some kids1 =>
                      simp only [hroot, hk]
                      simp only [getAllTabContents]
                      exact contents_splitAfterContentKids c o ro _ kids kids1 hk

/-- Replacing a subtree splices its slot contribution in place. -/
theorem contents_replaceSubtree_decomp (old new1 : InfoNode) :
    (∀ n n1, replaceSubtree old new1 n = some n1 →
      ∃ p s : List Nat,
        getAllTabContents n = p ++ getAllTabContents old ++ s ∧
        getAllTabContents n1 = p ++ getAllTabContents new1 ++ s) ∧
    (∀ l l1, replaceSubtreeList old new1 l = some l1 →
      ∃ p s : List Nat,
        getAllTabContentsList l = p ++ getAllTabContents old ++ s ∧
        getAllTabContentsList l1 = p ++ getAllTabContents new1 ++ s) := by
  refine replaceSubtree.mutual_induct old new1
    (fun n => ∀ n1, replaceSubtree old new1 n = some n1 →
      ∃ p s : List Nat,
        getAllTabContents n = p ++ getAllTabContents old ++ s ∧
        getAllTabContents n1 = p ++ getAllTabContents new1 ++ s)
    (fun l => ∀ l1, replaceSubtreeList old new1 l = some l1 →
      ∃ p s : List Nat,
        getAllTabContentsList l = p ++ getAllTabContents old ++ s ∧
        getAllTabContentsList l1 = p ++ getAllTabContents new1 ++ s)
    ?_ ?_ ?_ ?_ ?_ ?_
  · intro n1 h
    rw [replaceSubtree.eq_def] at h
    simp at h
    subst h
    exact ⟨[], [], by simp, by simp⟩
  · intro w ch et ec hne n1 h
    rw [replaceSubtree.eq_def] at h
    simp [hne] at h
  · intro o kids hne ih n1 h
    rw [replaceSubtree.eq_def] at h
    simp only [if_neg hne, Option.map_eq_some'] at h
    obtain ⟨l1, hl1, rfl⟩ := h
    obtain ⟨p, s, h1, h2⟩ := ih l1 hl1
    exact ⟨p, s, by simpa [getAllTabContents] using h1,
      by simpa [getAllTabContents] using h2⟩
  · intro l1 h
    rw [replaceSubtreeList] at h
    exact Option.noConfusion h
  · intro k ks k1 hk ih l1 h
    simp only [replaceSubtreeList, hk, Option.some.injEq] at h
    subst h
    obtain ⟨p, s, h1, h2⟩ := ih k1 hk
    refine ⟨p, s ++ getAllTabContentsList ks, ?_, ?_⟩
    · simp only [getAllTabContentsList, h1, List.append_assoc]
    · simp only [getAllTabContentsList, h2, List.append_assoc]
  · intro k ks hk ih1 ih2 l1 h
    simp only [replaceSubtreeList, hk, Option.map_eq_some'] at h
    obtain ⟨ks1, hks1, rfl⟩ := h
    obtain ⟨p, s, h1, h2⟩ := ih2 ks1 hks1
    refine ⟨getAllTabContents k ++ p, s, ?_, ?_⟩
    · simp only [getAllTabContentsList, h1, List.append_assoc]
    · simp only [getAllTabContentsList, h2, List.append_assoc]

/-- The same-group reorder of `moveTabToTabWidget` permutes the slot list. -/
theorem filtered_splice_perm (sch : List TabInfo) (tabInfo : TabInfo) (m : Int)
    (hcount : List.count tabInfo sch = 1) :
    ((jsSliceTo sch m).filter (· ≠ tabInfo) ++
      tabInfo :: (jsSliceFrom sch m).filter (· ≠ tabInfo)).Perm sch := by
  refine List.perm_middle.trans ?_
  rw [← List.filter_append]
  have hft : jsSliceTo sch m ++ jsSliceFrom sch m = sch := by
    simp [jsSliceTo, jsSliceFrom]
  rw [hft]
  refine List.perm_iff_count.mpr ?_
  intro b
  by_cases hb : b = tabInfo
  · subst hb
    have h0 : List.count b (sch.filter (· ≠ b)) = 0 := by
      refine List.count_eq_zero.mpr ?_
      intro hmem
      rw [List.mem_filter] at hmem
      simp at hmem
    rw [List.count_cons_self, h0, hcount]
  · rw [List.count_cons_of_ne hb]
    rw [List.count_filter]
    simp [hb]

/-- Filtering away a unique slot removes exactly one copy of its content. -/
theorem count_content_filter_ne (ti : TabInfo) :
    ∀ l : List TabInfo, List.count ti l = 1 →
      List.count ti.content ((l.filter (· ≠ ti)).map (·.content)) + 1 =
        List.count ti.content (l.map (·.content)) := by
  intro l
  induction l with
  | nil => intro h; simp at h
  | cons x xs ih =>
      intro h
      by_cases hx : x = ti
      · subst hx
        rw [List.count_cons_self] at h
        have h0 : List.count x xs = 0 := by omega
        have hkeep : xs.filter (· ≠ x) = xs := by
          rw [List.filter_eq_self]
          intro a ha
          simp only [ne_eq, decide_not, Bool.not_eq_eq_eq_not, Bool.not_true,
            decide_eq_false_iff_not]
          intro hax
          subst hax
          exact (List.count_eq_zero.mp h0) ha
        have hhead : ((x :: xs).filter (· ≠ x)) = xs.filter (· ≠ x) := by simp
        rw [hhead, hkeep]
        simp [List.count_cons_self]
      · have hti : ti ≠ x := fun hh => hx hh.symm
        rw [List.count_cons_of_ne hti] at h
        have hrec := ih h
        have hfil : ((x :: xs).filter (· ≠ ti)) = x :: xs.filter (· ≠ ti) := by
          simp [hx]
        rw [hfil]
        simp only [List.map_cons, List.count_cons]
        split <;> omega

/-- A successful move keeps slot contents unduplicated when the moved slot
occurs once in its source group. -/
theorem nodup_moveTabToTabWidget_state (st st1 : State) (tab target : Nat)
    (i : Int) (sw : Nat) (sch : List TabInfo) (set1 sec : Option Nat)
    (tabInfo : TabInfo)
    (hsrc : findTabWidgetInfoByTab st.rootInfoNode tab =
      some (.tabwidget sw sch set1 sec, some tabInfo))
    (hcount : List.count tabInfo sch = 1)
    (hm : moveTabToTabWidget st tab target i = .ok st1)
    (hnd : (getAllTabContents st.rootInfoNode).Nodup) :
    (getAllTabContents st1.rootInfoNode).Nodup := by
  rw [moveTabToTabWidget] at hm
  rw [hsrc] at hm
  cases h2 : findTabWidgetInfoByTabWidget st.rootInfoNode target with
  | none => rw [h2] at hm; exact Except.noConfusion hm
  | some tgtInfo =>
      rw [h2] at hm
      cases tgtInfo with
      | splitter o kids => exact Except.noConfusion hm
      | tabwidget tw2 tch tet tec =>
          simp only at hm
          by_cases hsame :
              (InfoNode.tabwidget sw sch set1 sec) =
                InfoNode.tabwidget tw2 tch tet tec
          · rw [if_pos hsame] at hm
            split at hm
            next root1 hrep =>
                simp only [Except.ok.injEq] at hm
                subst hm
                show (getAllTabContents root1).Nodup
                obtain ⟨p, s, hd1, hd2⟩ := (contents_replaceSubtree_decomp _ _).1
                  st.rootInfoNode root1 hrep
                simp only [getAllTabContents] at hd1 hd2
                have hperm :
                    ((((jsSliceTo sch (min i (tch.length : Int))).filter
                        (· ≠ tabInfo) ++
                      tabInfo :: (jsSliceFrom sch
                        (min i (tch.length : Int))).filter (· ≠ tabInfo)).map
                      (·.content)).Perm (sch.map (·.content))) :=
                  (filtered_splice_perm sch tabInfo _ hcount).map _
                rw [hd1] at hnd
                rw [hd2]
                exact (((hperm.append_left p).append_right s)).nodup_iff.mpr hnd
            next hrep => exact Except.noConfusion hm
          · rw [if_neg hsame] at hm
            split at hm
            next hrep => exact Except.noConfusion hm
            next root1 hrep =>
                split at hm
                next root2 hrep2 =>
                    simp only [Except.ok.injEq] at hm
                    subst hm
                    show (getAllTabContents root2).Nodup
                    obtain ⟨p1, s1, ha1, ha2⟩ := (contents_replaceSubtree_decomp _ _).1
                      st.rootInfoNode root1 hrep
                    obtain ⟨p2, s2, hb1, hb2⟩ := (contents_replaceSubtree_decomp _ _).1
                      root1 root2 hrep2
                    simp only [getAllTabContents] at ha1 ha2 hb1 hb2
                    have hnd1 : (getAllTabContents root1).Nodup := by
                      refine hnd.sublist ?_
                      rw [ha1, ha2]
                      refine List.Sublist.append ?_ (List.Sublist.refl s1)
                      refine List.Sublist.append (List.Sublist.refl p1) ?_
                      exact List.Sublist.map _ (List.filter_sublist sch)
                    have hmem : tabInfo ∈ sch := by
                      by_contra hmem
                      rw [List.count_eq_zero_of_not_mem hmem] at hcount
                      exact absurd hcount (by omega)
                    have hticmem : tabInfo.content ∈ sch.map (·.content) :=
                      List.mem_map_of_mem _ hmem
                    have hmap_pos :
                        1 ≤ List.count tabInfo.content (sch.map (·.content)) := by
                      by_contra hlt
                      have h0 : List.count tabInfo.content (sch.map (·.content)) = 0 := by
                        omega
                      exact absurd hticmem (List.count_eq_zero.mp h0)
                    have hcnt_root : List.count tabInfo.content
                        (getAllTabContents st.rootInfoNode) ≤ 1 :=
                      List.nodup_iff_count_le_one.mp hnd tabInfo.content
                    have hsplit_counts : List.count tabInfo.content p1 +
                        List.count tabInfo.content (sch.map (·.content)) +
                        List.count tabInfo.content s1 ≤ 1 := by
                      rw [ha1, List.count_append, List.count_append] at hcnt_root
                      omega
                    have hfilcnt := count_content_filter_ne tabInfo sch hcount
                    have hnotmem1 : tabInfo.content ∉ getAllTabContents root1 := by
                      have hcc : List.count tabInfo.content
                          (getAllTabContents root1) = 0 := by
                        rw [ha2, List.count_append, List.count_append]
                        omega
                      exact List.count_eq_zero.mp hcc
                    have hfront : (jsSliceTo tch (min i (tch.length : Int))).map
                          (·.content) ++
                        (jsSliceFrom tch (min i (tch.length : Int))).map (·.content) =
                        tch.map (·.content) := by
                      rw [← List.map_append]
                      congr 1
                      simp [jsSliceTo, jsSliceFrom]
                    have hpermIns : (((jsSliceTo tch (min i (tch.length : Int))) ++
                        tabInfo :: (jsSliceFrom tch (min i (tch.length : Int)))).map
                        (·.content)).Perm
                        (tabInfo.content :: tch.map (·.content)) := by
                      rw [List.map_append, List.map_cons]
                      refine List.perm_middle.trans ?_
                      rw [hfront]
                    have hperm2 : (getAllTabContents root2).Perm
                        (tabInfo.content :: getAllTabContents root1) := by
                      rw [hb2, hb1]
                      refine ((hpermIns.append_left p2).append_right s2).trans ?_
                      refine (List.perm_middle.append_right s2).trans ?_
                      exact List.Perm.refl _
                    have hcons : (tabInfo.content :: getAllTabContents root1).Nodup :=
                      List.nodup_cons.mpr ⟨hnotmem1, hnd1⟩
                    exact hperm2.nodup_iff.mpr hcons
                next hrep2 => exact Except.noConfusion hm

/-- **C9** (counterexample to the original claim): `appendTab` performs no
duplicate check on the caller-supplied content element (source line 169),
so appending the same content to the initial group twice makes the content
occupy two distinct slots of the tree. -/
theorem claim_C9_counterexample :
    getAllTabContents
        (appendTab (appendTab initialState 1 5 50) 1 6 50).rootInfoNode =
      [50, 50] ∧
    ¬ (getAllTabContents
        (appendTab (appendTab initialState 1 5 50) 1 6 50).rootInfoNode).Nodup := by
  have h : getAllTabContents
      (appendTab (appendTab initialState 1 5 50) 1 6 50).rootInfoNode =
      [50, 50] := by
    simp [appendTab, appendTabNode, initialState, getAllTabContents]
  refine ⟨h, ?_⟩
  rw [h]
  simp

/-- **C9** (amended): distinctness of slot contents across the whole tree
is an invariant of `removeTabContent`, `splitAfterTabWidget`,
`splitAfterTabContent`, `materializeEmpty`, `closeSplitAtTabContent` and
`moveTabToTabWidget` (the latter when the moved slot occurs once in its
source group, which models DOM reference uniqueness); `appendTab` preserves
it exactly when the appended content is not already in the tree, and
duplicates the content otherwise, as it performs no check. -/
theorem claim_C9 (st : State) (tw tab c target : Nat) (i : Int)
    (o : SplitOrientation)
    (hnd : (getAllTabContents st.rootInfoNode).Nodup) :
    (c ∉ getAllTabContents st.rootInfoNode →
      (getAllTabContents (appendTab st tw tab c).rootInfoNode).Nodup) ∧
    (getAllTabContents (removeTabContent st c).rootInfoNode).Nodup ∧
    (getAllTabContents (splitAfterTabWidget st tw o).1.rootInfoNode).Nodup ∧
    (getAllTabContents (splitAfterTabContent st c o).1.rootInfoNode).Nodup ∧
    (getAllTabContents (materializeEmpty st tw c).rootInfoNode).Nodup ∧
    (∀ st1 : State, closeSplitAtTabContent st c = .ok st1 →
      (getAllTabContents st1.rootInfoNode).Nodup) ∧
    (∀ (st1 : State) (sw : Nat) (sch : List TabInfo) (set1 sec : Option Nat)
        (tabInfo : TabInfo),
      findTabWidgetInfoByTab st.rootInfoNode tab =
        some (.tabwidget sw sch set1 sec, some tabInfo) →
      List.count tabInfo sch = 1 →
      moveTabToTabWidget st tab target i = .ok st1 →
      (getAllTabContents st1.rootInfoNode).Nodup) := by
  refine ⟨?_, ?_, ?_, ?_, ?_, ?_, ?_⟩
  · intro hfresh
    rw [appendTab]
    cases hr : appendTabNode tw tab c st.rootInfoNode with
    | none => exact hnd
    | some r1 =>
        simp only
        have hperm := (contents_appendTabNode tw tab c).1 _ r1 hr
        refine hperm.nodup_iff.mpr ?_
        exact List.nodup_cons.mpr ⟨hfresh, hnd⟩
  · rw [removeTabContent]
    cases hr : removeTabContentNode c st.rootInfoNode with
    | none => exact hnd
    | some r1 =>
        simp only
        exact hnd.sublist ((contents_removeTabContentNode c).1 _ r1 hr)
  · rw [contents_splitAfterTabWidget_state]
    exact hnd
  · rw [contents_splitAfterTabContent_state]
    exact hnd
  · rw [materializeEmpty]
    simp only
    rw [(contents_materializeEmptyNode tw (st.tabIdCounter + 1) c).1]
    exact hnd
  · intro st1 h
    exact (contents_closeSplitAtTabContent_state st c st1 h).nodup_iff.mpr hnd
  · intro st1 sw sch set1 sec tabInfo hsrc hcount hm
    exact nodup_moveTabToTabWidget_state st st1 tab target i sw sch set1 sec
      tabInfo hsrc hcount hm hnd

/-- **C9** witness: on a tree whose single group holds one slot with
content `50`, appending fresh content `60` and removing content `50` both
keep the slot contents distinct. -/
theorem claim_C9_witness :
    (getAllTabContents
      (InfoNode.tabwidget 1 [⟨5, 50⟩] none none)).Nodup ∧
    (60 : Nat) ∉
      getAllTabContents (InfoNode.tabwidget 1 [⟨5, 50⟩] none none) ∧
    (getAllTabContents
      (appendTab ⟨.tabwidget 1 [⟨5, 50⟩] none none, 1, 1⟩ 1 6 60).rootInfoNode).Nodup ∧
    (getAllTabContents
      (removeTabContent ⟨.tabwidget 1 [⟨5, 50⟩] none none, 1, 1⟩ 50).rootInfoNode).Nodup := by
  have hnd : (getAllTabContents
      (InfoNode.tabwidget 1 [⟨5, 50⟩] none none)).Nodup := by
    simp [getAllTabContents]
  have h60 : (60 : Nat) ∉
      getAllTabContents (InfoNode.tabwidget 1 [⟨5, 50⟩] none none) := by
    simp [getAllTabContents]
  exact ⟨hnd, h60,
    (claim_C9 ⟨.tabwidget 1 [⟨5, 50⟩] none none, 1, 1⟩ 1 6 60 2 0 .horizontal
      hnd).1 h60,
    (claim_C9 ⟨.tabwidget 1 [⟨5, 50⟩] none none, 1, 1⟩ 1 6 50 2 0 .horizontal
      hnd).2.1⟩

/-! ### Where splitAfterTabWidget inserts the new group -/

/-- At the target's parent child list — with the target the first
depth-first hit — the split inserts the new group right after the target
when the axes agree, and wraps the pair in a fresh splitter otherwise. -/
theorem splitAfterTWKids_at_target (tw : Nat) (o : SplitOrientation)
    (newTW : InfoNode) (ch : List TabInfo) (et ec : Option Nat) :
    ∀ (pre : List InfoNode), ∀ (post : List InfoNode),
      (∀ k ∈ pre, containsTabWidget tw k = false) →
      (splitAfterTWKids tw o o newTW
          (pre ++ .tabwidget tw ch et ec :: post) =
        some (pre ++ .tabwidget tw ch et ec :: newTW :: post)) ∧
      (∀ parentO, parentO ≠ o →
        splitAfterTWKids tw o parentO newTW
            (pre ++ .tabwidget tw ch et ec :: post) =
          some (pre ++ .splitter o [.tabwidget tw ch et ec, newTW] :: post)) := by
  intro pre
  induction pre with
  | nil =>
      intro post _
      constructor
      · rw [splitAfterTWKids.eq_def]
        simp
      · intro parentO hne
        rw [splitAfterTWKids.eq_def]
        simp [hne]
  | cons k pre ih =>
      intro post hpre
      have hk : containsTabWidget tw k = false := hpre k (by simp)
      have hpre2 : ∀ k2 ∈ pre, containsTabWidget tw k2 = false := by
        intro k2 hk2
        exact hpre k2 (by simp [hk2])
      obtain ⟨ih1, ih2⟩ := ih post hpre2
      cases k with
      | tabwidget w ch2 et2 ec2 =>
          have hw : ¬ w = tw := by
            intro hww
            rw [containsTabWidget, findTabWidgetInfoByTabWidget, if_pos hww] at hk
            simp at hk
          constructor
          · rw [List.cons_append, splitAfterTWKids.eq_def]
            simp only [if_neg hw]
            rw [ih1]
            rfl
          · intro parentO hne
            rw [List.cons_append, splitAfterTWKids.eq_def]
            simp only [if_neg hw]
            rw [ih2 parentO hne]
            rfl
      | splitter o2 kids2 =>
          have hfl : findTabWidgetInfoByTabWidgetList kids2 tw = none := by
            rw [containsTabWidget, findTabWidgetInfoByTabWidget] at hk
            cases hx : findTabWidgetInfoByTabWidgetList kids2 tw with
            | none => rfl
            | some r => rw [hx] at hk; simp at hk
          have hnone := splitAfterTWKids_none_of_find_none tw o o2 newTW kids2 hfl
          constructor
          · rw [List.cons_append, splitAfterTWKids.eq_def]
            simp only [hnone]
            rw [ih1]
            rfl
          · intro parentO hne
            rw [List.cons_append, splitAfterTWKids.eq_def]
            simp only [hnone]
            rw [ih2 parentO hne]
            rfl

/-- **C2**: the split inserts the new empty group as the sibling right
after the target when the parent splitter has the requested axis (no new
splitter node appears in the child list); with a differing axis the target
is replaced by a fresh splitter of that axis holding the target and the
new group; a root tab-group is wrapped the same way, the fresh splitter
becoming the root.  Two successive vertical splits of `G0` in a
single-group tree yield the root child order `[G0, G2, G1]`. -/
theorem claim_C2 :
    (∀ (tw : Nat) (o : SplitOrientation) (newTW : InfoNode)
        (ch : List TabInfo) (et ec : Option Nat) (pre post : List InfoNode),
      (∀ k ∈ pre, containsTabWidget tw k = false) →
      splitAfterTWKids tw o o newTW (pre ++ .tabwidget tw ch et ec :: post) =
        some (pre ++ .tabwidget tw ch et ec :: newTW :: post)) ∧
    (∀ (tw : Nat) (o parentO : SplitOrientation) (newTW : InfoNode)
        (ch : List TabInfo) (et ec : Option Nat) (pre post : List InfoNode),
      parentO ≠ o →
      (∀ k ∈ pre, containsTabWidget tw k = false) →
      splitAfterTWKids tw o parentO newTW
          (pre ++ .tabwidget tw ch et ec :: post) =
        some (pre ++ .splitter o [.tabwidget tw ch et ec, newTW] :: post)) ∧
    (∀ (st : State) (w : Nat) (ch : List TabInfo) (et ec : Option Nat)
        (o : SplitOrientation),
      st.rootInfoNode = .tabwidget w ch et ec →
      splitAfterTabWidget st w o =
        ({ st with
            rootInfoNode := .splitter o [.tabwidget w ch et ec,
              createTabWidgetInfo st.tabWidgetIdCounter []],
            tabWidgetIdCounter := st.tabWidgetIdCounter + 1 },
         some (st.tabWidgetIdCounter + 1))) ∧
    splitAfterTabWidget ⟨.tabwidget 0 [⟨1, 1⟩] none none, 0, 1⟩ 0 .vertical =
      (⟨.splitter .vertical [.tabwidget 0 [⟨1, 1⟩] none none,
          .tabwidget 1 [] none none], 1, 1⟩, some 1) ∧
    splitAfterTabWidget
        ⟨.splitter .vertical [.tabwidget 0 [⟨1, 1⟩] none none,
          .tabwidget 1 [] none none], 1, 1⟩ 0 .vertical =
      (⟨.splitter .vertical [.tabwidget 0 [⟨1, 1⟩] none none,
          .tabwidget 2 [] none none, .tabwidget 1 [] none none], 2, 1⟩,
       some 2) := by
  refine ⟨?_, ?_, ?_, ?_, ?_⟩
  · intro tw o newTW ch et ec pre post hpre
    exact (splitAfterTWKids_at_target tw o newTW ch et ec pre post hpre).1
  · intro tw o parentO newTW ch et ec pre post hne hpre
    exact (splitAfterTWKids_at_target tw o newTW ch et ec pre post hpre).2
      parentO hne
  · intro st w ch et ec o hroot
    simp [splitAfterTabWidget, hroot]
  · simp [splitAfterTabWidget, createTabWidgetInfo]
  · simp [splitAfterTabWidget, splitAfterTWKids, createTabWidgetInfo]

/-- **C2** witness: concrete same-axis and cross-axis splits below a
non-trivial prefix of sibling groups. -/
theorem claim_C2_witness :
    (∀ k ∈ [InfoNode.tabwidget 9 [] none none], containsTabWidget 5 k = false) ∧
    splitAfterTWKids 5 .vertical .vertical (.tabwidget 7 [] none none)
        [.tabwidget 9 [] none none, .tabwidget 5 [⟨2, 3⟩] none none] =
      some [.tabwidget 9 [] none none, .tabwidget 5 [⟨2, 3⟩] none none,
        .tabwidget 7 [] none none] ∧
    splitAfterTWKids 5 .vertical .horizontal (.tabwidget 7 [] none none)
        [.tabwidget 9 [] none none, .tabwidget 5 [⟨2, 3⟩] none none] =
      some [.tabwidget 9 [] none none,
        .splitter .vertical [.tabwidget 5 [⟨2, 3⟩] none none,
          .tabwidget 7 [] none none]] ∧
    splitAfterTabWidget ⟨.tabwidget 4 [⟨2, 3⟩] none none, 6, 0⟩ 4 .horizontal =
      (⟨.splitter .horizontal [.tabwidget 4 [⟨2, 3⟩] none none,
          .tabwidget 7 [] none none], 7, 0⟩, some 7) := by
  have hpre : ∀ k ∈ [InfoNode.tabwidget 9 [] none none],
      containsTabWidget 5 k = false := by
    intro k hkmem
    simp at hkmem
    subst hkmem
    simp [containsTabWidget, findTabWidgetInfoByTabWidget]
  refine ⟨hpre, ?_, ?_, ?_⟩
  · have h := claim_C2.1 5 .vertical (.tabwidget 7 [] none none) [⟨2, 3⟩]
      none none [.tabwidget 9 [] none none] [] hpre
    simpa using h
  · have h := claim_C2.2.1 5 .vertical .horizontal (.tabwidget 7 [] none none)
      [⟨2, 3⟩] none none [.tabwidget 9 [] none none] [] (by simp) hpre
    simpa using h
  · have h := claim_C2.2.2.1 ⟨.tabwidget 4 [⟨2, 3⟩] none none, 6, 0⟩ 4 [⟨2, 3⟩]
      none none .horizontal rfl
    simpa [createTabWidgetInfo] using h

/-! ### Where closeSplitAtTabContent merges -/

/-- Children without the content are scanned past, accumulating. -/
theorem closeMergeScan_skip (c : Nat) :
    ∀ (mid pre rest : List InfoNode),
      (∀ k ∈ mid, containsTabContent c k = false) →
      closeMergeScan c pre (mid ++ rest) =
        closeMergeScan c (mid.reverse ++ pre) rest := by
  intro mid
  induction mid with
  | nil =>
      intro pre rest _
      simp
  | cons k mid ih =>
      intro pre rest hmid
      have hk : containsTabContent c k = false := hmid k (by simp)
      rw [List.cons_append, closeMergeScan.eq_def]
      simp only [hk, Bool.false_eq_true, if_false]
      rw [ih (k :: pre) rest (fun k2 h2 => hmid k2 (by simp [h2]))]
      have heq : mid.reverse ++ (k :: pre) = (k :: mid).reverse ++ pre := by simp
      rw [heq]

/-- The first child owning the content, when a tab-group, is the merge
site: the parent's whole child list is merged at that group's position. -/
theorem closeMergeScan_hit (c : Nat) (w : Nat) (ch : List TabInfo)
    (et ec : Option Nat)
    (hcont : containsTabContent c (.tabwidget w ch et ec) = true)
    (pre post : List InfoNode) :
    closeMergeScan c pre (.tabwidget w ch et ec :: post) =
      some (mergeAtTabWidget (pre.reverse ++ .tabwidget w ch et ec :: post)
        pre.length) := by
  rw [closeMergeScan.eq_def]
  simp [hcont]

/-- Prefix-shift of the pairwise merge. -/
theorem mergeAtIndexPair_append_pre :
    ∀ (pre : List InfoNode) (L R : InfoNode) (post : List InfoNode),
      mergeAtIndexPair (pre ++ L :: R :: post) pre.length =
        match mergeAtIndexPair (L :: R :: post) 0 with
        | .ok l => .ok (pre ++ l)
        | .error e => .error e := by
  intro pre
  induction pre with
  | nil =>
      intro L R post
      simp only [List.nil_append, List.length_nil]
      cases h : mergeAtIndexPair (L :: R :: post) 0 <;> simp
  | cons k pre ih =>
      intro L R post
      rw [List.cons_append, List.length_cons, mergeAtIndexPair_cons_succ, ih]
      cases h : mergeAtIndexPair (L :: R :: post) 0 <;> simp

/-- Merging two adjacent tab-groups: the left absorbs the right's slots,
appended in order after its own. -/
theorem mergeAtIndexPair_group_group (pre : List InfoNode) (lw : Nat)
    (lch : List TabInfo) (le1 le2 : Option Nat) (rw2 : Nat)
    (rch : List TabInfo) (re1 re2 : Option Nat) (post : List InfoNode) :
    mergeAtIndexPair
        (pre ++ .tabwidget lw lch le1 le2 :: .tabwidget rw2 rch re1 re2 :: post)
        pre.length =
      .ok (pre ++ .tabwidget lw (lch ++ rch) le1 le2 :: post) := by
  rw [mergeAtIndexPair_append_pre]
  rw [mergeAtIndexPair]
  simp

/-- Merging a tab-group into a right splitter sibling: the group's slots go
to the splitter subtree (into its leftmost group, below). -/
theorem mergeAtIndexPair_group_splitter (pre : List InfoNode) (lw : Nat)
    (lch : List TabInfo) (le1 le2 : Option Nat) (ro : SplitOrientation)
    (rkids : List InfoNode) (right1 : InfoNode) (post : List InfoNode)
    (happ : appendToFirstTabWidget lch (.splitter ro rkids) = some right1) :
    mergeAtIndexPair
        (pre ++ .tabwidget lw lch le1 le2 :: .splitter ro rkids :: post)
        pre.length =
      .ok (pre ++ right1 :: post) := by
  rw [mergeAtIndexPair_append_pre]
  rw [mergeAtIndexPair]
  simp [happ]

/-- Merging a left splitter sibling with the closing tab-group: the group's
slots go into the splitter subtree's leftmost group. -/
theorem mergeAtIndexPair_splitter_group (pre : List InfoNode)
    (lo : SplitOrientation) (lkids : List InfoNode) (rw2 : Nat)
    (rch : List TabInfo) (re1 re2 : Option Nat) (left1 : InfoNode)
    (post : List InfoNode)
    (happ : appendToFirstTabWidget rch (.splitter lo lkids) = some left1) :
    mergeAtIndexPair
        (pre ++ .splitter lo lkids :: .tabwidget rw2 rch re1 re2 :: post)
        pre.length =
      .ok (pre ++ left1 :: post) := by
  rw [mergeAtIndexPair_append_pre]
  rw [mergeAtIndexPair]
  simp [happ]

/-- Subtrees without any tab-group cannot absorb slots. -/
theorem appendToFirstTabWidget_none_of_first_none (extra : List TabInfo) :
    (∀ n, firstTabWidgetInfo n = none → appendToFirstTabWidget extra n = none) ∧
    (∀ l, firstTabWidgetInfoList l = none →
      appendToFirstTabWidgetList extra l = none) := by
  refine appendToFirstTabWidget.mutual_induct extra
    (fun n => firstTabWidgetInfo n = none → appendToFirstTabWidget extra n = none)
    (fun l => firstTabWidgetInfoList l = none →
      appendToFirstTabWidgetList extra l = none) ?_ ?_ ?_ ?_ ?_
  · intro w ch et ec h
    rw [firstTabWidgetInfo] at h
    exact Option.noConfusion h
  · intro o kids ih h
    rw [firstTabWidgetInfo] at h
    rw [appendToFirstTabWidget]
    simp [ih h]
  · intro _
    rw [appendToFirstTabWidgetList]
  · intro k ks k1 hk ih h
    rw [firstTabWidgetInfoList] at h
    cases hf : firstTabWidgetInfo k with
    | some i =>
        rw [hf] at h
        exact Option.noConfusion h
    | none =>
        exact absurd hk (by rw [ih hf]; exact Option.noConfusion)
  · intro k ks hk ih1 ih2 h
    rw [firstTabWidgetInfoList] at h
    cases hf : firstTabWidgetInfo k with
    | some i =>
        rw [hf] at h
        exact Option.noConfusion h
    | none =>
        rw [hf] at h
        rw [appendToFirstTabWidgetList.eq_def]
        simp [hk, ih2 h]

/-- A subtree with a tab-group always absorbs slots successfully. -/
theorem appendToFirstTabWidget_some_of_first_some (extra : List TabInfo) :
    (∀ n i, firstTabWidgetInfo n = some i →
      ∃ n1, appendToFirstTabWidget extra n = some n1) ∧
    (∀ l i, firstTabWidgetInfoList l = some i →
      ∃ l1, appendToFirstTabWidgetList extra l = some l1) := by
  refine appendToFirstTabWidget.mutual_induct extra
    (fun n => ∀ i, firstTabWidgetInfo n = some i →
      ∃ n1, appendToFirstTabWidget extra n = some n1)
    (fun l => ∀ i, firstTabWidgetInfoList l = some i →
      ∃ l1, appendToFirstTabWidgetList extra l = some l1) ?_ ?_ ?_ ?_ ?_
  · intro w ch et ec i _
    exact ⟨_, by rw [appendToFirstTabWidget]⟩
  · intro o kids ih i h
    rw [firstTabWidgetInfo] at h
    obtain ⟨l1, hl1⟩ := ih i h
    refine ⟨.splitter o l1, ?_⟩
    rw [appendToFirstTabWidget]
    simp [hl1]
  · intro i h
    rw [firstTabWidgetInfoList] at h
    exact Option.noConfusion h
  · intro k ks k1 hk ih i h
    refine ⟨k1 :: ks, ?_⟩
    rw [appendToFirstTabWidgetList.eq_def]
    simp [hk]
  · intro k ks hk ih1 ih2 i h
    rw [firstTabWidgetInfoList] at h
    cases hf : firstTabWidgetInfo k with
    | some j =>
        obtain ⟨n1, hn1⟩ := ih1 j hf
        exact absurd hk (by rw [hn1]; exact Option.noConfusion)
    | none =>
        rw [hf] at h
        obtain ⟨l1, hl1⟩ := ih2 i h
        refine ⟨k :: l1, ?_⟩
        rw [appendToFirstTabWidgetList.eq_def]
        simp [hk, hl1]

/-- The absorbed slots land appended after the slots of the subtree's
leftmost (depth-first) tab-group. -/
theorem appendToFirstTabWidget_first (extra : List TabInfo) :
    (∀ n w ch et ec, firstTabWidgetInfo n = some (.tabwidget w ch et ec) →
      ∃ n1, appendToFirstTabWidget extra n = some n1 ∧
        firstTabWidgetInfo n1 = some (.tabwidget w (ch ++ extra) et ec)) ∧
    (∀ l w ch et ec, firstTabWidgetInfoList l = some (.tabwidget w ch et ec) →
      ∃ l1, appendToFirstTabWidgetList extra l = some l1 ∧
        firstTabWidgetInfoList l1 = some (.tabwidget w (ch ++ extra) et ec)) := by
  refine appendToFirstTabWidget.mutual_induct extra
    (fun n => ∀ w ch et ec, firstTabWidgetInfo n = some (.tabwidget w ch et ec) →
      ∃ n1, appendToFirstTabWidget extra n = some n1 ∧
        firstTabWidgetInfo n1 = some (.tabwidget w (ch ++ extra) et ec))
    (fun l => ∀ w ch et ec,
      firstTabWidgetInfoList l = some (.tabwidget w ch et ec) →
      ∃ l1, appendToFirstTabWidgetList extra l = some l1 ∧
        firstTabWidgetInfoList l1 = some (.tabwidget w (ch ++ extra) et ec)) ?_ ?_ ?_ ?_ ?_
  · intro w0 ch0 et0 ec0 w ch et ec h
    rw [firstTabWidgetInfo] at h
    simp at h
    obtain ⟨rfl, rfl, rfl, rfl⟩ := h
    refine ⟨.tabwidget w0 (ch0 ++ extra) et0 ec0, ?_, ?_⟩
    · rw [appendToFirstTabWidget]
    · rw [firstTabWidgetInfo]
  · intro o kids ih w ch et ec h
    rw [firstTabWidgetInfo] at h
    obtain ⟨l1, hl1, hfirst⟩ := ih w ch et ec h
    refine ⟨.splitter o l1, ?_, ?_⟩
    · rw [appendToFirstTabWidget]
      simp [hl1]
    · rw [firstTabWidgetInfo]
      exact hfirst
  · intro w ch et ec h
    rw [firstTabWidgetInfoList] at h
    exact Option.noConfusion h
  · intro k ks k1 hk ih w ch et ec h
    rw [firstTabWidgetInfoList] at h
    cases hf : firstTabWidgetInfo k with
    | none =>
        exact absurd hk
          (by rw [(appendToFirstTabWidget_none_of_first_none extra).1 k hf]
              exact Option.noConfusion)
    | some i =>
        rw [hf] at h
        have hik : i = .tabwidget w ch et ec := by
          injection h
        subst hik
        obtain ⟨n1, hn1, hfirst⟩ := ih w ch et ec hf
        have hkn : k1 = n1 := by
          rw [hk] at hn1
          injection hn1
        subst hkn
        refine ⟨k1 :: ks, ?_, ?_⟩
        · rw [appendToFirstTabWidgetList.eq_def]
          simp [hk]
        · rw [firstTabWidgetInfoList]
          simp [hfirst]
  · intro k ks hk ih1 ih2 w ch et ec h
    rw [firstTabWidgetInfoList] at h
    cases hf : firstTabWidgetInfo k with
    | some i =>
        obtain ⟨n1, hn1⟩ :=
          (appendToFirstTabWidget_some_of_first_some extra).1 k i hf
        exact absurd hk (by rw [hn1]; exact Option.noConfusion)
    | none =>
        rw [hf] at h
        obtain ⟨l1, hl1, hfirst⟩ := ih2 w ch et ec h
        refine ⟨k :: l1, ?_, ?_⟩
        · rw [appendToFirstTabWidgetList.eq_def]
          simp [hk, hl1]
        · rw [firstTabWidgetInfoList]
          simp [hf, hfirst]

/-- **C3**: a close merges at the parent splitter of the first child owning
the content; the merge partner is the right neighbour unless the group is
the last child, then the left one; two adjacent tab-groups merge by the
left absorbing the right's slots appended after its own; a splitter
partner absorbs the closing group's slots into its leftmost (depth-first)
tab-group.  The two-group example collapses to one group with slots
`C1` then `C2`. -/
theorem claim_C3 :
    (∀ (c w : Nat) (ch : List TabInfo) (et ec : Option Nat)
        (pre post : List InfoNode),
      (∀ k ∈ pre, containsTabContent c k = false) →
      containsTabContent c (.tabwidget w ch et ec) = true →
      closeMergeScan c [] (pre ++ .tabwidget w ch et ec :: post) =
        some (mergeAtTabWidget (pre ++ .tabwidget w ch et ec :: post)
          pre.length)) ∧
    (∀ (kids : List InfoNode) (j : Nat), ¬ kids.length ≤ 1 →
      (¬ j + 1 = kids.length → mergeAtTabWidget kids j = mergeAtIndexPair kids j) ∧
      (j + 1 = kids.length →
        mergeAtTabWidget kids j = mergeAtIndexPair kids (j - 1))) ∧
    (∀ (pre : List InfoNode) (lw : Nat) (lch : List TabInfo)
        (le1 le2 : Option Nat) (rw2 : Nat) (rch : List TabInfo)
        (re1 re2 : Option Nat) (post : List InfoNode),
      mergeAtIndexPair
          (pre ++ .tabwidget lw lch le1 le2 :: .tabwidget rw2 rch re1 re2 :: post)
          pre.length =
        .ok (pre ++ .tabwidget lw (lch ++ rch) le1 le2 :: post)) ∧
    (∀ (extra : List TabInfo) (n : InfoNode) (w : Nat) (ch : List TabInfo)
        (et ec : Option Nat),
      firstTabWidgetInfo n = some (.tabwidget w ch et ec) →
      ∃ n1, appendToFirstTabWidget extra n = some n1 ∧
        firstTabWidgetInfo n1 = some (.tabwidget w (ch ++ extra) et ec)) ∧
    closeSplitAtTabContent
        ⟨.splitter .vertical [.tabwidget 1 [⟨11, 101⟩] none none,
          .tabwidget 2 [⟨12, 102⟩] none none], 2, 2⟩ 101 =
      .ok ⟨.tabwidget 1 [⟨11, 101⟩, ⟨12, 102⟩] none none, 2, 2⟩ := by
  refine ⟨?_, ?_, ?_, ?_, ?_⟩
  · intro c w ch et ec pre post hpre hcont
    rw [closeMergeScan_skip c pre [] (.tabwidget w ch et ec :: post) hpre]
    rw [closeMergeScan_hit c w ch et ec hcont (pre.reverse ++ []) post]
    simp
  · intro kids j hlen
    constructor
    · intro hne
      rw [mergeAtTabWidget, if_neg hlen, if_neg hne]
    · intro heq
      rw [mergeAtTabWidget, if_neg hlen, if_pos heq]
  · intro pre lw lch le1 le2 rw2 rch re1 re2 post
    exact mergeAtIndexPair_group_group pre lw lch le1 le2 rw2 rch re1 re2 post
  · intro extra n w ch et ec h
    exact (appendToFirstTabWidget_first extra).1 n w ch et ec h
  · simp [closeSplitAtTabContent, closeMergeScan, containsTabContent,
      findTabWidgetInfoByTabContent, findTabWidgetInfoByTabContentList,
      mergeAtTabWidget, mergeAtIndexPair, removeRedundantSplitters]

/-- **C3** witness: a two-group parent merges at position 1 (last child, so
with the left sibling), the pair merge appends the right group's slot
after the left's, and a splitter partner absorbs a slot into its leftmost
group. -/
theorem claim_C3_witness :
    (∀ k ∈ [InfoNode.tabwidget 1 [⟨11, 100⟩] none none],
      containsTabContent 101 k = false) ∧
    containsTabContent 101 (InfoNode.tabwidget 2 [⟨12, 101⟩] none none) = true ∧
    closeMergeScan 101 []
        [InfoNode.tabwidget 1 [⟨11, 100⟩] none none,
         InfoNode.tabwidget 2 [⟨12, 101⟩] none none] =
      some (mergeAtTabWidget
        [InfoNode.tabwidget 1 [⟨11, 100⟩] none none,
         InfoNode.tabwidget 2 [⟨12, 101⟩] none none] 1) ∧
    mergeAtTabWidget
        [InfoNode.tabwidget 1 [⟨11, 100⟩] none none,
         InfoNode.tabwidget 2 [⟨12, 101⟩] none none] 1 =
      mergeAtIndexPair
        [InfoNode.tabwidget 1 [⟨11, 100⟩] none none,
         InfoNode.tabwidget 2 [⟨12, 101⟩] none none] 0 ∧
    mergeAtIndexPair
        [InfoNode.tabwidget 1 [⟨11, 100⟩] none none,
         InfoNode.tabwidget 2 [⟨12, 101⟩] none none] 0 =
      .ok [InfoNode.tabwidget 1 [⟨11, 100⟩, ⟨12, 101⟩] none none] ∧
    (∃ n1, appendToFirstTabWidget [⟨9, 99⟩]
        (.splitter .vertical [.tabwidget 3 [⟨5, 55⟩] none none]) = some n1 ∧
      firstTabWidgetInfo n1 =
        some (.tabwidget 3 [⟨5, 55⟩, ⟨9, 99⟩] none none)) := by
  have hpre : ∀ k ∈ [InfoNode.tabwidget 1 [⟨11, 100⟩] none none],
      containsTabContent 101 k = false := by
    intro k hk
    simp at hk
    subst hk
    simp [containsTabContent, findTabWidgetInfoByTabContent]
  have hcont : containsTabContent 101
      (InfoNode.tabwidget 2 [⟨12, 101⟩] none none) = true := by
    simp [containsTabContent, findTabWidgetInfoByTabContent]
  refine ⟨hpre, hcont, ?_, ?_, ?_, ?_⟩
  · have h := claim_C3.1 101 2 [⟨12, 101⟩] none none
      [InfoNode.tabwidget 1 [⟨11, 100⟩] none none] [] hpre hcont
    simpa using h
  · exact (claim_C3.2.1
      [InfoNode.tabwidget 1 [⟨11, 100⟩] none none,
       InfoNode.tabwidget 2 [⟨12, 101⟩] none none] 1 (by simp)).2 (by simp)
  · have h := claim_C3.2.2.1 [] 1 [⟨11, 100⟩] none none 2 [⟨12, 101⟩]
      none none []
    simpa using h
  · exact claim_C3.2.2.2.1 [⟨9, 99⟩]
      (.splitter .vertical [.tabwidget 3 [⟨5, 55⟩] none none]) 3 [⟨5, 55⟩]
      none none (by simp [firstTabWidgetInfo, firstTabWidgetInfoList])

/-! ### The split / close round trip -/

/-- Lookup failure on a child list is lookup failure on every member. -/
theorem findTWList_none_mem (tw : Nat) :
    ∀ (l : List InfoNode), findTabWidgetInfoByTabWidgetList l tw = none →
      ∀ k ∈ l, findTabWidgetInfoByTabWidget k tw = none := by
  intro l
  induction l with
  | nil =>
      intro _ k hk
      simp at hk
  | cons x xs ih =>
      intro h k hk
      rw [findTabWidgetInfoByTabWidgetList] at h
      cases hf : findTabWidgetInfoByTabWidget x tw with
      | some i =>
          rw [hf] at h
          exact Option.noConfusion h
      | none =>
          rw [hf] at h
          rcases List.mem_cons.mp hk with rfl | hk2
          · exact hf
          · exact ih h k hk2

/-- `update()` does not touch groups whose id differs from the target (and
a fresh id touches only the freshly created group). -/
theorem materializeEmptyNode_id_of_not_contains (nid t c : Nat) :
    (∀ n, containsTabWidget nid n = false →
      materializeEmptyNode nid t c n = n) ∧
    (∀ l, (∀ k ∈ l, containsTabWidget nid k = false) →
      materializeEmptyList nid t c l = l) := by
  refine materializeEmptyNode.mutual_induct nid t c
    (fun n => containsTabWidget nid n = false → materializeEmptyNode nid t c n = n)
    (fun l => (∀ k ∈ l, containsTabWidget nid k = false) →
      materializeEmptyList nid t c l = l) ?_ ?_ ?_ ?_ ?_
  · intro w ch et ec hcond h
    have hw : ¬ w = nid := by
      intro hww
      rw [containsTabWidget, findTabWidgetInfoByTabWidget, if_pos hww] at h
      simp at h
    exact absurd hcond.1 hw
  · intro w ch et ec hcond h
    rw [materializeEmptyNode]
    simp [hcond]
    intro h1 h2
    exact absurd ⟨h1, by simp [h2]⟩ hcond
  · intro o kids ih h
    rw [containsTabWidget, findTabWidgetInfoByTabWidget] at h
    have hl : findTabWidgetInfoByTabWidgetList kids nid = none := by
      cases hf : findTabWidgetInfoByTabWidgetList kids nid with
      | none => rfl
      | some i =>
          rw [hf] at h
          simp at h
    rw [materializeEmptyNode]
    rw [ih ?_]
    intro k hk
    rw [containsTabWidget, findTWList_none_mem nid kids hl k hk]
    rfl
  · intro _
    rw [materializeEmptyList]
  · intro k ks ih1 ih2 h
    rw [materializeEmptyList]
    rw [ih1 (h k (by simp)), ih2 (fun k2 h2 => h k2 (by simp [h2]))]

/-- Absorbing an empty slot list into a subtree with a tab-group is the
identity. -/
theorem appendToFirstTabWidget_nil_id :
    (∀ n i, firstTabWidgetInfo n = some i →
      appendToFirstTabWidget [] n = some n) ∧
    (∀ l i, firstTabWidgetInfoList l = some i →
      appendToFirstTabWidgetList [] l = some l) := by
  refine appendToFirstTabWidget.mutual_induct []
    (fun n => ∀ i, firstTabWidgetInfo n = some i →
      appendToFirstTabWidget [] n = some n)
    (fun l => ∀ i, firstTabWidgetInfoList l = some i →
      appendToFirstTabWidgetList [] l = some l) ?_ ?_ ?_ ?_ ?_
  · intro w ch et ec i _
    rw [appendToFirstTabWidget]
    simp
  · intro o kids ih i h
    rw [firstTabWidgetInfo] at h
    rw [appendToFirstTabWidget]
    simp [ih i h]
  · intro i h
    rw [firstTabWidgetInfoList] at h
    exact Option.noConfusion h
  · intro k ks k1 hk ih i h
    cases hf : firstTabWidgetInfo k with
    | some j =>
        have hkk := ih j hf
        rw [hk] at hkk
        injection hkk with hkk
        subst hkk
        rw [appendToFirstTabWidgetList.eq_def]
        simp [hk]
    | none =>
        rw [(appendToFirstTabWidget_none_of_first_none []).1 k hf] at hk
        exact Option.noConfusion hk
  · intro k ks hk ih1 ih2 i h
    rw [firstTabWidgetInfoList] at h
    cases hf : firstTabWidgetInfo k with
    | some j =>
        obtain ⟨n1, hn1⟩ := (appendToFirstTabWidget_some_of_first_some []).1 k j hf
        rw [hn1] at hk
        exact Option.noConfusion hk
    | none =>
        rw [hf] at h
        rw [appendToFirstTabWidgetList.eq_def]
        simp [hk, ih2 i h]

mutual

/-- The spec's update-equivalence: the same slot sequences in the same
structural arrangement, ignoring group identity and the lazily
materialised empty-state placeholders. -/
def stripWidgetIdentity : InfoNode → InfoNode
  | .tabwidget _ children _ _ => .tabwidget 0 children none none
  | .splitter o kids => .splitter o (stripWidgetIdentityList kids)

/-- List version of `stripWidgetIdentity`. -/
def stripWidgetIdentityList : List InfoNode → List InfoNode
  | [] => []
  | k :: ks => stripWidgetIdentity k :: stripWidgetIdentityList ks

end

/-- Content-lookup failure on a child list, member version. -/
theorem findTCList_none_mem (c : Nat) :
    ∀ (l : List InfoNode), findTabWidgetInfoByTabContentList l c = none →
      ∀ k ∈ l, findTabWidgetInfoByTabContent k c = none := by
  intro l
  induction l with
  | nil =>
      intro _ k hk
      simp at hk
  | cons x xs ih =>
      intro h k hk
      rw [findTabWidgetInfoByTabContentList] at h
      cases hf : findTabWidgetInfoByTabContent x c with
      | some i =>
          rw [hf] at h
          exact Option.noConfusion h
      | none =>
          rw [hf] at h
          rcases List.mem_cons.mp hk with rfl | hk2
          · exact hf
          · exact ih h k hk2

theorem materializeEmptyList_append (nid t c : Nat) (a b : List InfoNode) :
    materializeEmptyList nid t c (a ++ b) =
      materializeEmptyList nid t c a ++ materializeEmptyList nid t c b := by
  induction a with
  | nil => simp [materializeEmptyList]
  | cons k ks ih =>
      rw [List.cons_append, materializeEmptyList, ih, materializeEmptyList]
      rfl

/-- Locate the merge site: skip content-free children, merge at the first
owning tab-group. -/
theorem closeMergeScan_locate (c w : Nat) (ch : List TabInfo) (et ec : Option Nat)
    (pre post : List InfoNode)
    (hpre : ∀ k ∈ pre, containsTabContent c k = false)
    (hcont : containsTabContent c (.tabwidget w ch et ec) = true) :
    closeMergeScan c [] (pre ++ .tabwidget w ch et ec :: post) =
      some (mergeAtTabWidget (pre ++ .tabwidget w ch et ec :: post)
        pre.length) := by
  rw [closeMergeScan_skip c pre [] (.tabwidget w ch et ec :: post) hpre]
  rw [closeMergeScan_hit c w ch et ec hcont (pre.reverse ++ []) post]
  simp

/-- The split / materialise / close round trip at a root tab-group:
restored exactly. -/
theorem roundtrip_root_group (st : State) (w : Nat) (ch : List TabInfo)
    (et ec : Option Nat) (o : SplitOrientation) (cid : Nat)
    (hroot : st.rootInfoNode = .tabwidget w ch et ec)
    (hcid : containsTabContent cid st.rootInfoNode = false)
    (hnid : containsTabWidget (st.tabWidgetIdCounter + 1) st.rootInfoNode = false) :
    closeSplitAtTabContent
        (materializeEmpty (splitAfterTabWidget st w o).1
          (st.tabWidgetIdCounter + 1) cid) cid =
      .ok { materializeEmpty (splitAfterTabWidget st w o).1
              (st.tabWidgetIdCounter + 1) cid with
            rootInfoNode := st.rootInfoNode } := by
  have hs : splitAfterTabWidget st w o =
      ({ st with
          rootInfoNode := .splitter o [.tabwidget w ch et ec,
            createTabWidgetInfo st.tabWidgetIdCounter []],
          tabWidgetIdCounter := st.tabWidgetIdCounter + 1 },
       some (st.tabWidgetIdCounter + 1)) := by
    simp [splitAfterTabWidget, hroot]
  rw [hs]
  rw [hroot] at hcid hnid
  have hG : materializeEmptyNode (st.tabWidgetIdCounter + 1) (st.tabIdCounter + 1)
      cid (.tabwidget w ch et ec) = .tabwidget w ch et ec :=
    (materializeEmptyNode_id_of_not_contains _ _ _).1 _ hnid
  have hm : materializeEmpty
      { st with
          rootInfoNode := .splitter o [.tabwidget w ch et ec,
            createTabWidgetInfo st.tabWidgetIdCounter []],
          tabWidgetIdCounter := st.tabWidgetIdCounter + 1 }
      (st.tabWidgetIdCounter + 1) cid =
      { st with
          rootInfoNode := .splitter o [.tabwidget w ch et ec,
            .tabwidget (st.tabWidgetIdCounter + 1) [] (some (st.tabIdCounter + 1))
              (some cid)],
          tabWidgetIdCounter := st.tabWidgetIdCounter + 1,
          tabIdCounter := st.tabIdCounter + 1 } := by
    have hfreshm : materializeEmptyNode (st.tabWidgetIdCounter + 1)
        (st.tabIdCounter + 1) cid
        (.tabwidget (st.tabWidgetIdCounter + 1) [] none none) =
        .tabwidget (st.tabWidgetIdCounter + 1) [] (some (st.tabIdCounter + 1))
          (some cid) := by
      rw [materializeEmptyNode]
      simp
    rw [materializeEmpty]
    simp only [createTabWidgetInfo]
    rw [materializeEmptyNode, materializeEmptyList, hG, materializeEmptyList,
      hfreshm, materializeEmptyList]
  rw [hm]
  have hpre1 : ∀ k ∈ [InfoNode.tabwidget w ch et ec],
      containsTabContent cid k = false := by
    intro k hk
    simp at hk
    subst hk
    exact hcid
  have hcont : containsTabContent cid
      (.tabwidget (st.tabWidgetIdCounter + 1) []
        (some (st.tabIdCounter + 1)) (some cid)) = true := by
    simp [containsTabContent, findTabWidgetInfoByTabContent]
  have hscan := closeMergeScan_locate cid (st.tabWidgetIdCounter + 1) []
    (some (st.tabIdCounter + 1)) (some cid)
    [InfoNode.tabwidget w ch et ec] [] hpre1 hcont
  have hmerge : mergeAtTabWidget
      ([InfoNode.tabwidget w ch et ec] ++
        [InfoNode.tabwidget (st.tabWidgetIdCounter + 1) []
          (some (st.tabIdCounter + 1)) (some cid)])
      (List.length [InfoNode.tabwidget w ch et ec]) =
      .ok [.tabwidget w ch et ec] := by
    rw [mergeAtTabWidget]
    simp only [List.length_cons, List.length_nil, List.length_append]
    rw [if_neg (by simp)]
    rw [if_pos (by simp)]
    have := mergeAtIndexPair_group_group [] w ch et ec
      (st.tabWidgetIdCounter + 1) [] (some (st.tabIdCounter + 1)) (some cid) []
    simpa using this
  rw [closeSplitAtTabContent]
  simp only
  rw [show ([InfoNode.tabwidget w ch et ec] ++
      [InfoNode.tabwidget (st.tabWidgetIdCounter + 1) []
        (some (st.tabIdCounter + 1)) (some cid)]) =
      [InfoNode.tabwidget w ch et ec,
        InfoNode.tabwidget (st.tabWidgetIdCounter + 1) []
          (some (st.tabIdCounter + 1)) (some cid)] from rfl] at hscan hmerge
  rw [hscan, hmerge]
  simp only [removeRedundantSplitters]
  rw [hroot]

/-- The collapse pass is the identity on a well-formed splitter. -/
theorem removeRedundantSplitters_id (o : SplitOrientation) (kids : List InfoNode)
    (hlen : 2 ≤ kids.length) (hinv : nodeInvList kids = true) :
    removeRedundantSplitters (.splitter o kids) = .splitter o kids := by
  cases kids with
  | nil => simp at hlen
  | cons c1 cs =>
      cases cs with
      | nil => simp at hlen
      | cons c2 cs2 =>
          rw [removeRedundantSplitters]
          rw [collapse_id_of_inv.2.1 _ hinv]

/-- Descending into a splitter child that owns the content. -/
theorem closeMergeScan_descend (c : Nat) (o2 : SplitOrientation)
    (kids2 kids3 : List InfoNode) (pre post : List InfoNode)
    (hpre : ∀ k ∈ pre, containsTabContent c k = false)
    (hcont : containsTabContent c (.splitter o2 kids2) = true)
    (hin : closeMergeScan c [] kids2 = some (.ok kids3)) :
    closeMergeScan c [] (pre ++ .splitter o2 kids2 :: post) =
      some (.ok (pre ++ .splitter o2 kids3 :: post)) := by
  rw [closeMergeScan_skip c pre [] _ hpre]
  rw [closeMergeScan.eq_def]
  simp only [hcont, if_true, hin]
  simp

/-- A well-formed subtree always has a leftmost tab-group. -/
theorem firstTabWidgetInfo_some_of_inv :
    (∀ n, nodeInv n = true → ∃ i, firstTabWidgetInfo n = some i) ∧
    (∀ l, 1 ≤ l.length → nodeInvList l = true →
      ∃ i, firstTabWidgetInfoList l = some i) := by
  refine firstTabWidgetInfo.mutual_induct
    (fun n => nodeInv n = true → ∃ i, firstTabWidgetInfo n = some i)
    (fun l => 1 ≤ l.length → nodeInvList l = true →
      ∃ i, firstTabWidgetInfoList l = some i) ?_ ?_ ?_ ?_ ?_
  · intro w ch et ec _
    exact ⟨_, by rw [firstTabWidgetInfo]⟩
  · intro o kids ih h
    rw [nodeInv] at h
    simp only [Bool.and_eq_true, decide_eq_true_eq] at h
    obtain ⟨i, hi⟩ := ih (by omega) h.2
    exact ⟨i, by rw [firstTabWidgetInfo]; exact hi⟩
  · intro hlen _
    simp at hlen
  · intro k ks k1 hk ih hlen hinv
    exact ⟨k1, by rw [firstTabWidgetInfoList]; simp [hk]⟩
  · intro k ks hk ih1 ih2 hlen hinv
    rw [nodeInvList] at hinv
    simp only [Bool.and_eq_true] at hinv
    obtain ⟨i, hi⟩ := ih1 hinv.1
    rw [hk] at hi
    exact Option.noConfusion hi

/-- List version of `stripWidgetIdentity` distributes over append. -/
theorem stripWidgetIdentityList_append (a b : List InfoNode) :
    stripWidgetIdentityList (a ++ b) =
      stripWidgetIdentityList a ++ stripWidgetIdentityList b := by
  induction a with
  | nil => simp [stripWidgetIdentityList]
  | cons k ks ih =>
      rw [List.cons_append, stripWidgetIdentityList, ih, stripWidgetIdentityList]
      rfl

theorem removeRedundantSplitters_multi (o : SplitOrientation)
    (kids : List InfoNode) (hlen : 2 ≤ kids.length) :
    removeRedundantSplitters (.splitter o kids) =
      .splitter o (collapseChildren kids) := by
  cases kids with
  | nil => simp at hlen
  | cons c1 cs =>
      cases cs with
      | nil => simp at hlen
      | cons c2 cs2 => rw [removeRedundantSplitters]

/-! ### The split / close round trip at any depth (claim C4)

A target group anywhere in the tree is addressed by its chain of ancestor
splitters.  `Frame` records one ancestor level — the splitter's orientation
and the siblings to the left and right of the child leading towards the
target — and `plugNode` rebuilds the tree from the chain and the subtree in
the hole.  These are verification scaffolding for stating the round trip at
arbitrary depth; they are not part of the program model. -/

structure Frame where
  orient : SplitOrientation
  pre : List InfoNode
  post : List InfoNode

def plugNode : List Frame → InfoNode → InfoNode
  | [], n => n
  | f :: fs, n => .splitter f.orient (f.pre ++ plugNode fs n :: f.post)

/-- Absent content means the lookup fails. -/
theorem findTC_none_of_not_contains (c : Nat) (k : InfoNode)
    (h : containsTabContent c k = false) :
    findTabWidgetInfoByTabContent k c = none := by
  rw [containsTabContent] at h
  cases hf : findTabWidgetInfoByTabContent k c with
  | none => rfl
  | some i => rw [hf] at h; simp at h

/-- Absent widget id means the lookup fails. -/
theorem findTW_none_of_not_contains (tw : Nat) (k : InfoNode)
    (h : containsTabWidget tw k = false) :
    findTabWidgetInfoByTabWidget k tw = none := by
  rw [containsTabWidget] at h
  cases hf : findTabWidgetInfoByTabWidget k tw with
  | none => rfl
  | some i => rw [hf] at h; simp at h

/-- Content search skips a prefix of content-free children. -/
theorem findTCList_skip (c : Nat) :
    ∀ (pre rest : List InfoNode),
      (∀ k ∈ pre, findTabWidgetInfoByTabContent k c = none) →
      findTabWidgetInfoByTabContentList (pre ++ rest) c =
        findTabWidgetInfoByTabContentList rest c := by
  intro pre
  induction pre with
  | nil => intro rest _; rfl
  | cons k pre ih =>
      intro rest hpre
      rw [List.cons_append, findTabWidgetInfoByTabContentList, hpre k (by simp)]
      exact ih rest (fun k2 h2 => hpre k2 (by simp [h2]))

/-- A widget id absent from a plugged tree is absent from the hole and from
every sibling along the chain. -/
theorem containsTW_plug_false (tw : Nat) :
    ∀ (frames : List Frame) (X : InfoNode),
      containsTabWidget tw (plugNode frames X) = false →
      containsTabWidget tw X = false ∧
      ∀ f ∈ frames, ∀ k ∈ f.pre ++ f.post, containsTabWidget tw k = false := by
  intro frames
  induction frames with
  | nil =>
      intro X h
      exact ⟨h, by simp⟩
  | cons f fs ih =>
      intro X h
      rw [plugNode] at h
      have hfind := findTW_none_of_not_contains tw _ h
      rw [findTabWidgetInfoByTabWidget] at hfind
      have hmem := findTWList_none_mem tw _ hfind
      have hplug : containsTabWidget tw (plugNode fs X) = false := by
        rw [containsTabWidget, hmem _ (by simp)]
        rfl
      obtain ⟨hX, hfs⟩ := ih X hplug
      refine ⟨hX, ?_⟩
      intro g hg k hk
      rcases List.mem_cons.mp hg with rfl | hg2
      · rw [containsTabWidget, hmem k ?_]
        · rfl
        · rcases List.mem_append.mp hk with h1 | h1
          · exact List.mem_append.mpr (Or.inl h1)
          · exact List.mem_append.mpr (Or.inr (by simp [h1]))
      · exact hfs g hg2 k hk

/-- A content absent from a plugged tree is absent from the hole and from
every sibling along the chain. -/
theorem containsTC_plug_false (c : Nat) :
    ∀ (frames : List Frame) (X : InfoNode),
      containsTabContent c (plugNode frames X) = false →
      containsTabContent c X = false ∧
      ∀ f ∈ frames, ∀ k ∈ f.pre ++ f.post, containsTabContent c k = false := by
  intro frames
  induction frames with
  | nil =>
      intro X h
      exact ⟨h, by simp⟩
  | cons f fs ih =>
      intro X h
      rw [plugNode] at h
      have hfind := findTC_none_of_not_contains c _ h
      rw [findTabWidgetInfoByTabContent] at hfind
      have hmem := findTCList_none_mem c _ hfind
      have hplug : containsTabContent c (plugNode fs X) = false := by
        rw [containsTabContent, hmem _ (by simp)]
        rfl
      obtain ⟨hX, hfs⟩ := ih X hplug
      refine ⟨hX, ?_⟩
      intro g hg k hk
      rcases List.mem_cons.mp hg with rfl | hg2
      · rw [containsTabContent, hmem k ?_]
        · rfl
        · rcases List.mem_append.mp hk with h1 | h1
          · exact List.mem_append.mpr (Or.inl h1)
          · exact List.mem_append.mpr (Or.inr (by simp [h1]))
      · exact hfs g hg2 k hk

/-- A content present in the hole, with a content-free left context, is
found in the plugged tree. -/
theorem containsTC_plug_true (c : Nat) :
    ∀ (frames : List Frame) (X : InfoNode),
      (∀ f ∈ frames, ∀ k ∈ f.pre, containsTabContent c k = false) →
      containsTabContent c X = true →
      containsTabContent c (plugNode frames X) = true := by
  intro frames
  induction frames with
  | nil => intro X _ hX; exact hX
  | cons f fs ih =>
      intro X hfr hX
      have hplug := ih X (fun g hg => hfr g (by simp [hg])) hX
      rw [plugNode, containsTabContent, findTabWidgetInfoByTabContent]
      rw [findTCList_skip c f.pre _
        (fun k hk => findTC_none_of_not_contains c k (hfr f (by simp) k hk))]
      rw [findTabWidgetInfoByTabContentList]
      rw [containsTabContent] at hplug
      cases hf : findTabWidgetInfoByTabContent (plugNode fs X) c with
      | none => rw [hf] at hplug; simp at hplug
      | some i => rfl

/-- A splitter whose child list hits a content-owning child after a
content-free prefix contains the content. -/
theorem containsTC_splitter_of_member (c : Nat) (o : SplitOrientation)
    (mid : List InfoNode) (x : InfoNode) (post : List InfoNode)
    (hmid : ∀ k ∈ mid, containsTabContent c k = false)
    (hx : containsTabContent c x = true) :
    containsTabContent c (.splitter o (mid ++ x :: post)) = true := by
  rw [containsTabContent, findTabWidgetInfoByTabContent]
  rw [findTCList_skip c mid _
    (fun k hk => findTC_none_of_not_contains c k (hmid k hk))]
  rw [findTabWidgetInfoByTabContentList]
  rw [containsTabContent] at hx
  cases hf : findTabWidgetInfoByTabContent x c with
  | none => rw [hf] at hx; simp at hx
  | some i => rfl

/-- Well-formedness of a plugged tree, decomposed into hole and chain. -/
theorem nodeInv_plug_elim :
    ∀ (frames : List Frame) (X : InfoNode),
      nodeInv (plugNode frames X) = true →
      nodeInv X = true ∧
      ∀ f ∈ frames, 2 ≤ f.pre.length + 1 + f.post.length ∧
        nodeInvList f.pre = true ∧ nodeInvList f.post = true := by
  intro frames
  induction frames with
  | nil => intro X h; exact ⟨h, by simp⟩
  | cons f fs ih =>
      intro X h
      rw [plugNode, nodeInv] at h
      simp only [Bool.and_eq_true, decide_eq_true_eq] at h
      obtain ⟨hlen, hlist⟩ := h
      rw [nodeInvList_append, nodeInvList] at hlist
      simp only [Bool.and_eq_true] at hlist
      obtain ⟨hpre, hmid, hpost⟩ := hlist
      obtain ⟨hX, hfs⟩ := ih X hmid
      refine ⟨hX, ?_⟩
      intro g hg
      rcases List.mem_cons.mp hg with rfl | hg2
      · exact ⟨by simp at hlen; omega, hpre, hpost⟩
      · exact hfs g hg2

/-- Rebuild well-formedness of a plugged tree from hole and chain. -/
theorem nodeInv_plug_intro :
    ∀ (frames : List Frame) (X : InfoNode),
      nodeInv X = true →
      (∀ f ∈ frames, 2 ≤ f.pre.length + 1 + f.post.length ∧
        nodeInvList f.pre = true ∧ nodeInvList f.post = true) →
      nodeInv (plugNode frames X) = true := by
  intro frames
  induction frames with
  | nil => intro X hX _; exact hX
  | cons f fs ih =>
      intro X hX hfr
      obtain ⟨hlen, hpre, hpost⟩ := hfr f (by simp)
      have hmid := ih X hX (fun g hg => hfr g (by simp [hg]))
      rw [plugNode, nodeInv]
      simp only [Bool.and_eq_true, decide_eq_true_eq]
      refine ⟨by simp; omega, ?_⟩
      rw [nodeInvList_append, nodeInvList]
      simp only [Bool.and_eq_true]
      exact ⟨hpre, hmid, hpost⟩

/-- The collapse pass is the identity on any well-formed tree. -/
theorem removeRedundantSplitters_id_of_nodeInv (n : InfoNode)
    (h : nodeInv n = true) :
    removeRedundantSplitters n = n := by
  cases n with
  | tabwidget w ch et ec => rw [removeRedundantSplitters]
  | splitter o kids =>
      rw [nodeInv] at h
      simp only [Bool.and_eq_true, decide_eq_true_eq] at h
      exact removeRedundantSplitters_id o kids h.1 h.2

/-- On a splitter of arity at least two the root collapse pass agrees with
the child collapse step. -/
theorem removeRedundantSplitters_eq_collapseChild (o : SplitOrientation)
    (kids : List InfoNode) (hlen : 2 ≤ kids.length) :
    removeRedundantSplitters (.splitter o kids) =
      collapseChild (.splitter o kids) := by
  rw [removeRedundantSplitters_multi o kids hlen,
    collapseChild_splitter_of_ne_one o kids (by omega)]

/-- The root collapse pass on a plugged splitter agrees with the child
collapse step when every level has arity at least two. -/
theorem removeRedundant_plug_eq_collapseChild :
    ∀ (frames : List Frame) (so : SplitOrientation) (skids : List InfoNode),
      2 ≤ skids.length →
      (∀ f ∈ frames, 2 ≤ f.pre.length + 1 + f.post.length) →
      removeRedundantSplitters (plugNode frames (.splitter so skids)) =
        collapseChild (plugNode frames (.splitter so skids)) := by
  intro frames so skids hlen hfr
  cases frames with
  | nil =>
      simp only [plugNode]
      exact removeRedundantSplitters_eq_collapseChild so skids hlen
  | cons f fs =>
      simp only [plugNode]
      refine removeRedundantSplitters_eq_collapseChild f.orient _ ?_
      have := hfr f (by simp)
      simp
      omega

/-- The child-collapse step acts on the hole through a well-formed chain. -/
theorem collapseChild_plug :
    ∀ (frames : List Frame) (Y Z : InfoNode),
      collapseChild Y = Z →
      (∀ f ∈ frames, 2 ≤ f.pre.length + 1 + f.post.length ∧
        nodeInvList f.pre = true ∧ nodeInvList f.post = true) →
      collapseChild (plugNode frames Y) = plugNode frames Z := by
  intro frames
  induction frames with
  | nil => intro Y Z hbase _; exact hbase
  | cons f fs ih =>
      intro Y Z hbase hfr
      obtain ⟨hlen, hpre, hpost⟩ := hfr f (by simp)
      simp only [plugNode]
      rw [collapseChild_splitter_of_ne_one f.orient _ (by simp; omega)]
      rw [collapseChildren_append, collapseChildren_cons]
      rw [collapse_id_of_inv.2.1 f.pre hpre]
      rw [collapse_id_of_inv.2.1 f.post hpost]
      rw [ih Y Z hbase (fun g hg => hfr g (by simp [hg]))]

/-- `stripWidgetIdentity` is congruent under plugging. -/
theorem strip_plug_congr :
    ∀ (frames : List Frame) (X Y : InfoNode),
      stripWidgetIdentity X = stripWidgetIdentity Y →
      stripWidgetIdentity (plugNode frames X) =
        stripWidgetIdentity (plugNode frames Y) := by
  intro frames
  induction frames with
  | nil => intro X Y h; exact h
  | cons f fs ih =>
      intro X Y h
      simp only [plugNode, stripWidgetIdentity, stripWidgetIdentityList_append,
        stripWidgetIdentityList]
      rw [ih X Y h]

/-- The split descent skips children free of the target widget. -/
theorem splitAfterTWKids_skip (tw : Nat) (o parentO : SplitOrientation)
    (newTW : InfoNode) :
    ∀ (pre rest : List InfoNode),
      (∀ k ∈ pre, containsTabWidget tw k = false) →
      splitAfterTWKids tw o parentO newTW (pre ++ rest) =
        (splitAfterTWKids tw o parentO newTW rest).map (pre ++ ·) := by
  intro pre
  induction pre with
  | nil =>
      intro rest _
      simp
  | cons k pre ih =>
      intro rest hpre
      have hk := hpre k (by simp)
      have hrec := ih rest (fun k2 h2 => hpre k2 (by simp [h2]))
      cases k with
      | tabwidget w ch et ec =>
          have hw : ¬ w = tw := by
            intro hww
            rw [containsTabWidget, findTabWidgetInfoByTabWidget,
              if_pos hww] at hk
            simp at hk
          rw [List.cons_append, splitAfterTWKids.eq_def]
          simp only [if_neg hw]
          rw [hrec]
          cases hres : splitAfterTWKids tw o parentO newTW rest <;> simp
      | splitter o2 kids2 =>
          have hfl : findTabWidgetInfoByTabWidgetList kids2 tw = none := by
            have h0 := findTW_none_of_not_contains tw _ hk
            rw [findTabWidgetInfoByTabWidget] at h0
            exact h0
          have hnone := splitAfterTWKids_none_of_find_none tw o o2 newTW
            kids2 hfl
          rw [List.cons_append, splitAfterTWKids.eq_def]
          simp only [hnone]
          rw [hrec]
          cases hres : splitAfterTWKids tw o parentO newTW rest <;> simp

/-- The split descent enters a splitter child in which it succeeds. -/
theorem splitAfterTWKids_descend (tw : Nat) (o parentO so : SplitOrientation)
    (newTW : InfoNode) (skids skids' post : List InfoNode)
    (hin : splitAfterTWKids tw o so newTW skids = some skids') :
    splitAfterTWKids tw o parentO newTW (.splitter so skids :: post) =
      some (.splitter so skids' :: post) := by
  rw [splitAfterTWKids.eq_def]
  simp only [hin]

/-- The split descent reaches the target's parent splitter at any depth
when every left sibling along the chain is free of the target id. -/
theorem splitAfterTWKids_plug (tw : Nat) (o : SplitOrientation)
    (newTW : InfoNode) (so : SplitOrientation) (skids skids' : List InfoNode)
    (hin : splitAfterTWKids tw o so newTW skids = some skids') :
    ∀ (frames : List Frame),
      (∀ f ∈ frames, ∀ k ∈ f.pre, containsTabWidget tw k = false) →
      ∀ (parentO : SplitOrientation) (pre post : List InfoNode),
        (∀ k ∈ pre, containsTabWidget tw k = false) →
        splitAfterTWKids tw o parentO newTW
            (pre ++ plugNode frames (.splitter so skids) :: post) =
          some (pre ++ plugNode frames (.splitter so skids') :: post) := by
  intro frames
  induction frames with
  | nil =>
      intro _ parentO pre post hpre
      simp only [plugNode]
      rw [splitAfterTWKids_skip tw o parentO newTW pre _ hpre]
      rw [splitAfterTWKids_descend tw o parentO so newTW skids skids' post hin]
      rfl
  | cons f fs ih =>
      intro hfr parentO pre post hpre
      simp only [plugNode]
      rw [splitAfterTWKids_skip tw o parentO newTW pre _ hpre]
      rw [splitAfterTWKids_descend tw o parentO f.orient newTW _ _ post
        (ih (fun g hg => hfr g (by simp [hg])) f.orient f.pre f.post
          (hfr f (by simp)))]
      rfl

/-- State-level split through a chain of ancestor splitters. -/
theorem splitAfterTabWidget_plug (st : State) (tw : Nat) (o : SplitOrientation)
    (frames : List Frame) (so : SplitOrientation) (skids skids' : List InfoNode)
    (hroot : st.rootInfoNode = plugNode frames (.splitter so skids))
    (hin : splitAfterTWKids tw o so
      (createTabWidgetInfo st.tabWidgetIdCounter []) skids = some skids')
    (hfr : ∀ f ∈ frames, ∀ k ∈ f.pre, containsTabWidget tw k = false) :
    splitAfterTabWidget st tw o =
      ({ st with
          rootInfoNode := plugNode frames (.splitter so skids'),
          tabWidgetIdCounter := st.tabWidgetIdCounter + 1 },
       some (st.tabWidgetIdCounter + 1)) := by
  cases frames with
  | nil =>
      simp only [plugNode] at hroot ⊢
      simp only [splitAfterTabWidget, hroot, hin]
  | cons f fs =>
      simp only [plugNode] at hroot ⊢
      have hkids := splitAfterTWKids_plug tw o
        (createTabWidgetInfo st.tabWidgetIdCounter []) so skids skids' hin fs
        (fun g hg => hfr g (by simp [hg])) f.orient f.pre f.post
        (hfr f (by simp))
      simp only [splitAfterTabWidget, hroot, hkids]

/-- Materialisation passes through a chain free of the fresh widget id. -/
theorem materializeEmptyNode_plug (nid t c : Nat) :
    ∀ (frames : List Frame) (X : InfoNode),
      (∀ f ∈ frames, ∀ k ∈ f.pre ++ f.post, containsTabWidget nid k = false) →
      materializeEmptyNode nid t c (plugNode frames X) =
        plugNode frames (materializeEmptyNode nid t c X) := by
  intro frames
  induction frames with
  | nil => intro X _; simp only [plugNode]
  | cons f fs ih =>
      intro X hfr
      simp only [plugNode]
      rw [materializeEmptyNode, materializeEmptyList_append,
        materializeEmptyList]
      rw [(materializeEmptyNode_id_of_not_contains nid t c).2 f.pre
        (fun k hk => hfr f (by simp) k (List.mem_append.mpr (Or.inl hk)))]
      rw [(materializeEmptyNode_id_of_not_contains nid t c).2 f.post
        (fun k hk => hfr f (by simp) k (List.mem_append.mpr (Or.inr hk)))]
      rw [ih X (fun g hg => hfr g (by simp [hg]))]

/-- The close scan reaches the merge site at any depth when every left
sibling along the chain is free of the content. -/
theorem closeMergeScan_plug (c : Nat) (so : SplitOrientation)
    (skids skids' : List InfoNode)
    (hin : closeMergeScan c [] skids = some (.ok skids'))
    (hcont : containsTabContent c (.splitter so skids) = true) :
    ∀ (frames : List Frame),
      (∀ f ∈ frames, ∀ k ∈ f.pre, containsTabContent c k = false) →
      ∀ (pre post : List InfoNode),
        (∀ k ∈ pre, containsTabContent c k = false) →
        closeMergeScan c []
            (pre ++ plugNode frames (.splitter so skids) :: post) =
          some (.ok (pre ++ plugNode frames (.splitter so skids') :: post)) := by
  intro frames
  induction frames with
  | nil =>
      intro _ pre post hpre
      simp only [plugNode]
      exact closeMergeScan_descend c so skids skids' pre post hpre hcont hin
  | cons f fs ih =>
      intro hfr pre post hpre
      simp only [plugNode]
      refine closeMergeScan_descend c f.orient _ _ pre post hpre ?_ ?_
      · have hc := containsTC_plug_true c (f :: fs) (.splitter so skids)
          hfr hcont
        simp only [plugNode] at hc
        exact hc
      · exact ih (fun g hg => hfr g (by simp [hg])) f.pre f.post
          (hfr f (by simp))

/-- State-level close through a chain: merge at the nested site, then the
collapse pass over the whole tree. -/
theorem closeSplitAtTabContent_plug (st : State) (c : Nat)
    (frames : List Frame) (so : SplitOrientation)
    (skids skids' : List InfoNode)
    (hroot : st.rootInfoNode = plugNode frames (.splitter so skids))
    (hin : closeMergeScan c [] skids = some (.ok skids'))
    (hcont : containsTabContent c (.splitter so skids) = true)
    (hfr : ∀ f ∈ frames, ∀ k ∈ f.pre, containsTabContent c k = false) :
    closeSplitAtTabContent st c =
      .ok { st with rootInfoNode :=
        removeRedundantSplitters (plugNode frames (.splitter so skids')) } := by
  cases frames with
  | nil =>
      simp only [plugNode] at hroot ⊢
      simp only [closeSplitAtTabContent, hroot, hin]
  | cons f fs =>
      simp only [plugNode] at hroot ⊢
      have hscan := closeMergeScan_plug c so skids skids' hin hcont fs
        (fun g hg => hfr g (by simp [hg])) f.pre f.post (hfr f (by simp))
      simp only [closeSplitAtTabContent, hroot, hscan]

/-- After a same-axis split of a group at any depth and the empty pane's
materialisation, the tree holds the fresh group right after the target. -/
theorem roundtrip_sameAxis_setup (st : State) (tw : Nat) (ch : List TabInfo)
    (et ec : Option Nat) (o : SplitOrientation) (cid : Nat)
    (frames : List Frame) (pre rest : List InfoNode)
    (hroot : st.rootInfoNode = plugNode frames
      (.splitter o (pre ++ .tabwidget tw ch et ec :: rest)))
    (hfrW : ∀ f ∈ frames, ∀ k ∈ f.pre, containsTabWidget tw k = false)
    (hpreW : ∀ k ∈ pre, containsTabWidget tw k = false)
    (hnid : containsTabWidget (st.tabWidgetIdCounter + 1) st.rootInfoNode = false) :
    materializeEmpty (splitAfterTabWidget st tw o).1
        (st.tabWidgetIdCounter + 1) cid =
      { st with
          rootInfoNode := plugNode frames (.splitter o
            (pre ++ .tabwidget tw ch et ec ::
              .tabwidget (st.tabWidgetIdCounter + 1) []
                (some (st.tabIdCounter + 1)) (some cid) :: rest)),
          tabWidgetIdCounter := st.tabWidgetIdCounter + 1,
          tabIdCounter := st.tabIdCounter + 1 } := by
  have hsplitK := (splitAfterTWKids_at_target tw o
    (createTabWidgetInfo st.tabWidgetIdCounter []) ch et ec pre rest hpreW).1
  have hs := splitAfterTabWidget_plug st tw o frames o _ _ hroot hsplitK hfrW
  rw [hs]
  rw [hroot] at hnid
  obtain ⟨hsiteN, hframesN⟩ := containsTW_plug_false
    (st.tabWidgetIdCounter + 1) frames _ hnid
  have hfindN := findTW_none_of_not_contains _ _ hsiteN
  rw [findTabWidgetInfoByTabWidget] at hfindN
  have hmem := findTWList_none_mem (st.tabWidgetIdCounter + 1) _ hfindN
  have hmatpre : materializeEmptyList (st.tabWidgetIdCounter + 1)
      (st.tabIdCounter + 1) cid pre = pre :=
    (materializeEmptyNode_id_of_not_contains _ _ _).2 pre
      (fun k hk => by
        rw [containsTabWidget, hmem k (by simp [hk])]
        rfl)
  have hmatG : materializeEmptyNode (st.tabWidgetIdCounter + 1)
      (st.tabIdCounter + 1) cid (.tabwidget tw ch et ec) =
      .tabwidget tw ch et ec :=
    (materializeEmptyNode_id_of_not_contains _ _ _).1 _
      (by rw [containsTabWidget, hmem _ (by simp)]; rfl)
  have hmatrest : materializeEmptyList (st.tabWidgetIdCounter + 1)
      (st.tabIdCounter + 1) cid rest = rest :=
    (materializeEmptyNode_id_of_not_contains _ _ _).2 rest
      (fun k hk => by
        rw [containsTabWidget, hmem k (by simp [hk])]
        rfl)
  have hfreshm : materializeEmptyNode (st.tabWidgetIdCounter + 1)
      (st.tabIdCounter + 1) cid
      (.tabwidget (st.tabWidgetIdCounter + 1) [] none none) =
      .tabwidget (st.tabWidgetIdCounter + 1) [] (some (st.tabIdCounter + 1))
        (some cid) := by
    rw [materializeEmptyNode]
    simp
  rw [materializeEmpty]
  simp only [createTabWidgetInfo]
  rw [materializeEmptyNode_plug _ _ _ frames _ hframesN]
  rw [materializeEmptyNode, materializeEmptyList_append, hmatpre,
    materializeEmptyList, hmatG, materializeEmptyList, hfreshm, hmatrest]

/-- Round trip, same-axis parent at any depth, target the last child:
restored exactly. -/
theorem roundtrip_sameAxis_last (st : State) (tw : Nat) (ch : List TabInfo)
    (et ec : Option Nat) (o : SplitOrientation) (cid : Nat)
    (frames : List Frame) (pre : List InfoNode)
    (hroot : st.rootInfoNode = plugNode frames
      (.splitter o (pre ++ [.tabwidget tw ch et ec])))
    (hfrW : ∀ f ∈ frames, ∀ k ∈ f.pre, containsTabWidget tw k = false)
    (hpreW : ∀ k ∈ pre, containsTabWidget tw k = false)
    (hnid : containsTabWidget (st.tabWidgetIdCounter + 1) st.rootInfoNode = false)
    (hcid : containsTabContent cid st.rootInfoNode = false)
    (hinv : nodeInv st.rootInfoNode = true) :
    closeSplitAtTabContent
        (materializeEmpty (splitAfterTabWidget st tw o).1
          (st.tabWidgetIdCounter + 1) cid) cid =
      .ok { materializeEmpty (splitAfterTabWidget st tw o).1
              (st.tabWidgetIdCounter + 1) cid with
            rootInfoNode := st.rootInfoNode } := by
  have hsetup := roundtrip_sameAxis_setup st tw ch et ec o cid frames pre []
    hroot hfrW hpreW hnid
  rw [hsetup]
  have hcid' := hcid
  rw [hroot] at hcid'
  obtain ⟨hsiteC, hframesC⟩ := containsTC_plug_false cid frames _ hcid'
  have hfindc := findTC_none_of_not_contains cid _ hsiteC
  rw [findTabWidgetInfoByTabContent] at hfindc
  have hcmem := findTCList_none_mem cid _ hfindc
  have hpre1 : ∀ k ∈ pre ++ [InfoNode.tabwidget tw ch et ec],
      containsTabContent cid k = false := by
    intro k hk
    rw [containsTabContent, hcmem k hk]
    rfl
  have hcont : containsTabContent cid
      (.tabwidget (st.tabWidgetIdCounter + 1) []
        (some (st.tabIdCounter + 1)) (some cid)) = true := by
    simp [containsTabContent, findTabWidgetInfoByTabContent]
  have hscan := closeMergeScan_locate cid (st.tabWidgetIdCounter + 1) []
    (some (st.tabIdCounter + 1)) (some cid)
    (pre ++ [.tabwidget tw ch et ec]) [] hpre1 hcont
  rw [List.append_assoc] at hscan
  simp only [List.singleton_append] at hscan
  have hidx : (pre ++ [InfoNode.tabwidget tw ch et ec]).length - 1 =
      pre.length := by
    simp
  have hmerge : mergeAtTabWidget
      (pre ++ .tabwidget tw ch et ec ::
        .tabwidget (st.tabWidgetIdCounter + 1) []
          (some (st.tabIdCounter + 1)) (some cid) :: [])
      (pre ++ [InfoNode.tabwidget tw ch et ec]).length =
      .ok (pre ++ [.tabwidget tw ch et ec]) := by
    rw [mergeAtTabWidget]
    rw [if_neg (by simp)]
    rw [if_pos (by simp)]
    rw [hidx]
    have := mergeAtIndexPair_group_group pre tw ch et ec
      (st.tabWidgetIdCounter + 1) [] (some (st.tabIdCounter + 1)) (some cid) []
    simpa using this
  have hin : closeMergeScan cid []
      (pre ++ .tabwidget tw ch et ec ::
        .tabwidget (st.tabWidgetIdCounter + 1) []
          (some (st.tabIdCounter + 1)) (some cid) :: []) =
      some (.ok (pre ++ [.tabwidget tw ch et ec])) := by
    rw [hscan, hmerge]
  have hcontS : containsTabContent cid
      (.splitter o (pre ++ .tabwidget tw ch et ec ::
        .tabwidget (st.tabWidgetIdCounter + 1) []
          (some (st.tabIdCounter + 1)) (some cid) :: [])) = true := by
    have h0 := containsTC_splitter_of_member cid o
      (pre ++ [.tabwidget tw ch et ec])
      (.tabwidget (st.tabWidgetIdCounter + 1) []
        (some (st.tabIdCounter + 1)) (some cid)) [] hpre1 hcont
    rw [List.append_assoc] at h0
    simpa using h0
  have hclose := closeSplitAtTabContent_plug
    { st with
        rootInfoNode := plugNode frames (.splitter o
          (pre ++ .tabwidget tw ch et ec ::
            .tabwidget (st.tabWidgetIdCounter + 1) []
              (some (st.tabIdCounter + 1)) (some cid) :: [])),
        tabWidgetIdCounter := st.tabWidgetIdCounter + 1,
        tabIdCounter := st.tabIdCounter + 1 }
    cid frames o _ _ rfl hin hcontS
    (fun f hf k hk => hframesC f hf k (List.mem_append.mpr (Or.inl hk)))
  rw [hclose]
  rw [← hroot]
  rw [removeRedundantSplitters_id_of_nodeInv _ hinv]

/-- Round trip, same-axis parent at any depth, a tab-group right sibling:
the sibling's slots are re-homed into the fresh group (identity lost,
shape kept). -/
theorem roundtrip_sameAxis_groupRight (st : State) (tw : Nat)
    (ch : List TabInfo) (et ec : Option Nat) (o : SplitOrientation) (cid : Nat)
    (frames : List Frame) (pre : List InfoNode) (rw2 : Nat)
    (rch : List TabInfo) (re1 re2 : Option Nat) (rest2 : List InfoNode)
    (hroot : st.rootInfoNode = plugNode frames (.splitter o
      (pre ++ .tabwidget tw ch et ec :: .tabwidget rw2 rch re1 re2 :: rest2)))
    (hfrW : ∀ f ∈ frames, ∀ k ∈ f.pre, containsTabWidget tw k = false)
    (hpreW : ∀ k ∈ pre, containsTabWidget tw k = false)
    (hnid : containsTabWidget (st.tabWidgetIdCounter + 1) st.rootInfoNode = false)
    (hcid : containsTabContent cid st.rootInfoNode = false)
    (hinv : nodeInv st.rootInfoNode = true) :
    closeSplitAtTabContent
        (materializeEmpty (splitAfterTabWidget st tw o).1
          (st.tabWidgetIdCounter + 1) cid) cid =
      .ok { materializeEmpty (splitAfterTabWidget st tw o).1
              (st.tabWidgetIdCounter + 1) cid with
            rootInfoNode := plugNode frames (.splitter o
              (pre ++ .tabwidget tw ch et ec ::
                .tabwidget (st.tabWidgetIdCounter + 1) rch
                  (some (st.tabIdCounter + 1)) (some cid) :: rest2)) } ∧
    stripWidgetIdentity (plugNode frames (.splitter o
        (pre ++ .tabwidget tw ch et ec ::
          .tabwidget (st.tabWidgetIdCounter + 1) rch
            (some (st.tabIdCounter + 1)) (some cid) :: rest2))) =
      stripWidgetIdentity st.rootInfoNode := by
  constructor
  · have hsetup := roundtrip_sameAxis_setup st tw ch et ec o cid frames pre
      (.tabwidget rw2 rch re1 re2 :: rest2) hroot hfrW hpreW hnid
    rw [hsetup]
    have hcid' := hcid
    rw [hroot] at hcid'
    obtain ⟨hsiteC, hframesC⟩ := containsTC_plug_false cid frames _ hcid'
    have hfindc := findTC_none_of_not_contains cid _ hsiteC
    rw [findTabWidgetInfoByTabContent] at hfindc
    have hcmem := findTCList_none_mem cid _ hfindc
    have hpre1 : ∀ k ∈ pre ++ [InfoNode.tabwidget tw ch et ec],
        containsTabContent cid k = false := by
      intro k hk
      rw [containsTabContent, hcmem k ?_]
      · rfl
      · rcases List.mem_append.mp hk with h1 | h1
        · exact List.mem_append.mpr (Or.inl h1)
        · simp at h1
          subst h1
          simp
    have hcont : containsTabContent cid
        (.tabwidget (st.tabWidgetIdCounter + 1) []
          (some (st.tabIdCounter + 1)) (some cid)) = true := by
      simp [containsTabContent, findTabWidgetInfoByTabContent]
    have hscan := closeMergeScan_locate cid (st.tabWidgetIdCounter + 1) []
      (some (st.tabIdCounter + 1)) (some cid)
      (pre ++ [.tabwidget tw ch et ec])
      (.tabwidget rw2 rch re1 re2 :: rest2) hpre1 hcont
    rw [List.append_assoc] at hscan
    simp only [List.singleton_append] at hscan
    have hmerge : mergeAtTabWidget
        (pre ++ .tabwidget tw ch et ec ::
          .tabwidget (st.tabWidgetIdCounter + 1) []
            (some (st.tabIdCounter + 1)) (some cid) ::
          .tabwidget rw2 rch re1 re2 :: rest2)
        (pre ++ [InfoNode.tabwidget tw ch et ec]).length =
        .ok (pre ++ .tabwidget tw ch et ec ::
          .tabwidget (st.tabWidgetIdCounter + 1) rch
            (some (st.tabIdCounter + 1)) (some cid) :: rest2) := by
      rw [mergeAtTabWidget]
      rw [if_neg (by simp; omega)]
      rw [if_neg (by simp; omega)]
      have := mergeAtIndexPair_group_group (pre ++ [.tabwidget tw ch et ec])
        (st.tabWidgetIdCounter + 1) [] (some (st.tabIdCounter + 1)) (some cid)
        rw2 rch re1 re2 rest2
      simpa using this
    have hin : closeMergeScan cid []
        (pre ++ .tabwidget tw ch et ec ::
          .tabwidget (st.tabWidgetIdCounter + 1) []
            (some (st.tabIdCounter + 1)) (some cid) ::
          .tabwidget rw2 rch re1 re2 :: rest2) =
        some (.ok (pre ++ .tabwidget tw ch et ec ::
          .tabwidget (st.tabWidgetIdCounter + 1) rch
            (some (st.tabIdCounter + 1)) (some cid) :: rest2)) := by
      rw [hscan, hmerge]
    have hcontS : containsTabContent cid
        (.splitter o (pre ++ .tabwidget tw ch et ec ::
          .tabwidget (st.tabWidgetIdCounter + 1) []
            (some (st.tabIdCounter + 1)) (some cid) ::
          .tabwidget rw2 rch re1 re2 :: rest2)) = true := by
      have h0 := containsTC_splitter_of_member cid o
        (pre ++ [.tabwidget tw ch et ec])
        (.tabwidget (st.tabWidgetIdCounter + 1) []
          (some (st.tabIdCounter + 1)) (some cid))
        (.tabwidget rw2 rch re1 re2 :: rest2) hpre1 hcont
      rw [List.append_assoc] at h0
      simpa using h0
    have hclose := closeSplitAtTabContent_plug
      { st with
          rootInfoNode := plugNode frames (.splitter o
            (pre ++ .tabwidget tw ch et ec ::
              .tabwidget (st.tabWidgetIdCounter + 1) []
                (some (st.tabIdCounter + 1)) (some cid) ::
              .tabwidget rw2 rch re1 re2 :: rest2)),
          tabWidgetIdCounter := st.tabWidgetIdCounter + 1,
          tabIdCounter := st.tabIdCounter + 1 }
      cid frames o _ _ rfl hin hcontS
      (fun f hf k hk => hframesC f hf k (List.mem_append.mpr (Or.inl hk)))
    rw [hclose]
    have hinv' := hinv
    rw [hroot] at hinv'
    obtain ⟨hsiteI, hframesI⟩ := nodeInv_plug_elim frames _ hinv'
    have hsiteI2 : nodeInv (.splitter o
        (pre ++ .tabwidget tw ch et ec ::
          .tabwidget (st.tabWidgetIdCounter + 1) rch
            (some (st.tabIdCounter + 1)) (some cid) :: rest2)) = true := by
      rw [nodeInv] at hsiteI ⊢
      simp only [Bool.and_eq_true, decide_eq_true_eq] at hsiteI ⊢
      obtain ⟨hl, hli⟩ := hsiteI
      rw [nodeInvList_append, nodeInvList, nodeInvList] at hli
      simp only [Bool.and_eq_true] at hli
      refine ⟨by simp at hl ⊢; omega, ?_⟩
      rw [nodeInvList_append, nodeInvList, nodeInvList]
      simp only [Bool.and_eq_true]
      exact ⟨hli.1, hli.2.1, by rw [nodeInv], hli.2.2.2⟩
    rw [removeRedundantSplitters_id_of_nodeInv _
      (nodeInv_plug_intro frames _ hsiteI2 hframesI)]
  · rw [hroot]
    exact strip_plug_congr frames _ _ (by
      simp [stripWidgetIdentity, stripWidgetIdentityList,
        stripWidgetIdentityList_append])

/-- Round trip, same-axis parent at any depth, a splitter right sibling:
restored exactly (the fresh group's empty slot list is absorbed into the
sibling's leftmost group, changing nothing). -/
theorem roundtrip_sameAxis_splitterRight (st : State) (tw : Nat)
    (ch : List TabInfo) (et ec : Option Nat) (o ro : SplitOrientation)
    (cid : Nat) (frames : List Frame) (pre rkids rest2 : List InfoNode)
    (hroot : st.rootInfoNode = plugNode frames (.splitter o
      (pre ++ .tabwidget tw ch et ec :: .splitter ro rkids :: rest2)))
    (hfrW : ∀ f ∈ frames, ∀ k ∈ f.pre, containsTabWidget tw k = false)
    (hpreW : ∀ k ∈ pre, containsTabWidget tw k = false)
    (hnid : containsTabWidget (st.tabWidgetIdCounter + 1) st.rootInfoNode = false)
    (hcid : containsTabContent cid st.rootInfoNode = false)
    (hinv : nodeInv st.rootInfoNode = true) :
    closeSplitAtTabContent
        (materializeEmpty (splitAfterTabWidget st tw o).1
          (st.tabWidgetIdCounter + 1) cid) cid =
      .ok { materializeEmpty (splitAfterTabWidget st tw o).1
              (st.tabWidgetIdCounter + 1) cid with
            rootInfoNode := st.rootInfoNode } := by
  have hsetup := roundtrip_sameAxis_setup st tw ch et ec o cid frames pre
    (.splitter ro rkids :: rest2) hroot hfrW hpreW hnid
  rw [hsetup]
  have hinv' := hinv
  rw [hroot] at hinv'
  obtain ⟨hsiteI, hframesI⟩ := nodeInv_plug_elim frames _ hinv'
  rw [nodeInv] at hsiteI
  simp only [Bool.and_eq_true, decide_eq_true_eq] at hsiteI
  obtain ⟨hslen, hslist⟩ := hsiteI
  rw [nodeInvList_append, nodeInvList, nodeInvList] at hslist
  simp only [Bool.and_eq_true] at hslist
  have hSinv := hslist.2.2.1
  obtain ⟨i, hfirst⟩ := firstTabWidgetInfo_some_of_inv.1 _ hSinv
  have happ : appendToFirstTabWidget [] (.splitter ro rkids) =
      some (.splitter ro rkids) :=
    appendToFirstTabWidget_nil_id.1 _ i hfirst
  have hcid' := hcid
  rw [hroot] at hcid'
  obtain ⟨hsiteC, hframesC⟩ := containsTC_plug_false cid frames _ hcid'
  have hfindc := findTC_none_of_not_contains cid _ hsiteC
  rw [findTabWidgetInfoByTabContent] at hfindc
  have hcmem := findTCList_none_mem cid _ hfindc
  have hpre1 : ∀ k ∈ pre ++ [InfoNode.tabwidget tw ch et ec],
      containsTabContent cid k = false := by
    intro k hk
    rw [containsTabContent, hcmem k ?_]
    · rfl
    · rcases List.mem_append.mp hk with h1 | h1
      · exact List.mem_append.mpr (Or.inl h1)
      · simp at h1
        subst h1
        simp
  have hcont : containsTabContent cid
      (.tabwidget (st.tabWidgetIdCounter + 1) []
        (some (st.tabIdCounter + 1)) (some cid)) = true := by
    simp [containsTabContent, findTabWidgetInfoByTabContent]
  have hscan := closeMergeScan_locate cid (st.tabWidgetIdCounter + 1) []
    (some (st.tabIdCounter + 1)) (some cid)
    (pre ++ [.tabwidget tw ch et ec]) (.splitter ro rkids :: rest2)
    hpre1 hcont
  rw [List.append_assoc] at hscan
  simp only [List.singleton_append] at hscan
  have hmerge : mergeAtTabWidget
      (pre ++ .tabwidget tw ch et ec ::
        .tabwidget (st.tabWidgetIdCounter + 1) []
          (some (st.tabIdCounter + 1)) (some cid) ::
        .splitter ro rkids :: rest2)
      (pre ++ [InfoNode.tabwidget tw ch et ec]).length =
      .ok (pre ++ .tabwidget tw ch et ec :: .splitter ro rkids :: rest2) := by
    rw [mergeAtTabWidget]
    rw [if_neg (by simp; omega)]
    rw [if_neg (by simp; omega)]
    have := mergeAtIndexPair_group_splitter (pre ++ [.tabwidget tw ch et ec])
      (st.tabWidgetIdCounter + 1) [] (some (st.tabIdCounter + 1)) (some cid)
      ro rkids (.splitter ro rkids) rest2 happ
    simpa using this
  have hin : closeMergeScan cid []
      (pre ++ .tabwidget tw ch et ec ::
        .tabwidget (st.tabWidgetIdCounter + 1) []
          (some (st.tabIdCounter + 1)) (some cid) ::
        .splitter ro rkids :: rest2) =
      some (.ok (pre ++ .tabwidget tw ch et ec ::
        .splitter ro rkids :: rest2)) := by
    rw [hscan, hmerge]
  have hcontS : containsTabContent cid
      (.splitter o (pre ++ .tabwidget tw ch et ec ::
        .tabwidget (st.tabWidgetIdCounter + 1) []
          (some (st.tabIdCounter + 1)) (some cid) ::
        .splitter ro rkids :: rest2)) = true := by
    have h0 := containsTC_splitter_of_member cid o
      (pre ++ [.tabwidget tw ch et ec])
      (.tabwidget (st.tabWidgetIdCounter + 1) []
        (some (st.tabIdCounter + 1)) (some cid))
      (.splitter ro rkids :: rest2) hpre1 hcont
    rw [List.append_assoc] at h0
    simpa using h0
  have hclose := closeSplitAtTabContent_plug
    { st with
        rootInfoNode := plugNode frames (.splitter o
          (pre ++ .tabwidget tw ch et ec ::
            .tabwidget (st.tabWidgetIdCounter + 1) []
              (some (st.tabIdCounter + 1)) (some cid) ::
            .splitter ro rkids :: rest2)),
        tabWidgetIdCounter := st.tabWidgetIdCounter + 1,
        tabIdCounter := st.tabIdCounter + 1 }
    cid frames o _ _ rfl hin hcontS
    (fun f hf k hk => hframesC f hf k (List.mem_append.mpr (Or.inl hk)))
  rw [hclose]
  rw [← hroot]
  rw [removeRedundantSplitters_id_of_nodeInv _ hinv]

/-- After a cross-axis split of a group at any depth and the empty pane's
materialisation, the target is wrapped together with the fresh group in a
splitter of the requested axis. -/
theorem roundtrip_diffAxis_setup (st : State) (tw : Nat) (ch : List TabInfo)
    (et ec : Option Nat) (po o : SplitOrientation) (cid : Nat)
    (frames : List Frame) (pre rest : List InfoNode)
    (hne : po ≠ o)
    (hroot : st.rootInfoNode = plugNode frames
      (.splitter po (pre ++ .tabwidget tw ch et ec :: rest)))
    (hfrW : ∀ f ∈ frames, ∀ k ∈ f.pre, containsTabWidget tw k = false)
    (hpreW : ∀ k ∈ pre, containsTabWidget tw k = false)
    (hnid : containsTabWidget (st.tabWidgetIdCounter + 1) st.rootInfoNode = false) :
    materializeEmpty (splitAfterTabWidget st tw o).1
        (st.tabWidgetIdCounter + 1) cid =
      { st with
          rootInfoNode := plugNode frames (.splitter po (pre ++
            .splitter o [.tabwidget tw ch et ec,
              .tabwidget (st.tabWidgetIdCounter + 1) []
                (some (st.tabIdCounter + 1)) (some cid)] :: rest)),
          tabWidgetIdCounter := st.tabWidgetIdCounter + 1,
          tabIdCounter := st.tabIdCounter + 1 } := by
  have hsplitK := (splitAfterTWKids_at_target tw o
    (createTabWidgetInfo st.tabWidgetIdCounter []) ch et ec pre rest hpreW).2
    po hne
  have hs := splitAfterTabWidget_plug st tw o frames po _ _ hroot hsplitK hfrW
  rw [hs]
  rw [hroot] at hnid
  obtain ⟨hsiteN, hframesN⟩ := containsTW_plug_false
    (st.tabWidgetIdCounter + 1) frames _ hnid
  have hfindN := findTW_none_of_not_contains _ _ hsiteN
  rw [findTabWidgetInfoByTabWidget] at hfindN
  have hmem := findTWList_none_mem (st.tabWidgetIdCounter + 1) _ hfindN
  have hmatpre : materializeEmptyList (st.tabWidgetIdCounter + 1)
      (st.tabIdCounter + 1) cid pre = pre :=
    (materializeEmptyNode_id_of_not_contains _ _ _).2 pre
      (fun k hk => by
        rw [containsTabWidget, hmem k (by simp [hk])]
        rfl)
  have hmatG : materializeEmptyNode (st.tabWidgetIdCounter + 1)
      (st.tabIdCounter + 1) cid (.tabwidget tw ch et ec) =
      .tabwidget tw ch et ec :=
    (materializeEmptyNode_id_of_not_contains _ _ _).1 _
      (by rw [containsTabWidget, hmem _ (by simp)]; rfl)
  have hmatrest : materializeEmptyList (st.tabWidgetIdCounter + 1)
      (st.tabIdCounter + 1) cid rest = rest :=
    (materializeEmptyNode_id_of_not_contains _ _ _).2 rest
      (fun k hk => by
        rw [containsTabWidget, hmem k (by simp [hk])]
        rfl)
  have hfreshm : materializeEmptyNode (st.tabWidgetIdCounter + 1)
      (st.tabIdCounter + 1) cid
      (.tabwidget (st.tabWidgetIdCounter + 1) [] none none) =
      .tabwidget (st.tabWidgetIdCounter + 1) [] (some (st.tabIdCounter + 1))
        (some cid) := by
    rw [materializeEmptyNode]
    simp
  rw [materializeEmpty]
  simp only [createTabWidgetInfo]
  rw [materializeEmptyNode_plug _ _ _ frames _ hframesN]
  rw [materializeEmptyNode, materializeEmptyList_append, hmatpre,
    materializeEmptyList, materializeEmptyNode, materializeEmptyList,
    hmatG, materializeEmptyList, hfreshm, materializeEmptyList, hmatrest]

/-- Round trip, differing axis at any depth: the wrapping splitter created
by the split is collapsed away again; restored exactly. -/
theorem roundtrip_diffAxis (st : State) (tw : Nat) (ch : List TabInfo)
    (et ec : Option Nat) (po o : SplitOrientation) (cid : Nat)
    (frames : List Frame) (pre rest : List InfoNode)
    (hne : po ≠ o)
    (hroot : st.rootInfoNode = plugNode frames
      (.splitter po (pre ++ .tabwidget tw ch et ec :: rest)))
    (hfrW : ∀ f ∈ frames, ∀ k ∈ f.pre, containsTabWidget tw k = false)
    (hpreW : ∀ k ∈ pre, containsTabWidget tw k = false)
    (hnid : containsTabWidget (st.tabWidgetIdCounter + 1) st.rootInfoNode = false)
    (hcid : containsTabContent cid st.rootInfoNode = false)
    (hinv : nodeInv st.rootInfoNode = true) :
    closeSplitAtTabContent
        (materializeEmpty (splitAfterTabWidget st tw o).1
          (st.tabWidgetIdCounter + 1) cid) cid =
      .ok { materializeEmpty (splitAfterTabWidget st tw o).1
              (st.tabWidgetIdCounter + 1) cid with
            rootInfoNode := st.rootInfoNode } := by
  have hsetup := roundtrip_diffAxis_setup st tw ch et ec po o cid frames pre
    rest hne hroot hfrW hpreW hnid
  rw [hsetup]
  have hcid' := hcid
  rw [hroot] at hcid'
  obtain ⟨hsiteC, hframesC⟩ := containsTC_plug_false cid frames _ hcid'
  have hfindc := findTC_none_of_not_contains cid _ hsiteC
  rw [findTabWidgetInfoByTabContent] at hfindc
  have hcmem := findTCList_none_mem cid _ hfindc
  have hpre1 : ∀ k ∈ pre, containsTabContent cid k = false := by
    intro k hk
    rw [containsTabContent, hcmem k (by simp [hk])]
    rfl
  have hGfree : findTabWidgetInfoByTabContent (.tabwidget tw ch et ec) cid =
      none := hcmem _ (by simp)
  have hcontF : containsTabContent cid
      (.tabwidget (st.tabWidgetIdCounter + 1) []
        (some (st.tabIdCounter + 1)) (some cid)) = true := by
    simp [containsTabContent, findTabWidgetInfoByTabContent]
  have hcontS : containsTabContent cid
      (.splitter o [.tabwidget tw ch et ec,
        .tabwidget (st.tabWidgetIdCounter + 1) []
          (some (st.tabIdCounter + 1)) (some cid)]) = true := by
    rw [containsTabContent, findTabWidgetInfoByTabContent]
    rw [findTabWidgetInfoByTabContentList, hGfree]
    rw [findTabWidgetInfoByTabContentList]
    simp [findTabWidgetInfoByTabContent]
  have hin : closeMergeScan cid []
      [InfoNode.tabwidget tw ch et ec,
        .tabwidget (st.tabWidgetIdCounter + 1) []
          (some (st.tabIdCounter + 1)) (some cid)] =
      some (.ok [.tabwidget tw ch et ec]) := by
    have hscan1 := closeMergeScan_locate cid (st.tabWidgetIdCounter + 1) []
      (some (st.tabIdCounter + 1)) (some cid)
      [.tabwidget tw ch et ec] []
      (by
        intro k hk
        simp at hk
        subst hk
        rw [containsTabContent, hGfree]
        rfl) hcontF
    have hmerge1 : mergeAtTabWidget
        ([InfoNode.tabwidget tw ch et ec] ++
          [InfoNode.tabwidget (st.tabWidgetIdCounter + 1) []
            (some (st.tabIdCounter + 1)) (some cid)])
        (List.length [InfoNode.tabwidget tw ch et ec]) =
        .ok [.tabwidget tw ch et ec] := by
      rw [mergeAtTabWidget]
      rw [if_neg (by simp)]
      rw [if_pos (by simp)]
      have := mergeAtIndexPair_group_group [] tw ch et ec
        (st.tabWidgetIdCounter + 1) [] (some (st.tabIdCounter + 1))
        (some cid) []
      simpa using this
    rw [show ([InfoNode.tabwidget tw ch et ec] ++
        [InfoNode.tabwidget (st.tabWidgetIdCounter + 1) []
          (some (st.tabIdCounter + 1)) (some cid)]) =
        [InfoNode.tabwidget tw ch et ec,
          InfoNode.tabwidget (st.tabWidgetIdCounter + 1) []
            (some (st.tabIdCounter + 1)) (some cid)] from rfl] at hscan1 hmerge1
    rw [hscan1, hmerge1]
  have hscanK := closeMergeScan_descend cid o
    [InfoNode.tabwidget tw ch et ec,
      .tabwidget (st.tabWidgetIdCounter + 1) []
        (some (st.tabIdCounter + 1)) (some cid)]
    [.tabwidget tw ch et ec] pre rest hpre1 hcontS hin
  have hcontSite : containsTabContent cid
      (.splitter po (pre ++ .splitter o
        [.tabwidget tw ch et ec,
          .tabwidget (st.tabWidgetIdCounter + 1) []
            (some (st.tabIdCounter + 1)) (some cid)] :: rest)) = true :=
    containsTC_splitter_of_member cid po pre _ rest hpre1 hcontS
  have hclose := closeSplitAtTabContent_plug
    { st with
        rootInfoNode := plugNode frames (.splitter po (pre ++
          .splitter o [.tabwidget tw ch et ec,
            .tabwidget (st.tabWidgetIdCounter + 1) []
              (some (st.tabIdCounter + 1)) (some cid)] :: rest)),
        tabWidgetIdCounter := st.tabWidgetIdCounter + 1,
        tabIdCounter := st.tabIdCounter + 1 }
    cid frames po _ _ rfl hscanK hcontSite
    (fun f hf k hk => hframesC f hf k (List.mem_append.mpr (Or.inl hk)))
  rw [hclose]
  have hinv' := hinv
  rw [hroot] at hinv'
  obtain ⟨hsiteI, hframesI⟩ := nodeInv_plug_elim frames _ hinv'
  rw [nodeInv] at hsiteI
  simp only [Bool.and_eq_true, decide_eq_true_eq] at hsiteI
  obtain ⟨hslen, hslist⟩ := hsiteI
  rw [nodeInvList_append, nodeInvList] at hslist
  simp only [Bool.and_eq_true] at hslist
  have hW : collapseChild (.splitter po (pre ++
      .splitter o [.tabwidget tw ch et ec] :: rest)) =
      .splitter po (pre ++ .tabwidget tw ch et ec :: rest) := by
    rw [collapseChild_splitter_of_ne_one po _ (by simp at hslen ⊢; omega)]
    rw [collapseChildren_append, collapseChildren_cons]
    rw [collapse_id_of_inv.2.1 pre hslist.1]
    rw [collapseChild]
    rw [collapse_id_of_inv.2.2 _ hslist.2.1]
    rw [collapse_id_of_inv.2.1 rest hslist.2.2]
  have hlenW : 2 ≤ (pre ++ InfoNode.splitter o
      [.tabwidget tw ch et ec] :: rest).length := by
    simp at hslen ⊢
    omega
  have hframesLen : ∀ f ∈ frames, 2 ≤ f.pre.length + 1 + f.post.length :=
    fun f hf => (hframesI f hf).1
  rw [removeRedundant_plug_eq_collapseChild frames po _ hlenW hframesLen]
  rw [collapseChild_plug frames _ _ hW hframesI]
  rw [← hroot]

/-- **C4** (counterexample to the original claim): splitting the first of
two groups under a same-axis splitter and closing the new empty pane does
not restore the original tree: the close merges the right sibling into the
fresh group, so the sibling's slots are re-homed into a different tab-group
(widget ids `[1, 3]` instead of `[1, 2]`). -/
theorem claim_C4_counterexample :
    closeSplitAtTabContent
        (materializeEmpty
          (splitAfterTabWidget
            ⟨.splitter .horizontal [.tabwidget 1 [⟨10, 100⟩] none none,
              .tabwidget 2 [⟨20, 200⟩] none none], 2, 2⟩ 1 .horizontal).1
          3 300) 300 =
      .ok ⟨.splitter .horizontal [.tabwidget 1 [⟨10, 100⟩] none none,
        .tabwidget 3 [⟨20, 200⟩] (some 3) (some 300)], 3, 3⟩ ∧
    InfoNode.splitter .horizontal [.tabwidget 1 [⟨10, 100⟩] none none,
        .tabwidget 3 [⟨20, 200⟩] (some 3) (some 300)] ≠
      InfoNode.splitter .horizontal [.tabwidget 1 [⟨10, 100⟩] none none,
        .tabwidget 2 [⟨20, 200⟩] none none] ∧
    getAllTabWidgets (.splitter .horizontal
        [.tabwidget 1 [⟨10, 100⟩] none none,
         .tabwidget 3 [⟨20, 200⟩] (some 3) (some 300)]) = [1, 3] ∧
    getAllTabWidgets (.splitter .horizontal
        [.tabwidget 1 [⟨10, 100⟩] none none,
         .tabwidget 2 [⟨20, 200⟩] none none]) = [1, 2] := by
  refine ⟨?_, by simp, ?_, ?_⟩
  · simp [splitAfterTabWidget, splitAfterTWKids, createTabWidgetInfo,
      materializeEmpty, materializeEmptyNode, materializeEmptyList,
      closeSplitAtTabContent, closeMergeScan, containsTabContent,
      findTabWidgetInfoByTabContent, findTabWidgetInfoByTabContentList,
      mergeAtTabWidget, mergeAtIndexPair, removeRedundantSplitters,
      collapseChildren, collapseChild]
  · simp [getAllTabWidgets, getAllTabWidgetsList]
  · simp [getAllTabWidgets, getAllTabWidgetsList]

/-- **C4** (amended): split-then-close of the fresh empty pane, with the
target tab-group at any depth (addressed by its chain of ancestor
splitters, target-free to the left along the chain), restores the original
tree exactly when the target is a root tab-group, the last child of its
same-axis parent splitter, directly followed by a splitter sibling, or
split on an axis differing from its parent's (the wrapping splitter is
collapsed away again).  When the target has a same-axis parent and a
tab-group sibling directly to its right, the close instead merges that
sibling into the fresh group: the sibling's slots are re-homed under the
fresh widget id, and only the identity-ignoring shape
(`stripWidgetIdentity`) of the original tree is restored. -/
theorem claim_C4 :
    (∀ (st : State) (w : Nat) (ch : List TabInfo) (et ec : Option Nat)
        (o : SplitOrientation) (cid : Nat),
      st.rootInfoNode = .tabwidget w ch et ec →
      containsTabContent cid st.rootInfoNode = false →
      containsTabWidget (st.tabWidgetIdCounter + 1) st.rootInfoNode = false →
      closeSplitAtTabContent
          (materializeEmpty (splitAfterTabWidget st w o).1
            (st.tabWidgetIdCounter + 1) cid) cid =
        .ok { materializeEmpty (splitAfterTabWidget st w o).1
                (st.tabWidgetIdCounter + 1) cid with
              rootInfoNode := st.rootInfoNode }) ∧
    (∀ (st : State) (tw : Nat) (ch : List TabInfo) (et ec : Option Nat)
        (o : SplitOrientation) (cid : Nat) (frames : List Frame)
        (pre : List InfoNode),
      st.rootInfoNode = plugNode frames
        (.splitter o (pre ++ [.tabwidget tw ch et ec])) →
      (∀ f ∈ frames, ∀ k ∈ f.pre, containsTabWidget tw k = false) →
      (∀ k ∈ pre, containsTabWidget tw k = false) →
      containsTabWidget (st.tabWidgetIdCounter + 1) st.rootInfoNode = false →
      containsTabContent cid st.rootInfoNode = false →
      nodeInv st.rootInfoNode = true →
      closeSplitAtTabContent
          (materializeEmpty (splitAfterTabWidget st tw o).1
            (st.tabWidgetIdCounter + 1) cid) cid =
        .ok { materializeEmpty (splitAfterTabWidget st tw o).1
                (st.tabWidgetIdCounter + 1) cid with
              rootInfoNode := st.rootInfoNode }) ∧
    (∀ (st : State) (tw : Nat) (ch : List TabInfo) (et ec : Option Nat)
        (o ro : SplitOrientation) (cid : Nat) (frames : List Frame)
        (pre rkids rest2 : List InfoNode),
      st.rootInfoNode = plugNode frames (.splitter o
        (pre ++ .tabwidget tw ch et ec :: .splitter ro rkids :: rest2)) →
      (∀ f ∈ frames, ∀ k ∈ f.pre, containsTabWidget tw k = false) →
      (∀ k ∈ pre, containsTabWidget tw k = false) →
      containsTabWidget (st.tabWidgetIdCounter + 1) st.rootInfoNode = false →
      containsTabContent cid st.rootInfoNode = false →
      nodeInv st.rootInfoNode = true →
      closeSplitAtTabContent
          (materializeEmpty (splitAfterTabWidget st tw o).1
            (st.tabWidgetIdCounter + 1) cid) cid =
        .ok { materializeEmpty (splitAfterTabWidget st tw o).1
                (st.tabWidgetIdCounter + 1) cid with
              rootInfoNode := st.rootInfoNode }) ∧
    (∀ (st : State) (tw : Nat) (ch : List TabInfo) (et ec : Option Nat)
        (po o : SplitOrientation) (cid : Nat) (frames : List Frame)
        (pre rest : List InfoNode),
      po ≠ o →
      st.rootInfoNode = plugNode frames
        (.splitter po (pre ++ .tabwidget tw ch et ec :: rest)) →
      (∀ f ∈ frames, ∀ k ∈ f.pre, containsTabWidget tw k = false) →
      (∀ k ∈ pre, containsTabWidget tw k = false) →
      containsTabWidget (st.tabWidgetIdCounter + 1) st.rootInfoNode = false →
      containsTabContent cid st.rootInfoNode = false →
      nodeInv st.rootInfoNode = true →
      closeSplitAtTabContent
          (materializeEmpty (splitAfterTabWidget st tw o).1
            (st.tabWidgetIdCounter + 1) cid) cid =
        .ok { materializeEmpty (splitAfterTabWidget st tw o).1
                (st.tabWidgetIdCounter + 1) cid with
              rootInfoNode := st.rootInfoNode }) ∧
    (∀ (st : State) (tw : Nat) (ch : List TabInfo) (et ec : Option Nat)
        (o : SplitOrientation) (cid : Nat) (frames : List Frame)
        (pre : List InfoNode) (rw2 : Nat) (rch : List TabInfo)
        (re1 re2 : Option Nat) (rest2 : List InfoNode),
      st.rootInfoNode = plugNode frames (.splitter o
        (pre ++ .tabwidget tw ch et ec :: .tabwidget rw2 rch re1 re2 :: rest2)) →
      (∀ f ∈ frames, ∀ k ∈ f.pre, containsTabWidget tw k = false) →
      (∀ k ∈ pre, containsTabWidget tw k = false) →
      containsTabWidget (st.tabWidgetIdCounter + 1) st.rootInfoNode = false →
      containsTabContent cid st.rootInfoNode = false →
      nodeInv st.rootInfoNode = true →
      closeSplitAtTabContent
          (materializeEmpty (splitAfterTabWidget st tw o).1
            (st.tabWidgetIdCounter + 1) cid) cid =
        .ok { materializeEmpty (splitAfterTabWidget st tw o).1
                (st.tabWidgetIdCounter + 1) cid with
              rootInfoNode := plugNode frames (.splitter o
                (pre ++ .tabwidget tw ch et ec ::
                  .tabwidget (st.tabWidgetIdCounter + 1) rch
                    (some (st.tabIdCounter + 1)) (some cid) :: rest2)) } ∧
        stripWidgetIdentity (plugNode frames (.splitter o
            (pre ++ .tabwidget tw ch et ec ::
              .tabwidget (st.tabWidgetIdCounter + 1) rch
                (some (st.tabIdCounter + 1)) (some cid) :: rest2))) =
          stripWidgetIdentity st.rootInfoNode) := by
  refine ⟨?_, ?_, ?_, ?_, ?_⟩
  · intro st w ch et ec o cid h1 h2 h3
    exact roundtrip_root_group st w ch et ec o cid h1 h2 h3
  · intro st tw ch et ec o cid frames pre h1 h2 h3 h4 h5 h6
    exact roundtrip_sameAxis_last st tw ch et ec o cid frames pre
      h1 h2 h3 h4 h5 h6
  · intro st tw ch et ec o ro cid frames pre rkids rest2 h1 h2 h3 h4 h5 h6
    exact roundtrip_sameAxis_splitterRight st tw ch et ec o ro cid frames
      pre rkids rest2 h1 h2 h3 h4 h5 h6
  · intro st tw ch et ec po o cid frames pre rest hne h1 h2 h3 h4 h5 h6
    exact roundtrip_diffAxis st tw ch et ec po o cid frames pre rest hne
      h1 h2 h3 h4 h5 h6
  · intro st tw ch et ec o cid frames pre rw2 rch re1 re2 rest2 h1 h2 h3 h4 h5 h6
    exact roundtrip_sameAxis_groupRight st tw ch et ec o cid frames pre
      rw2 rch re1 re2 rest2 h1 h2 h3 h4 h5 h6

/-- **C4** witness: the round trip at a root group, at a last child nested
two levels deep (a non-empty ancestor chain), past a splitter sibling,
across axes, and the re-homing case, on small concrete trees. -/
theorem claim_C4_witness :
    closeSplitAtTabContent
        (materializeEmpty
          (splitAfterTabWidget ⟨.tabwidget 1 [⟨5, 50⟩] none none, 1, 0⟩
            1 .vertical).1 2 77) 77 =
      .ok { materializeEmpty
              (splitAfterTabWidget ⟨.tabwidget 1 [⟨5, 50⟩] none none, 1, 0⟩
                1 .vertical).1 2 77 with
            rootInfoNode := .tabwidget 1 [⟨5, 50⟩] none none } ∧
    closeSplitAtTabContent
        (materializeEmpty
          (splitAfterTabWidget
            ⟨.splitter .horizontal [.tabwidget 9 [⟨8, 80⟩] none none,
              .splitter .vertical [.tabwidget 1 [⟨5, 50⟩] none none,
                .tabwidget 2 [⟨6, 60⟩] none none]], 9, 8⟩ 2 .vertical).1
          10 77) 77 =
      .ok { materializeEmpty
              (splitAfterTabWidget
                ⟨.splitter .horizontal [.tabwidget 9 [⟨8, 80⟩] none none,
                  .splitter .vertical [.tabwidget 1 [⟨5, 50⟩] none none,
                    .tabwidget 2 [⟨6, 60⟩] none none]], 9, 8⟩ 2 .vertical).1
              10 77 with
            rootInfoNode := .splitter .horizontal
              [.tabwidget 9 [⟨8, 80⟩] none none,
               .splitter .vertical [.tabwidget 1 [⟨5, 50⟩] none none,
                 .tabwidget 2 [⟨6, 60⟩] none none]] } ∧
    closeSplitAtTabContent
        (materializeEmpty
          (splitAfterTabWidget
            ⟨.splitter .horizontal [.tabwidget 1 [⟨5, 50⟩] none none,
              .splitter .vertical [.tabwidget 2 [⟨6, 60⟩] none none,
                .tabwidget 3 [⟨7, 70⟩] none none]], 3, 1⟩ 1 .horizontal).1
          4 77) 77 =
      .ok { materializeEmpty
              (splitAfterTabWidget
                ⟨.splitter .horizontal [.tabwidget 1 [⟨5, 50⟩] none none,
                  .splitter .vertical [.tabwidget 2 [⟨6, 60⟩] none none,
                    .tabwidget 3 [⟨7, 70⟩] none none]], 3, 1⟩ 1 .horizontal).1
              4 77 with
            rootInfoNode := .splitter .horizontal
              [.tabwidget 1 [⟨5, 50⟩] none none,
               .splitter .vertical [.tabwidget 2 [⟨6, 60⟩] none none,
                 .tabwidget 3 [⟨7, 70⟩] none none]] } ∧
    closeSplitAtTabContent
        (materializeEmpty
          (splitAfterTabWidget
            ⟨.splitter .horizontal [.tabwidget 1 [⟨5, 50⟩] none none,
              .tabwidget 2 [⟨6, 60⟩] none none], 2, 1⟩ 1 .vertical).1 3 77) 77 =
      .ok { materializeEmpty
              (splitAfterTabWidget
                ⟨.splitter .horizontal [.tabwidget 1 [⟨5, 50⟩] none none,
                  .tabwidget 2 [⟨6, 60⟩] none none], 2, 1⟩ 1 .vertical).1
              3 77 with
            rootInfoNode := .splitter .horizontal
              [.tabwidget 1 [⟨5, 50⟩] none none,
               .tabwidget 2 [⟨6, 60⟩] none none] } ∧
    (closeSplitAtTabContent
        (materializeEmpty
          (splitAfterTabWidget
            ⟨.splitter .horizontal [.tabwidget 1 [⟨5, 50⟩] none none,
              .tabwidget 2 [⟨6, 60⟩] none none], 2, 1⟩ 1 .horizontal).1 3 77) 77 =
      .ok { materializeEmpty
              (splitAfterTabWidget
                ⟨.splitter .horizontal [.tabwidget 1 [⟨5, 50⟩] none none,
                  .tabwidget 2 [⟨6, 60⟩] none none], 2, 1⟩ 1 .horizontal).1
              3 77 with
            rootInfoNode := .splitter .horizontal
              [.tabwidget 1 [⟨5, 50⟩] none none,
               .tabwidget 3 [⟨6, 60⟩] (some 2) (some 77)] } ∧
     stripWidgetIdentity (.splitter .horizontal
        [.tabwidget 1 [⟨5, 50⟩] none none,
         .tabwidget 3 [⟨6, 60⟩] (some 2) (some 77)]) =
      stripWidgetIdentity (.splitter .horizontal
        [.tabwidget 1 [⟨5, 50⟩] none none,
         .tabwidget 2 [⟨6, 60⟩] none none])) := by
  refine ⟨?_, ?_, ?_, ?_, ?_⟩
  · exact claim_C4.1 ⟨.tabwidget 1 [⟨5, 50⟩] none none, 1, 0⟩ 1 [⟨5, 50⟩]
      none none .vertical 77 rfl
      (by simp [containsTabContent, findTabWidgetInfoByTabContent])
      (by simp [containsTabWidget, findTabWidgetInfoByTabWidget])
  · have h := claim_C4.2.1
      ⟨.splitter .horizontal [.tabwidget 9 [⟨8, 80⟩] none none,
        .splitter .vertical [.tabwidget 1 [⟨5, 50⟩] none none,
          .tabwidget 2 [⟨6, 60⟩] none none]], 9, 8⟩ 2 [⟨6, 60⟩] none none
      .vertical 77
      [⟨.horizontal, [.tabwidget 9 [⟨8, 80⟩] none none], []⟩]
      [.tabwidget 1 [⟨5, 50⟩] none none] rfl
      (by
        intro f hf
        simp at hf
        subst hf
        intro k hk
        simp at hk
        subst hk
        simp [containsTabWidget, findTabWidgetInfoByTabWidget])
      (by
        intro k hk
        simp at hk
        subst hk
        simp [containsTabWidget, findTabWidgetInfoByTabWidget])
      (by simp [containsTabWidget, findTabWidgetInfoByTabWidget,
        findTabWidgetInfoByTabWidgetList])
      (by simp [containsTabContent, findTabWidgetInfoByTabContent,
        findTabWidgetInfoByTabContentList])
      (by simp [nodeInv, nodeInvList])
    simpa [plugNode] using h
  · have h := claim_C4.2.2.1
      ⟨.splitter .horizontal [.tabwidget 1 [⟨5, 50⟩] none none,
        .splitter .vertical [.tabwidget 2 [⟨6, 60⟩] none none,
          .tabwidget 3 [⟨7, 70⟩] none none]], 3, 1⟩ 1 [⟨5, 50⟩] none none
      .horizontal .vertical 77 [] [] [.tabwidget 2 [⟨6, 60⟩] none none,
        .tabwidget 3 [⟨7, 70⟩] none none] [] rfl (by simp) (by simp)
      (by simp [containsTabWidget, findTabWidgetInfoByTabWidget,
        findTabWidgetInfoByTabWidgetList])
      (by simp [containsTabContent, findTabWidgetInfoByTabContent,
        findTabWidgetInfoByTabContentList])
      (by simp [nodeInv, nodeInvList])
    simpa [plugNode] using h
  · have h := claim_C4.2.2.2.1
      ⟨.splitter .horizontal [.tabwidget 1 [⟨5, 50⟩] none none,
        .tabwidget 2 [⟨6, 60⟩] none none], 2, 1⟩ 1 [⟨5, 50⟩] none none
      .horizontal .vertical 77 [] [] [.tabwidget 2 [⟨6, 60⟩] none none]
      (by simp) rfl (by simp) (by simp)
      (by simp [containsTabWidget, findTabWidgetInfoByTabWidget,
        findTabWidgetInfoByTabWidgetList])
      (by simp [containsTabContent, findTabWidgetInfoByTabContent,
        findTabWidgetInfoByTabContentList])
      (by simp [nodeInv, nodeInvList])
    simpa [plugNode] using h
  · have h := claim_C4.2.2.2.2
      ⟨.splitter .horizontal [.tabwidget 1 [⟨5, 50⟩] none none,
        .tabwidget 2 [⟨6, 60⟩] none none], 2, 1⟩ 1 [⟨5, 50⟩] none none
      .horizontal 77 [] [] 2 [⟨6, 60⟩] none none [] rfl (by simp) (by simp)
      (by simp [containsTabWidget, findTabWidgetInfoByTabWidget,
        findTabWidgetInfoByTabWidgetList])
      (by simp [containsTabContent, findTabWidgetInfoByTabContent,
        findTabWidgetInfoByTabContentList])
      (by simp [nodeInv, nodeInvList])
    simpa [plugNode] using h

end SplitLayout
